import Mathlib

/-!
# ZenoGuard agent: traffic sampler and report cycle

A shallow embedding of `agent/internal/collector/network.go` and
`agent/internal/reporter/reporter.go`, with the parts of `agent/cmd/agent/main.go`,
`agent/internal/config/config.go`, `agent/internal/daemon/daemon.go` and
`agent/internal/collector/ssh.go` that configure the agent, start a child process and read
the log of the SSH daemon.

Conventions of the embedding.
* `uint64` values are natural numbers; every addition or multiplication that can leave the
  range is reduced modulo `2 ^ 64` where the source computes it.
* `time.Time` is an integer count of nanoseconds since the zero instant, so that
  `IsZero` is equality with `0`; `time.Duration` is an integer count of nanoseconds.
* `float64` arithmetic is exact: rounding is not modelled. A float that holds a number of
  seconds always comes from `Duration.Seconds`, so it is kept as its exact count of
  nanoseconds (`FloatSeconds`); the load averages, which are only copied, are rationals.
* `time.Now()` is an explicit argument of every function that reads the clock.
* The mutex of the collector is not modelled: every method is one atomic step.
* A run-time panic (integer division by zero, index or slice out of range) is a result of
  its own of the function in which it happens.
* Texts are lists of Unicode characters, and lists of bytes where the source measures or
  slices them. What the libraries `regexp`, `time` and `fmt` do is modelled as far as the
  calls of the source need it; the answers of `FindStringSubmatch` are a parameter.
-/

namespace Zenoguard

/-! ## Machine integers and time -/

/-- Modulus of `uint64` arithmetic. -/
def U64 : Nat := 18446744073709551616

/-- Value of type `time.Time`: nanoseconds since the zero instant. -/
abbrev Time := Int

/-- Value of type `time.Duration`: nanoseconds. -/
abbrev Duration := Int

/-- One `time.Second`. -/
def Second : Duration := 1000000000

/-- One `time.Minute`. -/
def Minute : Duration := 60 * Second

/-- Largest `time.Duration`. -/
def maxDuration : Duration := 9223372036854775807

/-- Smallest `time.Duration`. -/
def minDuration : Duration := -9223372036854775808

/-- Method `Time.IsZero`. -/
def IsZero (t : Time) : Bool := t == 0

/-- Method `Time.Sub`: the difference `t - u`, saturated to the range of a duration. -/
def Sub (t u : Time) : Duration :=
  if t - u > maxDuration then maxDuration
  else if t - u < minDuration then minDuration
  else t - u

/-- A `float64` number of seconds, held exactly: `nanos` nanoseconds are `nanos / 10^9`
seconds. Sums of such values are again of this form. -/
structure FloatSeconds where
  nanos : Int
  deriving DecidableEq, Repr

/-- Method `Duration.Seconds`: the duration as a (fractional) number of seconds. -/
def Seconds (d : Duration) : FloatSeconds := { nanos := d }

/-- Comparison `x > 0` of a float number of seconds. -/
def FloatSeconds.isPositive (x : FloatSeconds) : Bool := decide (x.nanos > 0)

/-- Sum `x + y` of two float numbers of seconds, exact: where the sum of the source is
rounded in `float64` (0.7 + 0.2 + 0.1 gives 0.9999999999999999 there) the two differ. -/
def FloatSeconds.add (x y : FloatSeconds) : FloatSeconds := { nanos := x.nanos + y.nanos }

/-- Conversion `uint64(x)` of a float number of seconds: truncation toward zero. The source
converts non-negative values only; a value too large for `uint64`, where Go leaves the
result to the implementation, is reduced modulo `2 ^ 64`. -/
def FloatSeconds.toUint64 (x : FloatSeconds) : Nat := (x.nanos / 1000000000).toNat % U64

/-- Expression `uint64(float64(b) / x)` for a byte count `b` and a positive number of seconds
`x`: the truncated quotient, reduced modulo `2 ^ 64` like `toUint64`. The quotient is the
exact one: where the operands or the quotient of the source are rounded in `float64` (9003
bytes over 300.1 s give 29 there and 30 here) the two differ. -/
def ratePerSecond (b : Nat) (x : FloatSeconds) : Nat :=
  (((b : Int) * 1000000000) / x.nanos).toNat % U64

/-! ## collector/network.go -/

/-- Struct `NetworkInterface`. -/
structure NetworkInterface where
  Name : String
  InBytes : Nat
  OutBytes : Nat
  InPackets : Nat
  OutPackets : Nat
  InErrors : Nat
  OutErrors : Nat
  deriving DecidableEq, Repr

/-- Struct `TrafficSample`. -/
structure TrafficSample where
  Timestamp : Time
  InBytes : Nat
  OutBytes : Nat
  TotalBytes : Nat
  TimeDeltaSeconds : FloatSeconds
  deriving DecidableEq, Repr

/-- Struct `NetworkTraffic`. -/
structure NetworkTraffic where
  Interface : String
  Samples : List TrafficSample
  TotalInBytes : Nat
  TotalOutBytes : Nat
  SampleCount : Nat
  deriving DecidableEq, Repr

/-- Struct `NetworkCollector` (the embedded `BaseCollector` contributes `name`). -/
structure NetworkCollector where
  name : String
  devPath : String
  publicIface : String
  lastTotalInBytes : Nat
  lastTotalOutBytes : Nat
  lastTimestamp : Time
  sampleInterval : Duration
  samples : List TrafficSample
  lastSampleTime : Time
  deriving DecidableEq, Repr

/-- Function `NewNetworkCollector`: every field not listed has its zero value. -/
def NewNetworkCollector : NetworkCollector :=
  { name := "network"
    devPath := "/proc/net/dev"
    publicIface := ""
    lastTotalInBytes := 0
    lastTotalOutBytes := 0
    lastTimestamp := 0
    sampleInterval := 5 * Minute
    samples := []
    lastSampleTime := 0 }

/-- The sample that `collectSample` builds on its second branch (lines 163-178). -/
def deltaSample (c : NetworkCollector) (now : Time) (inBytes outBytes : Nat) : TrafficSample :=
  let timeDelta := Seconds (Sub now c.lastTimestamp)
  let sIn := if inBytes ≥ c.lastTotalInBytes then inBytes - c.lastTotalInBytes else 0
  let sOut := if outBytes ≥ c.lastTotalOutBytes then outBytes - c.lastTotalOutBytes else 0
  { Timestamp := now
    InBytes := sIn
    OutBytes := sOut
    TotalBytes := (sIn + sOut) % U64
    TimeDeltaSeconds := timeDelta }

/-- Method `NetworkCollector.collectSample`, with `now` the value of `time.Now()`. -/
def collectSample (c : NetworkCollector) (now : Time) (iface : String)
    (inBytes outBytes : Nat) : NetworkCollector :=
  if IsZero c.lastTimestamp || c.lastTotalInBytes == 0 then
    { c with
      lastTotalInBytes := inBytes
      lastTotalOutBytes := outBytes
      lastTimestamp := now
      lastSampleTime := now
      publicIface := iface }
  else
    let sample := deltaSample c now inBytes outBytes
    let samples :=
      if sample.InBytes > 0 ∨ sample.OutBytes > 0 then c.samples ++ [sample] else c.samples
    { c with
      samples := samples
      lastTotalInBytes := inBytes
      lastTotalOutBytes := outBytes
      lastTimestamp := now
      lastSampleTime := now
      publicIface := iface }

/-- Method `NetworkCollector.ClearSamples`. -/
def ClearSamples (c : NetworkCollector) : NetworkCollector :=
  { c with samples := [] }

/-- Method `NetworkCollector.ShouldSample`, with `now` the clock read by `time.Since`. -/
def ShouldSample (c : NetworkCollector) (now : Time) : Bool :=
  if IsZero c.lastSampleTime then true
  else decide (Sub now c.lastSampleTime ≥ c.sampleInterval)

/-- The three accumulators of the averaging loop of `Collect`. -/
structure RateTotals where
  totalInRate : Nat
  totalOutRate : Nat
  totalTimeSeconds : FloatSeconds
  deriving DecidableEq, Repr

/-- One iteration of the averaging loop of `Collect` (lines 115-128). -/
def rateStep (acc : RateTotals) (sample : TrafficSample) : RateTotals :=
  if sample.TimeDeltaSeconds.isPositive then
    let inRate := ratePerSecond sample.InBytes sample.TimeDeltaSeconds
    let outRate := ratePerSecond sample.OutBytes sample.TimeDeltaSeconds
    { totalInRate := (acc.totalInRate + inRate * sample.TimeDeltaSeconds.toUint64) % U64
      totalOutRate := (acc.totalOutRate + outRate * sample.TimeDeltaSeconds.toUint64) % U64
      totalTimeSeconds := acc.totalTimeSeconds.add sample.TimeDeltaSeconds }
  else acc

/-- The averaging loop of `Collect` over the whole buffer. -/
def rateTotals (samples : List TrafficSample) : RateTotals :=
  samples.foldl rateStep
    { totalInRate := 0, totalOutRate := 0, totalTimeSeconds := { nanos := 0 } }

/-- What a call of `Collect` comes to: `(nil, nil)`, a result, `(nil, err)`, or the run-time
panic of an integer division by zero. -/
inductive CollectResult where
  | noData
  | traffic (t : NetworkTraffic)
  | error (msg : String)
  | divideByZero
  deriving DecidableEq, Repr

/-- Lines 92-139 of `Collect`: the emptiness check and the summary of the buffer. -/
def summarize (c : NetworkCollector) (publicIface : String) : CollectResult :=
  if c.samples.length = 0 then CollectResult.noData
  else
    let totals := rateTotals c.samples
    if totals.totalTimeSeconds.isPositive then
      if totals.totalTimeSeconds.toUint64 = 0 then CollectResult.divideByZero
      else
        CollectResult.traffic
          { Interface := publicIface
            Samples := c.samples
            TotalInBytes := totals.totalInRate / totals.totalTimeSeconds.toUint64
            TotalOutBytes := totals.totalOutRate / totals.totalTimeSeconds.toUint64
            SampleCount := c.samples.length }
    else
      CollectResult.traffic
        { Interface := publicIface
          Samples := c.samples
          TotalInBytes := 0
          TotalOutBytes := 0
          SampleCount := c.samples.length }

/-- Method `NetworkCollector.Collect` on Linux. `stats` is the outcome of lines 78-87
(reading `devPath` and `parseNetworkStats`): an error message, or the selected interface
with its counters; `now` is the clock read inside `collectSample`. -/
def Collect (c : NetworkCollector) (now : Time)
    (stats : Except String (String × NetworkInterface)) : NetworkCollector × CollectResult :=
  match stats with
  | Except.error msg => (c, CollectResult.error msg)
  | Except.ok (publicIface, currentStats) =>
    let c1 := collectSample c now publicIface currentStats.InBytes currentStats.OutBytes
    (c1, summarize c1 publicIface)

/-! ## The other collectors and the payload (reporter/client.go) -/

/-- Struct `SSHLogin` of the collector package. -/
structure SSHLogin where
  User : String
  IP : String
  Time : String
  Method : String
  Success : Bool
  Port : Int
  Protocol : String
  SessionDuration : Int
  IsActive : Bool
  deriving DecidableEq, Repr

/-- Struct `SystemLoad` of the collector package. -/
structure SystemLoad where
  Load1 : ℚ
  Load5 : ℚ
  Load15 : ℚ
  deriving DecidableEq, Repr

/-- Struct `HostInfo` of the collector package. -/
structure HostInfo where
  Hostname : String
  PublicIP : String
  OS : String
  Arch : String
  Uptime : Nat
  deriving DecidableEq, Repr

/-- Struct `SSHLoginReport`. -/
structure SSHLoginReport where
  User : String
  IP : String
  Time : String
  Method : String
  Success : Bool
  Port : Int
  Protocol : String
  SessionDuration : Int
  IsActive : Bool
  deriving DecidableEq, Repr

/-- Struct `SystemLoadReport`. -/
structure SystemLoadReport where
  Load1 : ℚ
  Load5 : ℚ
  Load15 : ℚ
  deriving DecidableEq, Repr

/-- Struct `TrafficSampleReport`. `Timestamp` is kept as the instant whose RFC 3339 text
the source stores. -/
structure TrafficSampleReport where
  Timestamp : Time
  InBytes : Nat
  OutBytes : Nat
  TotalBytes : Nat
  TimeDeltaSeconds : FloatSeconds
  deriving DecidableEq, Repr

/-- Struct `NetworkTrafficReport`. -/
structure NetworkTrafficReport where
  Interface : String
  Samples : List TrafficSampleReport
  TotalInBytes : Nat
  TotalOutBytes : Nat
  SampleCount : Nat
  deriving DecidableEq, Repr

/-- Struct `ReportData`. -/
structure ReportData where
  Hostname : String
  SSHLogins : List SSHLoginReport
  SystemLoad : SystemLoadReport
  NetworkTraffic : NetworkTrafficReport
  PublicIP : String
  deriving DecidableEq, Repr

/-- The value `&ReportData{}`: every field zero. -/
def emptyReportData : ReportData :=
  { Hostname := ""
    SSHLogins := []
    SystemLoad := { Load1 := 0, Load5 := 0, Load15 := 0 }
    NetworkTraffic :=
      { Interface := "", Samples := [], TotalInBytes := 0, TotalOutBytes := 0, SampleCount := 0 }
    PublicIP := "" }

/-- Struct `ReportResponse`. -/
structure ReportResponse where
  Success : Bool
  ReportInterval : Int
  deriving DecidableEq, Repr

/-- A non-nil `interface{}` value returned by some `Collect`, by the cases of the type
switch of `collectData`. `systemLoad` and `hostInfo` stand for the value and for the
pointer case, which the switch treats alike; `unknown` is any other dynamic type. -/
inductive CollectValue where
  | sshLogins (v : List SSHLogin)
  | systemLoad (v : SystemLoad)
  | networkTraffic (v : NetworkTraffic)
  | hostInfo (v : HostInfo)
  | unknown
  deriving DecidableEq, Repr

/-- The pair `(interface{}, error)` returned by a `Collect` that returns: an error, or a
result that may be nil. -/
abbrev CollectOutcome := Except String (Option CollectValue)

/-- Function `convertSSHLogins`. -/
def convertSSHLogins (logins : List SSHLogin) : List SSHLoginReport :=
  logins.map fun login =>
    { User := login.User
      IP := login.IP
      Time := login.Time
      Method := login.Method
      Success := login.Success
      Port := login.Port
      Protocol := login.Protocol
      SessionDuration := login.SessionDuration
      IsActive := login.IsActive }

/-- Body of the loop of `collectData` (lines 209-267) for one collector outcome. -/
def mergeResult (data : ReportData) (outcome : CollectOutcome) : ReportData :=
  match outcome with
  | Except.error _ => data
  | Except.ok none => data
  | Except.ok (some (CollectValue.sshLogins v)) => { data with SSHLogins := convertSSHLogins v }
  | Except.ok (some (CollectValue.systemLoad v)) =>
    { data with SystemLoad := { Load1 := v.Load1, Load5 := v.Load5, Load15 := v.Load15 } }
  | Except.ok (some (CollectValue.networkTraffic v)) =>
    { data with
      NetworkTraffic :=
        { Interface := v.Interface
          Samples := v.Samples.map fun s =>
            { Timestamp := s.Timestamp
              InBytes := s.InBytes
              OutBytes := s.OutBytes
              TotalBytes := s.TotalBytes
              TimeDeltaSeconds := s.TimeDeltaSeconds }
          TotalInBytes := v.TotalInBytes
          TotalOutBytes := v.TotalOutBytes
          SampleCount := v.SampleCount } }
  | Except.ok (some (CollectValue.hostInfo v)) =>
    { data with Hostname := v.Hostname, PublicIP := v.PublicIP }
  | Except.ok (some CollectValue.unknown) => data

/-! ## reporter/reporter.go -/

/-- Constant `MaxRetries`. -/
def MaxRetries : Nat := 5

/-- Constant `InitialRetryDelay`. -/
def InitialRetryDelay : Duration := 5 * Second

/-- Constant `MaxRetryDelay`. -/
def MaxRetryDelay : Duration := 60 * Second

/-- Constant `BackoffMultiplier`. -/
def BackoffMultiplier : Int := 2

/-- The text of the error that `Client.Report` returns on status 401 and that `report`
compares against. -/
def unauthorizedMessage : String := "unauthorized: invalid token"

/-- Struct `Config` of the reporter package. -/
structure Config where
  ServerURL : String
  Token : String
  ReportInterval : Int
  deriving DecidableEq, Repr

/-- Struct `Reporter`. `NewReporter` registers the collectors ssh, system, network and
hostinfo, in this order, and nothing changes the list afterwards: `network` is the state
of the one `NetworkCollector`, the other three collectors have no state of their own.
`intervalUpdate` is the channel of capacity 1: the value waiting in it, if any. -/
structure Reporter where
  config : Config
  network : NetworkCollector
  reportInterval : Duration
  intervalUpdate : Option Duration
  deriving DecidableEq, Repr

/-- Function `NewReporter`. -/
def NewReporter (config : Config) : Reporter :=
  { config := config
    network := NewNetworkCollector
    reportInterval := 0
    intervalUpdate := none }

/-- The pair `(*ReportResponse, error)` returned by `Client.Report`. -/
inductive SubmitResult where
  | ok (response : Option ReportResponse)
  | err (msg : String)
  deriving DecidableEq, Repr

/-- What the outside world answers during one attempt of a report cycle: the outcomes of the
three stateless collectors, the clock and the parsed counters seen by the network collector,
and the answer of `Client.Report` to the payload it is given. -/
structure AttemptEnv where
  ssh : CollectOutcome
  system : CollectOutcome
  hostinfo : CollectOutcome
  now : Time
  netStats : Except String (String × NetworkInterface)
  submit : ReportData → SubmitResult

/-- The outcome of the network collector as `collectData` sees it; `none` when `Collect`
panics instead of returning. -/
def networkOutcome : CollectResult → Option CollectOutcome
  | CollectResult.noData => some (Except.ok none)
  | CollectResult.traffic t => some (Except.ok (some (CollectValue.networkTraffic t)))
  | CollectResult.error msg => some (Except.error msg)
  | CollectResult.divideByZero => none

/-- Method `Reporter.collectData`: the collectors are asked in their registration order. The
returned error of the source is always nil and is left out; the payload is `none` when the
network collector panics, which ends the process. -/
def collectData (r : Reporter) (e : AttemptEnv) : Reporter × Option ReportData :=
  let data := mergeResult (mergeResult emptyReportData e.ssh) e.system
  let step := Collect r.network e.now e.netStats
  let r1 := { r with network := step.1 }
  match networkOutcome step.2 with
  | none => (r1, none)
  | some outcome => (r1, some (mergeResult (mergeResult data outcome) e.hostinfo))

/-- Wrap-around of a product computed in `int64`. -/
def wrapInt64 (x : Int) : Int := (x + 9223372036854775808) % 18446744073709551616 - 9223372036854775808

/-- Lines 168-183 of `report`: the interval directive of a successful response. -/
def applyInterval (r : Reporter) (response : Option ReportResponse) : Reporter :=
  match response with
  | none => r
  | some resp =>
    if resp.ReportInterval > 0 then
      let newInterval := resp.ReportInterval
      if newInterval ≠ r.config.ReportInterval then
        let r1 := { r with config := { r.config with ReportInterval := newInterval } }
        match r1.intervalUpdate with
        | none => { r1 with intervalUpdate := some (wrapInt64 (newInterval * Second)) }
        | some _ => r1
      else r
    else r

/-- How a call of `report` ends: it returns nil or an error, the process exits through
`logger.Fatal`, or the process dies of a panic. -/
inductive ReportOutcome where
  | returned (err : Option String)
  | exited
  | panicked
  deriving DecidableEq, Repr

/-- A finished call of `report`: the state it leaves and how it ended, with three records
kept in order: every `time.Sleep` it made, every payload it handed to `Client.Report`, and
the value of the variable `delay` at the start of every iteration of the retry loop. -/
structure ReportRun where
  reporter : Reporter
  outcome : ReportOutcome
  sleeps : List Duration
  submitted : List ReportData
  delays : List Duration
  deriving Repr

/-- The variables of the retry loop of `report`, with the records of the run so far. -/
structure LoopState where
  reporter : Reporter
  delay : Duration
  lastErr : Option String
  sleeps : List Duration
  submitted : List ReportData
  delays : List Duration

/-- Text of `fmt.Errorf("max retries exceeded: %w", lastErr)`. -/
def maxRetriesMessage (lastErr : Option String) : String :=
  "max retries exceeded: " ++ lastErr.getD "%!w(<nil>)"

/-- The loop of `report` from iteration `attempt` on, with `remaining = MaxRetries - attempt`
iterations left. The branch for an error of `collectData` is left out: that error is always
nil. -/
def reportLoop (env : Nat → AttemptEnv) : Nat → Nat → LoopState → ReportRun
  | 0, _, st =>
    { reporter := st.reporter
      outcome := ReportOutcome.returned (some (maxRetriesMessage st.lastErr))
      sleeps := st.sleeps
      submitted := st.submitted
      delays := st.delays }
  | remaining + 1, attempt, st =>
    let delays := st.delays ++ [st.delay]
    let sleeps := if attempt > 0 then st.sleeps ++ [st.delay] else st.sleeps
    match collectData st.reporter (env attempt) with
    | (r1, none) =>
      { reporter := r1
        outcome := ReportOutcome.panicked
        sleeps := sleeps
        submitted := st.submitted
        delays := delays }
    | (r1, some data) =>
      let submitted := st.submitted ++ [data]
      match (env attempt).submit data with
      | SubmitResult.err msg =>
        if msg = unauthorizedMessage then
          { reporter := r1
            outcome := ReportOutcome.exited
            sleeps := sleeps ++ [1 * Minute]
            submitted := submitted
            delays := delays }
        else
          let delay := st.delay * BackoffMultiplier
          let delay := if delay > MaxRetryDelay then MaxRetryDelay else delay
          reportLoop env remaining (attempt + 1)
            { reporter := r1
              delay := delay
              lastErr := some msg
              sleeps := sleeps
              submitted := submitted
              delays := delays }
      | SubmitResult.ok response =>
        let r2 := applyInterval r1 response
        { reporter := { r2 with network := ClearSamples r2.network }
          outcome := ReportOutcome.returned none
          sleeps := sleeps
          submitted := submitted
          delays := delays }

/-- Method `Reporter.report`; `env k` is what the world answers during attempt `k`
(counted from 0). -/
def report (r : Reporter) (env : Nat → AttemptEnv) : ReportRun :=
  reportLoop env MaxRetries 0
    { reporter := r
      delay := InitialRetryDelay
      lastErr := none
      sleeps := []
      submitted := []
      delays := [] }

/-- The variables of `report` on entry to its loop. -/
def initialLoopState (r : Reporter) : LoopState :=
  { reporter := r
    delay := InitialRetryDelay
    lastErr := none
    sleeps := []
    submitted := []
    delays := [] }

/-- The sleeps recorded once iteration `attempt` has passed its `if attempt > 0` block. -/
def sleepsBefore (attempt : Nat) (st : LoopState) : List Duration :=
  if attempt > 0 then st.sleeps ++ [st.delay] else st.sleeps

/-- The backoff of lines 160-164: the delay doubled and capped. -/
def nextDelay (delay : Duration) : Duration :=
  if delay * BackoffMultiplier > MaxRetryDelay then MaxRetryDelay
  else delay * BackoffMultiplier

/-- The variables of the loop after iteration `attempt` failed with the retryable error
`msg`, having collected into `r1` and submitted `data`. -/
def retryState (st : LoopState) (attempt : Nat) (r1 : Reporter) (data : ReportData)
    (msg : String) : LoopState :=
  { reporter := r1
    delay := nextDelay st.delay
    lastErr := some msg
    sleeps := sleepsBefore attempt st
    submitted := st.submitted ++ [data]
    delays := st.delays ++ [st.delay] }

/-- Every submission made in this attempt fails with an error other than the unauthorized
one. -/
def failsTransiently (e : AttemptEnv) : Prop :=
  ∀ data, ∃ msg, e.submit data = SubmitResult.err msg ∧ msg ≠ unauthorizedMessage

/-- Every submission made in this attempt succeeds. -/
def succeeds (e : AttemptEnv) : Prop :=
  ∀ data, ∃ response, e.submit data = SubmitResult.ok response

/-! ## Auxiliary definitions used to state the properties -/

/-- One call `collectSample(iface, inBytes, outBytes)` made at time `now`. -/
structure SampleCall where
  now : Time
  iface : String
  inBytes : Nat
  outBytes : Nat
  deriving DecidableEq, Repr

/-- A sequence of `collectSample` calls, made in order with no `ClearSamples` in between. -/
def runCalls (c : NetworkCollector) (calls : List SampleCall) : NetworkCollector :=
  calls.foldl (fun acc k => collectSample acc k.now k.iface k.inBytes k.outBytes) c

/-- Sum of `InBytes` over a buffer. -/
def sumInBytes (samples : List TrafficSample) : Nat :=
  (samples.map fun s => s.InBytes).sum

/-- Sum of `OutBytes` over a buffer. -/
def sumOutBytes (samples : List TrafficSample) : Nat :=
  (samples.map fun s => s.OutBytes).sum

/-- Both counters of the later call are at least those of the earlier call. -/
def nonDecreasing (a b : SampleCall) : Prop :=
  a.inBytes ≤ b.inBytes ∧ a.outBytes ≤ b.outBytes

/-- The in-counters and the out-counters of a sequence of calls are each non-decreasing. -/
def countersNonDecreasing : List SampleCall → Bool
  | a :: b :: rest =>
    decide (a.inBytes ≤ b.inBytes) && decide (a.outBytes ≤ b.outBytes) &&
      countersNonDecreasing (b :: rest)
  | _ => true

/-- A collector that holds the snapshot `(a_in, a_out)` taken at `t0` for `iface`, with an
empty buffer. -/
def snapshotAt (t0 : Time) (iface : String) (a_in a_out : Nat) : NetworkCollector :=
  { NewNetworkCollector with
    publicIface := iface
    lastTotalInBytes := a_in
    lastTotalOutBytes := a_out
    lastTimestamp := t0
    lastSampleTime := t0 }

/-- Counters of `eth0` as an outcome of reading and parsing the device file. -/
def eth0Stats (inBytes outBytes : Nat) : Except String (String × NetworkInterface) :=
  Except.ok ("eth0",
    { Name := "eth0"
      InBytes := inBytes
      OutBytes := outBytes
      InPackets := 0
      OutPackets := 0
      InErrors := 0
      OutErrors := 0 })

/-- A reporter whose network collector holds the snapshot `(1000, 500)` of `eth0`, with an
empty buffer and the interval 300. -/
def seededReporter : Reporter :=
  { NewReporter { ServerURL := "https://example.org", Token := "0123456789", ReportInterval := 300 }
    with network := snapshotAt 1000000000 "eth0" 1000 500 }

/-- A world in which attempt `k` happens at `100 (k + 2)` seconds, sees 100 more in-bytes
than the attempt before, and has its submission answered with status 500. -/
def serverErrorEnv (k : Nat) : AttemptEnv :=
  { ssh := Except.ok none
    system := Except.ok none
    hostinfo := Except.ok none
    now := 100000000000 * (k + 2)
    netStats := eth0Stats (1000 + 100 * (k + 1)) 500
    submit := fun _ => SubmitResult.err "server returned error: 500 - " }

/-- The world of `serverErrorEnv`, except that from attempt `j` on the submission is
accepted with the directive `report_interval = 300`. -/
def acceptedFromEnv (j : Nat) (k : Nat) : AttemptEnv :=
  if k < j then serverErrorEnv k
  else
    { serverErrorEnv k with
      submit := fun _ => SubmitResult.ok (some { Success := true, ReportInterval := 300 }) }

/-! ## reporter/client.go: Client.Report -/

/-- Constant `http.StatusUnauthorized`. -/
def StatusUnauthorized : Int := 401

/-- Constant `http.StatusOK`. -/
def StatusOK : Int := 200

/-- What the network does with one call of `Client.Report`, in the order in which the
function meets it: `json.Marshal` fails, `http.NewRequest` fails, `httpClient.Do` fails
(transport error or timeout), the response arrives with a status but `io.ReadAll` of its body
fails, or the response arrives with a status and a body. -/
inductive Exchange where
  | marshalFailed (err : String)
  | requestFailed (err : String)
  | sendFailed (err : String)
  | bodyUnreadable (status : Int) (err : String)
  | response (status : Int) (body : String)
  deriving DecidableEq, Repr

/-- Method `Client.Report`. `unmarshal` is `json.Unmarshal` into a `ReportResponse`: an error
text, or the decoded directive. -/
def Client.Report (unmarshal : String → Except String ReportResponse) : Exchange → SubmitResult
  | Exchange.marshalFailed err => SubmitResult.err ("failed to marshal report data: " ++ err)
  | Exchange.requestFailed err => SubmitResult.err ("failed to create request: " ++ err)
  | Exchange.sendFailed err => SubmitResult.err ("failed to send request: " ++ err)
  | Exchange.bodyUnreadable _ err =>
    SubmitResult.err ("failed to read response body: " ++ err)
  | Exchange.response status body =>
    if status = StatusUnauthorized then SubmitResult.err "unauthorized: invalid token"
    else if status ≠ StatusOK then
      SubmitResult.err ("server returned error: " ++ toString status ++ " - " ++ body)
    else
      match unmarshal body with
      | Except.error err => SubmitResult.err ("failed to parse response: " ++ err)
      | Except.ok response => SubmitResult.ok (some response)

/-- A decoder that accepts one body, the directive with `report_interval = 120`, and rejects
every other text. -/
def directiveUnmarshal (body : String) : Except String ReportResponse :=
  if body = "\x7b\"success\":true,\"report_interval\":120\x7d" then
    Except.ok { Success := true, ReportInterval := 120 }
  else Except.error "invalid character"

/-- The world of `serverErrorEnv`, except that the submission of every attempt goes through
`Client.Report` and meets the exchange `x`. -/
def exchangeEnv (x : Exchange) (k : Nat) : AttemptEnv :=
  { serverErrorEnv k with submit := fun _ => Client.Report directiveUnmarshal x }

/-- The world of `serverErrorEnv`, except that every submission is accepted with the
directive `report_interval = n`. -/
def directiveEnv (n : Int) (k : Nat) : AttemptEnv :=
  { serverErrorEnv k with
    submit := fun _ => SubmitResult.ok (some { Success := true, ReportInterval := n }) }

/-- The contribution of one sample to `totalInRate`: its truncated rate times its truncated
number of seconds, for a positive time delta, and nothing otherwise. -/
def weightedIn (s : TrafficSample) : Nat :=
  if s.TimeDeltaSeconds.isPositive then
    ratePerSecond s.InBytes s.TimeDeltaSeconds * s.TimeDeltaSeconds.toUint64
  else 0

/-- The contribution of one sample to `totalOutRate`. -/
def weightedOut (s : TrafficSample) : Nat :=
  if s.TimeDeltaSeconds.isPositive then
    ratePerSecond s.OutBytes s.TimeDeltaSeconds * s.TimeDeltaSeconds.toUint64
  else 0

/-- Sum of the in-contributions of a buffer. -/
def weightedInBytes (samples : List TrafficSample) : Nat :=
  (samples.map weightedIn).sum

/-- Sum of the out-contributions of a buffer. -/
def weightedOutBytes (samples : List TrafficSample) : Nat :=
  (samples.map weightedOut).sum

/-- Sum, in nanoseconds, of the positive time deltas of a buffer. -/
def positiveNanos (samples : List TrafficSample) : Int :=
  (samples.map fun s =>
    if s.TimeDeltaSeconds.isPositive then s.TimeDeltaSeconds.nanos else 0).sum

/-- The whole seconds in the sum of the positive time deltas: the divisor of `Collect`. -/
def wholeSeconds (samples : List TrafficSample) : Nat :=
  FloatSeconds.toUint64 { nanos := positiveNanos samples }

/-- The reporter at the start of the attempt that comes `j` attempts after attempt `a`, when
`r` is the reporter at the start of attempt `a`: every attempt in between has collected. -/
def reporterFrom (env : Nat → AttemptEnv) : Nat → Reporter → Nat → Reporter
  | _, r, 0 => r
  | a, r, j + 1 => reporterFrom env (a + 1) (collectData r (env a)).1 j

/-- The loop of `collectData` over the outcomes of any list of collectors, in the order of
the list, starting from the empty payload. -/
def mergeAll (outcomes : List CollectOutcome) : ReportData :=
  outcomes.foldl mergeResult emptyReportData

/-- The result shapes that the type switch of `collectData` knows, by the part of the payload
they fill. -/
inductive Shape where
  | sshLogins
  | systemLoad
  | networkTraffic
  | hostInfo
  deriving DecidableEq, Repr

/-- The known shape of an outcome; `none` for a collector that failed, returned no data or
returned a value of an unknown shape. -/
def shapeOf : CollectOutcome → Option Shape
  | Except.ok (some (CollectValue.sshLogins _)) => some Shape.sshLogins
  | Except.ok (some (CollectValue.systemLoad _)) => some Shape.systemLoad
  | Except.ok (some (CollectValue.networkTraffic _)) => some Shape.networkTraffic
  | Except.ok (some (CollectValue.hostInfo _)) => some Shape.hostInfo
  | _ => none

/-- Two payloads agree on the part that results of shape `σ` fill. -/
def sameField (σ : Shape) (d1 d2 : ReportData) : Prop :=
  match σ with
  | Shape.sshLogins => d1.SSHLogins = d2.SSHLogins
  | Shape.systemLoad => d1.SystemLoad = d2.SystemLoad
  | Shape.networkTraffic => d1.NetworkTraffic = d2.NetworkTraffic
  | Shape.hostInfo => d1.Hostname = d2.Hostname ∧ d1.PublicIP = d2.PublicIP

/-- One call of a method of the network collector, with the time of the call. -/
inductive SamplerOp where
  | collectSample (now : Time) (iface : String) (inBytes outBytes : Nat)
  | collect (now : Time) (stats : Except String (String × NetworkInterface))
  | shouldSample (now : Time)
  | clearSamples (now : Time)

/-- The time at which the operation is called. -/
def SamplerOp.time : SamplerOp → Time
  | SamplerOp.collectSample now _ _ _ => now
  | SamplerOp.collect now _ => now
  | SamplerOp.shouldSample now => now
  | SamplerOp.clearSamples now => now

/-- Whether the operation is `ClearSamples`. -/
def SamplerOp.isClear : SamplerOp → Bool
  | SamplerOp.clearSamples _ => true
  | _ => false

/-- The collector after the operation. `ShouldSample` only reads the collector and returns a
boolean, so it leaves the collector as it is. -/
def applyOp (c : NetworkCollector) : SamplerOp → NetworkCollector
  | SamplerOp.collectSample now iface inBytes outBytes =>
    collectSample c now iface inBytes outBytes
  | SamplerOp.collect now stats => (Collect c now stats).1
  | SamplerOp.shouldSample _ => c
  | SamplerOp.clearSamples _ => ClearSamples c

/-- The collector after a sequence of operations. -/
def applyOps (c : NetworkCollector) (ops : List SamplerOp) : NetworkCollector :=
  ops.foldl applyOp c

/-- The operations are called at non-decreasing times. -/
def timesNonDecreasing : List SamplerOp → Bool
  | a :: b :: rest => decide (a.time ≤ b.time) && timesNonDecreasing (b :: rest)
  | _ => true

/-- Method `Ticker.Reset` of the time package, as `Start` calls it with a value received
from the channel (lines 94-98): it panics for a duration that is not positive (`none`) and
otherwise makes the duration the new period. -/
def tickerReset (d : Duration) : Option Duration :=
  if d ≤ 0 then none else some d

/-- The answer of `Client.Report` with the field `success` of an accepted response set to
`b`; every other answer unchanged. -/
def setSuccess (b : Bool) : SubmitResult → SubmitResult
  | SubmitResult.ok (some resp) => SubmitResult.ok (some { resp with Success := b })
  | other => other

/-- The same world, except that every accepted response carries `success = b`. -/
def withSuccess (b : Bool) (e : AttemptEnv) : AttemptEnv :=
  { e with submit := fun data => setSuccess b (e.submit data) }

/-- The run returned nil and its last submission was accepted with the response `resp`. -/
def acceptedWith (run : ReportRun) (env : Nat → AttemptEnv) (resp : ReportResponse) : Prop :=
  run.outcome = ReportOutcome.returned none ∧
    ∃ data : ReportData, run.submitted.getLast? = some data ∧
      (env (run.submitted.length - 1)).submit data = SubmitResult.ok (some resp)

/-! ## config/config.go, cmd/agent/main.go and daemon/daemon.go -/

/-- Struct `Config` of the config package. -/
structure AgentConfig where
  ServerURL : String
  Token : String
  ReportInterval : Int
  deriving DecidableEq, Repr

/-- Value of a run of decimal digits. -/
def digitsValue (ds : List Char) : Nat :=
  ds.foldl (fun acc d => 10 * acc + (d.toNat - 48)) 0

/-- Function `strconv.Atoi` on a 64-bit platform: an optional sign and at least one decimal
digit, with a value in the range of `int`; `none` is its error. -/
def Atoi (s : String) : Option Int :=
  let parse (negative : Bool) (ds : List Char) : Option Int :=
    if ds ≠ [] ∧ ds.all Char.isDigit then
      let v : Int := if negative then -(digitsValue ds : Int) else (digitsValue ds : Int)
      if -9223372036854775808 ≤ v ∧ v ≤ 9223372036854775807 then some v else none
    else none
  match s.data with
  | '-' :: ds => parse true ds
  | '+' :: ds => parse false ds
  | ds => parse false ds

/-- Function `DefaultConfig`; `getenv` is `os.Getenv`. -/
def DefaultConfig (getenv : String → String) : AgentConfig :=
  let c0 : AgentConfig := { ServerURL := "", Token := "", ReportInterval := 300 }
  let c1 := if getenv "ZENOGUARD_SERVER_URL" ≠ "" then
    { c0 with ServerURL := getenv "ZENOGUARD_SERVER_URL" } else c0
  let c2 := if getenv "ZENOGUARD_TOKEN" ≠ "" then
    { c1 with Token := getenv "ZENOGUARD_TOKEN" } else c1
  if getenv "ZENOGUARD_REPORT_INTERVAL" ≠ "" then
    match Atoi (getenv "ZENOGUARD_REPORT_INTERVAL") with
    | some iv => { c2 with ReportInterval := iv }
    | none => c2
  else c2

/-- The flags `-server` and `-token` override the configuration when they are not empty
(lines 124-129 and again lines 141-146 of `main`). -/
def applyFlags (serverURL token : String) (c : AgentConfig) : AgentConfig :=
  let c1 := if serverURL ≠ "" then { c with ServerURL := serverURL } else c
  if token ≠ "" then { c1 with Token := token } else c1

/-- Lines 104-138 of `main`, the handling of a first run; `none` is the end of the process
(`os.Exit`, `logger.Fatal`). `configExists` is the result of `config.ConfigExists` and
`saveConfig` tells whether `config.SaveConfig` succeeds. -/
def firstRunConfig (configExists : Bool) (saveConfig : AgentConfig → Bool)
    (cfg : AgentConfig) (serverURL token : String) : Option AgentConfig :=
  if !configExists ∨ (cfg.ServerURL = "" ∧ cfg.Token = "") then
    if serverURL = "" ∧ token = "" ∧ (cfg.ServerURL = "" ∨ cfg.Token = "") then none
    else if (applyFlags serverURL token cfg).ServerURL ≠ "" ∧
        (applyFlags serverURL token cfg).Token ≠ "" then
      if saveConfig (applyFlags serverURL token cfg) then some (applyFlags serverURL token cfg)
      else none
    else some (applyFlags serverURL token cfg)
  else some cfg

/-- Lines 104-177 of `main`, from the loaded configuration `cfg` to the configuration with
which the reporter is constructed; `none` is every way in which the process ends before
(`os.Exit`, `logger.Fatal`). `serverURL`, `token` and `daemonFlag` are the flags of the
command line and `otherRunning` the outcome of the check for an agent that is already
running. -/
def mainReporterConfig (configExists : Bool) (saveConfig : AgentConfig → Bool)
    (cfg : AgentConfig) (serverURL token : String) (daemonFlag otherRunning : Bool) :
    Option Config :=
  match firstRunConfig configExists saveConfig cfg serverURL token with
  | none => none
  | some c =>
    if (applyFlags serverURL token c).ServerURL = "" ∨ (applyFlags serverURL token c).Token = ""
    then none
    else if daemonFlag then none
    else if otherRunning then none
    else
      some
        { ServerURL := (applyFlags serverURL token c).ServerURL
          Token := (applyFlags serverURL token c).Token
          ReportInterval := (applyFlags serverURL token c).ReportInterval }

/-- The period with which `Start` creates the report ticker (line 66). -/
def startInterval (config : Config) : Duration :=
  wrapInt64 (config.ReportInterval * Second)

/-- Function `time.NewTicker`: it panics for a duration that is not positive (`none`). -/
def newTicker (d : Duration) : Option Duration :=
  if d ≤ 0 then none else some d

/-- A Go string as the sequence of its bytes, for the code that measures and slices it. -/
abbrev Bytes := List UInt8

/-- The bytes of `"https://"`. -/
def httpsPrefix : Bytes := [104, 116, 116, 112, 115, 58, 47, 47]

/-- The bytes of `"http://"`. -/
def httpPrefix : Bytes := [104, 116, 116, 112, 58, 47, 47]

/-- Slice expression `s[:n]`: a run-time panic (`none`) when `n` exceeds the length. -/
def sliceTo (s : Bytes) (n : Nat) : Option Bytes :=
  if n ≤ s.length then some (s.take n) else none

/-- Text of the error for a server URL of the wrong form. -/
def invalidURLMessage : String :=
  "invalid server URL format (should start with http:// or https://)"

/-- How `configureAgent` ends: with an error of its own, with the call of `SaveConfig` on
the configuration built from its arguments (whose result it returns), or with the panic of
a slice out of range. -/
inductive ConfigureResult where
  | error (msg : String)
  | saved (serverURL token : Bytes) (reportInterval : Int)
  | sliceOutOfRange
  deriving DecidableEq, Repr

/-- Lines 218-229 of `configureAgent`: the check of the token and the saving. -/
def configureToken (serverURL token : Bytes) : ConfigureResult :=
  if token.length < 10 then ConfigureResult.error "invalid token (too short)"
  else ConfigureResult.saved serverURL token 60

/-- Function `configureAgent`. The condition of line 214 is evaluated from left to right,
each `||` stopping at the first operand that is true. -/
def configureAgent (serverURL token : Bytes) : ConfigureResult :=
  if serverURL = [] ∨ token = [] then
    ConfigureResult.error "server URL and token are required"
  else if serverURL.length < 10 then ConfigureResult.error invalidURLMessage
  else
    match sliceTo serverURL 8 with
    | none => ConfigureResult.sliceOutOfRange
    | some p8 =>
      if p8 = httpsPrefix then configureToken serverURL token
      else
        match sliceTo serverURL 7 with
        | none => ConfigureResult.sliceOutOfRange
        | some p7 =>
          if p7 = httpPrefix then configureToken serverURL token
          else ConfigureResult.error invalidURLMessage

/-- The loop of `buildChildArgs` over the arguments that are left, with the value of
`skipNext`. The test `i+1 < len(args)` is that the argument is not the last one. -/
def filterArgs : Bool → List String → List String
  | _, [] => []
  | true, _ :: rest => filterArgs false rest
  | false, arg :: rest =>
    if arg = "-daemon" ∨ arg = "--daemon" then filterArgs false rest
    else if (arg = "-d" ∨ arg = "--daemon-flag") ∧ rest ≠ [] then filterArgs true rest
    else arg :: filterArgs false rest

/-- Function `buildChildArgs` on the value of `os.Args`; `none` is the panic of
`os.Args[1:]` on an empty `os.Args`. -/
def buildChildArgs (osArgs : List String) : Option (List String) :=
  match osArgs with
  | [] => none
  | program :: args => some (program :: filterArgs false args)

/-- An environment in which only `ZENOGUARD_REPORT_INTERVAL` is set, to `value`. -/
def intervalOnlyEnv (value : String) (name : String) : String :=
  if name = "ZENOGUARD_REPORT_INTERVAL" then value else ""

/-- The bytes of `"http://ab"`, nine of them. -/
def shortURL : Bytes := [104, 116, 116, 112, 58, 47, 47, 97, 98]

/-- The bytes of `"http://a.io"`. -/
def exampleURL : Bytes := [104, 116, 116, 112, 58, 47, 47, 97, 46, 105, 111]

/-- The bytes of `"1234567890"`. -/
def exampleToken : Bytes := [49, 50, 51, 52, 53, 54, 55, 56, 57, 48]

/-- The arguments of `buildChildArgs` that are neither `-daemon` nor `--daemon`. -/
def withoutDaemonFlags (args : List String) : List String :=
  args.filter (fun a => decide (a ≠ "-daemon" ∧ a ≠ "--daemon"))

/-! ## collector/network.go: parseNetworkStats -/

/-- Function `unicode.IsSpace`. -/
def isSpace (c : Char) : Bool :=
  decide (c.toNat = 9 ∨ c.toNat = 10 ∨ c.toNat = 11 ∨ c.toNat = 12 ∨ c.toNat = 13 ∨
    c.toNat = 32 ∨ c.toNat = 133 ∨ c.toNat = 160 ∨ c.toNat = 5760 ∨
    (8192 ≤ c.toNat ∧ c.toNat ≤ 8202) ∨ c.toNat = 8232 ∨ c.toNat = 8233 ∨
    c.toNat = 8239 ∨ c.toNat = 8287 ∨ c.toNat = 12288)

/-- Function `strings.Split(data, "\n")` on the characters of `data`. -/
def splitNewline : List Char → List (List Char)
  | [] => [[]]
  | c :: cs =>
    if c = '\n' then [] :: splitNewline cs
    else
      match splitNewline cs with
      | [] => [[c]]
      | l :: ls => (c :: l) :: ls

/-- Function `strings.TrimSpace`. -/
def TrimSpace (s : List Char) : List Char :=
  ((s.dropWhile isSpace).reverse.dropWhile isSpace).reverse

/-- The scan of `strings.Fields`; `cur` holds the characters of the field that is being
read, last one first. -/
def fieldsFrom : List Char → List Char → List (List Char)
  | cur, [] => if cur = [] then [] else [cur.reverse]
  | cur, c :: cs =>
    if isSpace c then
      if cur = [] then fieldsFrom [] cs else cur.reverse :: fieldsFrom [] cs
    else fieldsFrom (c :: cur) cs

/-- Function `strings.Fields`. -/
def Fields (s : List Char) : List (List Char) :=
  fieldsFrom [] s

/-- Function `strings.HasPrefix`. -/
def HasPrefix (s pre : String) : Bool :=
  pre.data.isPrefixOf s.data

/-- The value that `strconv.ParseUint(s, 10, 64)` returns, whose error is ignored by
`parseNetworkStats`: 0 for a text that is not a run of decimal digits, and the largest
`uint64` for a number out of range. -/
def ParseUint (s : List Char) : Nat :=
  if s ≠ [] ∧ s.all Char.isDigit then
    if digitsValue s < U64 then digitsValue s else U64 - 1
  else 0

/-- The interface name of lines 239-244 of `parseNetworkStats`: what stands before the
first colon of the first field, `none` when there is no colon. -/
def interfaceName (field : List Char) : Option String :=
  if ':' ∈ field then some (String.mk (field.takeWhile (fun c => c ≠ ':'))) else none

/-- The test of lines 247-250 of `parseNetworkStats`: loopback and virtual interfaces. -/
def excludedName (name : String) : Bool :=
  name = "lo" || HasPrefix name "veth" || HasPrefix name "docker" || HasPrefix name "br-"

/-- The body of the loop of `parseNetworkStats` up to the construction of `iface`; `none`
is a `continue`. The fields read are in range after the test `len(parts) < 17`. -/
def parseInterfaceLine (line : List Char) : Option NetworkInterface :=
  if TrimSpace line = [] then none
  else if (Fields (TrimSpace line)).length < 17 then none
  else
    match interfaceName ((Fields (TrimSpace line)).getD 0 []) with
    | none => none
    | some name =>
      if excludedName name then none
      else
        some
          { Name := name
            InBytes := ParseUint ((Fields (TrimSpace line)).getD 1 [])
            OutBytes := ParseUint ((Fields (TrimSpace line)).getD 9 [])
            InPackets := ParseUint ((Fields (TrimSpace line)).getD 2 [])
            OutPackets := ParseUint ((Fields (TrimSpace line)).getD 10 [])
            InErrors := ParseUint ((Fields (TrimSpace line)).getD 3 [])
            OutErrors := ParseUint ((Fields (TrimSpace line)).getD 11 []) }

/-- The variables of the loop of `parseNetworkStats`. The map `interfaces` is a list of
entries in which the first entry of a name is the one that counts. -/
structure StatsState where
  publicIface : String
  maxBytes : Nat
  interfaces : List (String × NetworkInterface)
  deriving DecidableEq, Repr

/-- The sum `inBytes + outBytes` of `parseNetworkStats`, in `uint64`. -/
def totalBytes (iface : NetworkInterface) : Nat :=
  (iface.InBytes + iface.OutBytes) % U64

/-- Lines 269-276 of `parseNetworkStats`: the interface is stored in the map and compared
with the largest traffic seen so far. -/
def recordInterface (st : StatsState) (iface : NetworkInterface) : StatsState :=
  if totalBytes iface > st.maxBytes then
    { publicIface := iface.Name
      maxBytes := totalBytes iface
      interfaces := (iface.Name, iface) :: st.interfaces }
  else { st with interfaces := (iface.Name, iface) :: st.interfaces }

/-- One turn of the loop of `parseNetworkStats` on a line after the two header lines. -/
def statsLine (st : StatsState) (line : List Char) : StatsState :=
  match parseInterfaceLine line with
  | none => st
  | some iface => recordInterface st iface

/-- Text of the error of `parseNetworkStats`. -/
def noInterfaceMessage : String := "no valid network interface found"

/-- Lines 279-293 of `parseNetworkStats`. The loop `for name := range interfaces` with its
`break` takes one key of the map, which one is not determined: `choice` selects it. The
second component of the result is the pointer read from the map, `none` for `nil`. -/
def selectInterface (choice : Nat) (st : StatsState) :
    Except String (String × Option NetworkInterface) :=
  let publicIface :=
    if st.publicIface = "" then
      (st.interfaces.map Prod.fst).getD (choice % (st.interfaces.map Prod.fst).length) ""
    else st.publicIface
  if publicIface = "" then Except.error noInterfaceMessage
  else Except.ok (publicIface, st.interfaces.lookup publicIface)

/-- Method `NetworkCollector.parseNetworkStats` on a text of Unicode characters. The loop
skips the lines of index 0 and 1. -/
def parseNetworkStats (choice : Nat) (data : String) :
    Except String (String × Option NetworkInterface) :=
  selectInterface choice
    (((splitNewline data.data).drop 2).foldl statsLine
      { publicIface := "", maxBytes := 0, interfaces := [] })

/-- The interfaces of the lines that the loop of `parseNetworkStats` does not skip, in the
order of the text. -/
def interfaceLines (data : String) : List NetworkInterface :=
  ((splitNewline data.data).drop 2).filterMap parseInterfaceLine

/-- A line of the device file with the given name, received bytes and sent bytes. -/
def deviceLine (name : String) (inBytes outBytes : Nat) : String :=
  "  " ++ name ++ ": " ++ toString inBytes ++ " 10 0 0 0 0 0 0 " ++ toString outBytes ++
    " 20 0 0 0 0 0 0\n"

/-- The two header lines of the device file. -/
def deviceHeader : String :=
  "Inter-|   Receive                    |  Transmit\n face |bytes packets errs drop fifo frame compressed multicast|bytes packets errs drop fifo colls carrier compressed\n"

/-- A device file with the interfaces `lo`, `eth0`, `eth1` and `docker0`. -/
def exampleDeviceFile : String :=
  deviceHeader ++ deviceLine "lo" 100000 100000 ++ deviceLine "eth0" 5 7 ++
    deviceLine "eth1" 50 70 ++ deviceLine "docker0" 500 700

/-- A device file in which the two byte counters of `eth0` add up to `2^64`. -/
def overflowDeviceFile : String :=
  deviceHeader ++ deviceLine "eth0" 18446744073709551615 1 ++ deviceLine "eth1" 5 5

/-- A device file with two lines for `eth0`. -/
def repeatedDeviceFile : String :=
  deviceHeader ++ deviceLine "eth0" 100 100 ++ deviceLine "eth1" 50 50 ++ deviceLine "eth0" 1 1

/-- A device file whose only interface line has nothing before the colon. -/
def namelessDeviceFile : String :=
  deviceHeader ++ deviceLine "" 100 100

/-! ## collector/ssh.go: parseLogFile -/

/-- Class `\w` of the regular expressions. -/
def isWordChar (c : Char) : Bool := c.isAlphanum || c == '_'

/-- Class `\s` of the regular expressions. -/
def isBlankChar (c : Char) : Bool :=
  c == '\t' || c == '\n' || c.toNat == 12 || c == '\r' || c == ' '

/-- Class `.` of the regular expressions: every character but the newline. -/
def isAnyChar (c : Char) : Bool := c != '\n'

/-- Class `[\d.]` of the regular expressions. -/
def isDigitOrDot (c : Char) : Bool := c.isDigit || c == '.'

/-- The regular expressions that `parseLogFile` compiles are built from literal texts,
`x*` and `x+` for a class `x` of characters, alternatives, capture groups and
concatenation. -/
inductive Pattern where
  | lit (s : String)
  | many (f : Char → Bool)
  | many1 (f : Char → Bool)
  | alt (a b : Pattern)
  | group (a : Pattern)
  | seq (a b : Pattern)
  | empty

/-- Concatenation of a list of patterns. -/
def cat : List Pattern → Pattern
  | [] => Pattern.empty
  | p :: ps => Pattern.seq p (cat ps)

/-- Number of capture groups of `(*Regexp).NumSubexp`. -/
def Pattern.groups : Pattern → Nat
  | Pattern.lit _ => 0
  | Pattern.many _ => 0
  | Pattern.many1 _ => 0
  | Pattern.alt a b => a.groups + b.groups
  | Pattern.group a => a.groups + 1
  | Pattern.seq a b => a.groups + b.groups
  | Pattern.empty => 0

/-- What can be left of a text after `x*` has read a part of its beginning. -/
def manyRun (f : Char → Bool) : List Char → List (List Char)
  | [] => [[]]
  | c :: r => if f c then (c :: r) :: manyRun f r else [c :: r]

/-- What can be left of the text `t` after the pattern has matched a part of its
beginning. -/
def Pattern.run : Pattern → List Char → List (List Char)
  | Pattern.lit s, t => if s.data.isPrefixOf t then [t.drop s.data.length] else []
  | Pattern.many f, t => manyRun f t
  | Pattern.many1 f, t =>
    match t with
    | [] => []
    | c :: r => if f c then manyRun f r else []
  | Pattern.alt a b, t => a.run t ++ b.run t
  | Pattern.group a, t => a.run t
  | Pattern.seq a b, t => (a.run t).flatMap b.run
  | Pattern.empty, t => [t]

/-- The pattern matches a part of the text, from some position on. -/
def Pattern.found (p : Pattern) (text : List Char) : Bool :=
  text.tails.any (fun t => !(p.run t).isEmpty)

/-- The date and time at the beginning of a line of the log:
`(\w+\s+\d+\s+\d+:\d+:\d+)`. -/
def timestampGroup : Pattern :=
  Pattern.group
    (cat [Pattern.many1 isWordChar, Pattern.many1 isBlankChar, Pattern.many1 Char.isDigit,
      Pattern.many1 isBlankChar, Pattern.many1 Char.isDigit, Pattern.lit ":",
      Pattern.many1 Char.isDigit, Pattern.lit ":", Pattern.many1 Char.isDigit])

/-- Pattern `acceptedPattern` of `parseLogFile`:
`(\w+\s+\d+\s+\d+:\d+:\d+).*sshd\[\d+\]:\s+(Accepted|Failed)\s+(\w+)\s+for\s+(\w+)\s+from\s+([\d.]+)\s+port\s+(\d+)`.
-/
def acceptedPattern : Pattern :=
  cat [timestampGroup, Pattern.many isAnyChar, Pattern.lit "sshd[", Pattern.many1 Char.isDigit,
    Pattern.lit "]:", Pattern.many1 isBlankChar,
    Pattern.group (Pattern.alt (Pattern.lit "Accepted") (Pattern.lit "Failed")),
    Pattern.many1 isBlankChar, Pattern.group (Pattern.many1 isWordChar),
    Pattern.many1 isBlankChar, Pattern.lit "for", Pattern.many1 isBlankChar,
    Pattern.group (Pattern.many1 isWordChar), Pattern.many1 isBlankChar, Pattern.lit "from",
    Pattern.many1 isBlankChar, Pattern.group (Pattern.many1 isDigitOrDot),
    Pattern.many1 isBlankChar, Pattern.lit "port", Pattern.many1 isBlankChar,
    Pattern.group (Pattern.many1 Char.isDigit)]

/-- Pattern `publickeyPattern` of `parseLogFile`:
`(\w+\s+\d+\s+\d+:\d+:\d+).*sshd\[\d+\]:\s+(Accepted|Failed)\s+publickey\s+for\s+(\w+)\s+from\s+([\d.]+)\s+port\s+(\d+)`.
-/
def publickeyPattern : Pattern :=
  cat [timestampGroup, Pattern.many isAnyChar, Pattern.lit "sshd[", Pattern.many1 Char.isDigit,
    Pattern.lit "]:", Pattern.many1 isBlankChar,
    Pattern.group (Pattern.alt (Pattern.lit "Accepted") (Pattern.lit "Failed")),
    Pattern.many1 isBlankChar, Pattern.lit "publickey",
    Pattern.many1 isBlankChar, Pattern.lit "for", Pattern.many1 isBlankChar,
    Pattern.group (Pattern.many1 isWordChar), Pattern.many1 isBlankChar, Pattern.lit "from",
    Pattern.many1 isBlankChar, Pattern.group (Pattern.many1 isDigitOrDot),
    Pattern.many1 isBlankChar, Pattern.lit "port", Pattern.many1 isBlankChar,
    Pattern.group (Pattern.many1 Char.isDigit)]

/-- Pattern `invalidUserPattern` of `parseLogFile`:
`(\w+\s+\d+\s+\d+:\d+:\d+).*sshd\[\d+\]:\s+(Invalid user)\s+(\w+)\s+from\s+([\d.]+)\s+port\s+(\d+)`.
-/
def invalidUserPattern : Pattern :=
  cat [timestampGroup, Pattern.many isAnyChar, Pattern.lit "sshd[", Pattern.many1 Char.isDigit,
    Pattern.lit "]:", Pattern.many1 isBlankChar, Pattern.group (Pattern.lit "Invalid user"),
    Pattern.many1 isBlankChar, Pattern.group (Pattern.many1 isWordChar),
    Pattern.many1 isBlankChar, Pattern.lit "from", Pattern.many1 isBlankChar,
    Pattern.group (Pattern.many1 isDigitOrDot), Pattern.many1 isBlankChar, Pattern.lit "port",
    Pattern.many1 isBlankChar, Pattern.group (Pattern.many1 Char.isDigit)]

/-- Method `FindStringSubmatch` of the three compiled patterns, as the regexp library
answers for each line: the match followed by its groups, `[]` for `nil`. -/
structure Regexps where
  accepted : String → List String
  publickey : String → List String
  invalidUser : String → List String

/-- Function `strings.Contains`. -/
def Contains (s substr : String) : Bool :=
  s.data.tails.any (fun t => substr.data.isPrefixOf t)

/-- Method `SSHCollector.parseInt`: `fmt.Sscanf(s, "%d", &i)` skips blanks, reads a sign and
the run of decimal digits that follows, whatever comes after it, and leaves `i` at 0 when
there is no digit or the number is out of the range of `int64`. -/
def parseInt (s : String) : Int :=
  let rest := s.data.dropWhile (fun c => isSpace c && c != '\n')
  let number (negative : Bool) (body : List Char) : Int :=
    let tok := body.takeWhile Char.isDigit
    if tok ≠ [] then
      let v : Int := if negative then -(digitsValue tok : Int) else (digitsValue tok : Int)
      if -9223372036854775808 ≤ v ∧ v ≤ 9223372036854775807 then v else 0
    else 0
  match rest with
  | '-' :: body => number true body
  | '+' :: body => number false body
  | body => number false body

/-- Call `fmt.Sprintf("%d %s", year, s)`. -/
def withYear (year : Int) (s : String) : String :=
  toString year ++ " " ++ s

/-- Method `SSHCollector.parseLoginFromMatches`; `none` is the panic of an index out of
range. The fields are read in the order of the struct literal. -/
def parseLoginFromMatches (m : List String) (hasMethod : Bool) : Option SSHLogin := do
  let time ← m[1]?
  let user ← m[4]?
  let ip ← m[5]?
  let outcome ← m[2]?
  let port ← m[6]?
  let login : SSHLogin :=
    { User := user
      IP := ip
      Time := time
      Method := "password"
      Success := Contains outcome "Accepted"
      Port := parseInt port
      Protocol := "ssh2"
      SessionDuration := 0
      IsActive := false }
  if hasMethod ∧ m.length > 3 then
    let method ← m[3]?
    pure { login with Method := method }
  else pure login

/-- The struct literal of the publickey branch of `parseLogFile` (lines 149-157); `none` is
the panic of an index out of range. -/
def publickeyLogin (m : List String) : Option SSHLogin := do
  let time ← m[1]?
  let user ← m[4]?
  let ip ← m[5]?
  let outcome ← m[2]?
  let port ← m[6]?
  pure
    { User := user
      IP := ip
      Time := time
      Method := "publickey"
      Success := Contains outcome "Accepted"
      Port := parseInt port
      Protocol := "ssh2"
      SessionDuration := 0
      IsActive := false }

/-- The struct literal of the invalid-user branch of `parseLogFile` (lines 167-175); `none`
is the panic of an index out of range. -/
def invalidUserLogin (m : List String) : Option SSHLogin := do
  let time ← m[1]?
  let user ← m[3]?
  let ip ← m[4]?
  let port ← m[5]?
  pure
    { User := user
      IP := ip
      Time := time
      Method := "password"
      Success := false
      Port := parseInt port
      Protocol := "ssh2"
      SessionDuration := 0
      IsActive := false }

/-- The branch that the loop of `parseLogFile` takes for a line. -/
inductive Branch where
  | accepted
  | publickey
  | invalidUser
  | noMatch
  deriving DecidableEq, Repr

/-- The tests of lines 138, 148 and 166 of `parseLogFile`, in their order. -/
def lineBranch (re : Regexps) (line : String) : Branch :=
  if (re.accepted line).length ≥ 7 then Branch.accepted
  else if (re.publickey line).length ≥ 6 then Branch.publickey
  else if (re.invalidUser line).length ≥ 6 then Branch.invalidUser
  else Branch.noMatch

/-- One turn of the loop of `parseLogFile` over the lines: the login that is appended, if
any; the outer `none` is the panic of an index out of range. -/
def parseLine (re : Regexps) (currentYear : Int) (line : String) : Option (Option SSHLogin) :=
  match lineBranch re line with
  | Branch.accepted =>
    (parseLoginFromMatches (re.accepted line) true).map
      (fun login => some { login with Time := withYear currentYear login.Time })
  | Branch.publickey =>
    (publickeyLogin (re.publickey line)).map
      (fun login => some { login with Time := withYear currentYear login.Time })
  | Branch.invalidUser =>
    (invalidUserLogin (re.invalidUser line)).map
      (fun login => some { login with Time := withYear currentYear login.Time })
  | Branch.noMatch => some none

/-- The loop of `parseLogFile` over the lines, from the oldest to the newest; `none` is the
panic of an index out of range. -/
def parseLines (re : Regexps) (currentYear : Int) :
    List String → List SSHLogin → Option (List SSHLogin)
  | [], logins => some logins
  | line :: rest, logins =>
    match parseLine re currentYear line with
    | none => none
    | some none => parseLines re currentYear rest logins
    | some (some login) => parseLines re currentYear rest (logins ++ [login])

/-- The loop of `parseLogFile` over the scanner: the last 1000 lines. -/
def lastLines (scanned : List String) : List String :=
  scanned.foldl
    (fun lines text => if (lines ++ [text]).length > 1000 then (lines ++ [text]).tail
      else lines ++ [text]) []

/-- Whether `year` is a leap year. -/
def isLeap (year : Int) : Bool :=
  year % 4 == 0 && (year % 100 != 0 || year % 400 == 0)

/-- Number of days of a month. -/
def daysIn (month : Nat) (year : Int) : Nat :=
  if month = 2 then (if isLeap year then 29 else 28)
  else if month = 4 ∨ month = 6 ∨ month = 9 ∨ month = 11 then 30
  else 31

/-- Function `time.Date` in UTC, for a month from 1 to 12 and the other fields in their
ranges: the nanoseconds since the zero instant, 1 January of the year 1. -/
def Date (year : Int) (month day hour min sec nsec : Nat) : Time :=
  let y := year - 1
  let days : Int :=
    365 * y + y / 4 - y / 100 + y / 400 +
      (((List.range (month - 1)).map (fun m => daysIn (m + 1) year)).sum : Nat) + ((day : Int) - 1)
  (days * 86400 + hour * 3600 + min * 60 + sec) * Second + nsec

/-- Table `shortMonthNames` of the time package. -/
def shortMonthNames : List String :=
  ["Jan", "Feb", "Mar", "Apr", "May", "Jun", "Jul", "Aug", "Sep", "Oct", "Nov", "Dec"]

/-- Function `match` of the time package: equality of two texts of the same length up to
the case of the letters. -/
def matchFold : List Char → List Char → Bool
  | c1 :: s1, c2 :: s2 =>
    (c1 == c2 ||
      ((c1.toNat ||| 32) == (c2.toNat ||| 32) && 97 ≤ (c1.toNat ||| 32) &&
        (c1.toNat ||| 32) ≤ 122)) && matchFold s1 s2
  | _, _ => true

/-- Function `lookup` of the time package, from the index `i` of the table on. -/
def lookupFrom : Nat → List String → List Char → Option (Nat × List Char)
  | _, [], _ => none
  | i, v :: tab, val =>
    if v.data.length ≤ val.length ∧ matchFold (val.take v.data.length) v.data then
      some (i, val.drop v.data.length)
    else lookupFrom (i + 1) tab val

/-- Function `getnum` of the time package: a number of one or two digits, of two digits when
`fixed`. -/
def getnum (s : List Char) (fixed : Bool) : Option (Nat × List Char) :=
  match s with
  | [] => none
  | c :: r =>
    if c.isDigit then
      match r with
      | d :: r2 =>
        if d.isDigit then some ((c.toNat - 48) * 10 + (d.toNat - 48), r2)
        else if fixed then none else some (c.toNat - 48, r)
      | [] => if fixed then none else some (c.toNat - 48, [])
    else none

/-- Function `skip` of the time package for the layout text `" "`: a run of spaces. -/
def skipSpaces (value : List Char) : Option (List Char) :=
  match value with
  | [] => some []
  | c :: r => if c = ' ' then some ((c :: r).dropWhile (fun x => x == ' ')) else none

/-- Function `skip` of the time package for the layout text `":"`. -/
def skipColon (value : List Char) : Option (List Char) :=
  match value with
  | [] => none
  | c :: r => if c = ':' then some r else none

/-- The fraction of a second that `time.Parse` accepts after the seconds although the
layout has none: a period or comma and digits, of which nine count. -/
def fraction (value : List Char) : Nat × List Char :=
  match value with
  | c :: d :: r =>
    if (c = '.' ∨ c = ',') ∧ d.isDigit then
      (digitsValue (((d :: r).takeWhile Char.isDigit).take 9) *
          10 ^ (9 - (((d :: r).takeWhile Char.isDigit).take 9).length),
        (d :: r).dropWhile Char.isDigit)
    else (0, c :: d :: r)
  | other => (0, other)

/-- Call `time.Parse("2006 Jan 2 15:04:05", value)`; `none` is an error. -/
def ParseLogTime (value : String) : Option Time := do
  let v0 := value.data
  if v0.length < 4 ∨ !(v0.headD ' ').isDigit then none
  if !(v0.take 4).all Char.isDigit then none
  let year : Int := digitsValue (v0.take 4)
  let v1 ← skipSpaces (v0.drop 4)
  let (monthIndex, v2) ← lookupFrom 0 shortMonthNames v1
  let v3 ← skipSpaces v2
  let (day, v4) ← getnum v3 false
  let v5 ← skipSpaces v4
  let (hour, v6) ← getnum v5 false
  if 24 ≤ hour then none
  let v7 ← skipColon v6
  let (min, v8) ← getnum v7 true
  if 60 ≤ min then none
  let v9 ← skipColon v8
  let (sec, v10) ← getnum v9 true
  if 60 ≤ sec then none
  let (nsec, v11) := fraction v10
  if v11 ≠ [] then none
  if day < 1 ∨ daysIn (monthIndex + 1) year < day then none
  pure (Date year (monthIndex + 1) day hour min sec nsec)

/-- The readings of the clock in `parseLogFile` and `filterRecentLogins`: the year at the
beginning of `parseLogFile`, the instant from which the cutoff is taken, and the year that
the loop of the filter reads. -/
structure LogClock where
  currentYear : Int
  now : Time
  filterYear : Int
  deriving DecidableEq, Repr

/-- Method `SSHCollector.filterRecentLogins`. -/
def filterRecentLogins (clock : LogClock) (logins : List SSHLogin) (duration : Duration) :
    List SSHLogin :=
  logins.filter
    (fun login =>
      match ParseLogTime (withYear clock.filterYear login.Time) with
      | some t => decide (clock.now - duration < t)
      | none => false)

/-- How `parseLogFile` ends: with logins, with an error, or with the panic of an index out
of range. -/
inductive ParseLogResult where
  | logins (l : List SSHLogin)
  | error (msg : String)
  | indexOutOfRange
  deriving DecidableEq, Repr

/-- Method `SSHCollector.parseLogFile`. `openErr` is the error of `os.Open`, `scanned` are
the lines that the scanner delivers and `scanErr` the error with which it stops, `re` are
the answers of the regexp library. -/
def parseLogFile (openErr : Option String) (re : Regexps) (clock : LogClock)
    (scanned : List String) (scanErr : Option String) : ParseLogResult :=
  match openErr with
  | some err => ParseLogResult.error err
  | none =>
    match parseLines re clock.currentYear (lastLines scanned) [] with
    | none => ParseLogResult.indexOutOfRange
    | some logins =>
      match scanErr with
      | some err => ParseLogResult.error err
      | none => ParseLogResult.logins (filterRecentLogins clock logins (15 * Minute))

/-- A line of the log for a login with a public key. -/
def publickeyLine : String :=
  "Nov 14 11:55:00 host sshd[1234]: Accepted publickey for root from 1.2.3.4 port 22 ssh2"

/-- A line of the log for a login with a password. -/
def passwordLine : String :=
  "Nov 14 11:57:00 host sshd[1250]: Accepted password for root from 1.2.3.4 port 22 ssh2"

/-- A line of the log for an invalid user. -/
def invalidUserLine : String :=
  "Nov 14 11:56:00 host sshd[1240]: Invalid user admin from 5.6.7.8 port 4022"

/-- The answers of the regexp library for the three example lines. -/
def exampleRegexps : Regexps where
  accepted := fun line =>
    if line = publickeyLine then
      ["Nov 14 11:55:00 host sshd[1234]: Accepted publickey for root from 1.2.3.4 port 22",
        "Nov 14 11:55:00", "Accepted", "publickey", "root", "1.2.3.4", "22"]
    else if line = passwordLine then
      ["Nov 14 11:57:00 host sshd[1250]: Accepted password for root from 1.2.3.4 port 22",
        "Nov 14 11:57:00", "Accepted", "password", "root", "1.2.3.4", "22"]
    else []
  publickey := fun line =>
    if line = publickeyLine then
      ["Nov 14 11:55:00 host sshd[1234]: Accepted publickey for root from 1.2.3.4 port 22",
        "Nov 14 11:55:00", "Accepted", "root", "1.2.3.4", "22"]
    else []
  invalidUser := fun line =>
    if line = invalidUserLine then
      ["Nov 14 11:56:00 host sshd[1240]: Invalid user admin from 5.6.7.8 port 4022",
        "Nov 14 11:56:00", "Invalid user", "admin", "5.6.7.8", "4022"]
    else []

/-- The clock at noon of 14 November 2026. -/
def exampleClock : LogClock :=
  { currentYear := 2026
    now := Date 2026 11 14 12 0 0 0
    filterYear := 2026 }

/-- The part that `acceptedPattern` and `publickeyPattern` share before the method. -/
def methodPrefix : List Pattern :=
  [timestampGroup, Pattern.many isAnyChar, Pattern.lit "sshd[", Pattern.many1 Char.isDigit,
    Pattern.lit "]:", Pattern.many1 isBlankChar,
    Pattern.group (Pattern.alt (Pattern.lit "Accepted") (Pattern.lit "Failed")),
    Pattern.many1 isBlankChar]

/-- The part that `acceptedPattern` and `publickeyPattern` share after the method. -/
def methodSuffix : List Pattern :=
  [Pattern.many1 isBlankChar, Pattern.lit "for", Pattern.many1 isBlankChar,
    Pattern.group (Pattern.many1 isWordChar), Pattern.many1 isBlankChar, Pattern.lit "from",
    Pattern.many1 isBlankChar, Pattern.group (Pattern.many1 isDigitOrDot),
    Pattern.many1 isBlankChar, Pattern.lit "port", Pattern.many1 isBlankChar,
    Pattern.group (Pattern.many1 Char.isDigit)]

/-- The world of `serverErrorEnv`, except that the first attempt happens at 1.5 s, half a
second after the snapshot of `seededReporter`, and reads the counters `(1500, 700)`. -/
def halfSecondEnv (k : Nat) : AttemptEnv :=
  if k = 0 then
    { serverErrorEnv 0 with
      now := 1500000000
      netStats := eth0Stats 1500 700 }
  else serverErrorEnv k

/-- An attempt at 1.5 s, half a second after the snapshot of `seededReporter`, in which the
ssh collector returns one login, the system collector the loads and the hostinfo collector
the name and the address of the host, while the network collector reads `(1500, 700)`. -/
def knownShapesEnv : AttemptEnv :=
  { ssh :=
      Except.ok (some (CollectValue.sshLogins
        [{ User := "root"
           IP := "1.2.3.4"
           Time := "2026 Nov 14 11:57:00"
           Method := "password"
           Success := true
           Port := 22
           Protocol := "ssh2"
           SessionDuration := 0
           IsActive := false }]))
    system := Except.ok (some (CollectValue.systemLoad { Load1 := 1, Load5 := 2, Load15 := 3 }))
    hostinfo :=
      Except.ok (some (CollectValue.hostInfo
        { Hostname := "web1", PublicIP := "203.0.113.7", OS := "linux", Arch := "amd64",
          Uptime := 3600 }))
    now := 1500000000
    netStats := eth0Stats 1500 700
    submit := fun _ => SubmitResult.err "server returned error: 500 - " }

/-! ## collectSample: basic facts -/

theorem collectSample_of_seed (c : NetworkCollector) (now : Time) (iface : String)
    (inBytes outBytes : Nat) (h : c.lastTimestamp = 0 ∨ c.lastTotalInBytes = 0) :
    collectSample c now iface inBytes outBytes =
      { c with
        lastTotalInBytes := inBytes
        lastTotalOutBytes := outBytes
        lastTimestamp := now
        lastSampleTime := now
        publicIface := iface } := by
  unfold collectSample
  have hc : (IsZero c.lastTimestamp || c.lastTotalInBytes == 0) = true := by
    rcases h with h | h <;> simp [IsZero, h]
  rw [if_pos hc]

theorem collectSample_of_live (c : NetworkCollector) (now : Time) (iface : String)
    (inBytes outBytes : Nat) (ht : c.lastTimestamp ≠ 0) (hi : c.lastTotalInBytes ≠ 0) :
    collectSample c now iface inBytes outBytes =
      { c with
        samples :=
          if (deltaSample c now inBytes outBytes).InBytes > 0 ∨
              (deltaSample c now inBytes outBytes).OutBytes > 0 then
            c.samples ++ [deltaSample c now inBytes outBytes]
          else c.samples
        lastTotalInBytes := inBytes
        lastTotalOutBytes := outBytes
        lastTimestamp := now
        lastSampleTime := now
        publicIface := iface } := by
  unfold collectSample
  have hc : ¬ (IsZero c.lastTimestamp || c.lastTotalInBytes == 0) = true := by
    simp [IsZero, ht, hi]
  rw [if_neg hc]

theorem collectSample_lastTotalInBytes (c : NetworkCollector) (now : Time) (iface : String)
    (inBytes outBytes : Nat) :
    (collectSample c now iface inBytes outBytes).lastTotalInBytes = inBytes := by
  unfold collectSample; split <;> rfl

theorem collectSample_lastTotalOutBytes (c : NetworkCollector) (now : Time) (iface : String)
    (inBytes outBytes : Nat) :
    (collectSample c now iface inBytes outBytes).lastTotalOutBytes = outBytes := by
  unfold collectSample; split <;> rfl

theorem collectSample_lastTimestamp (c : NetworkCollector) (now : Time) (iface : String)
    (inBytes outBytes : Nat) :
    (collectSample c now iface inBytes outBytes).lastTimestamp = now := by
  unfold collectSample; split <;> rfl

theorem collectSample_lastSampleTime (c : NetworkCollector) (now : Time) (iface : String)
    (inBytes outBytes : Nat) :
    (collectSample c now iface inBytes outBytes).lastSampleTime = now := by
  unfold collectSample; split <;> rfl

theorem collectSample_publicIface (c : NetworkCollector) (now : Time) (iface : String)
    (inBytes outBytes : Nat) :
    (collectSample c now iface inBytes outBytes).publicIface = iface := by
  unfold collectSample; split <;> rfl

theorem deltaSample_InBytes (c : NetworkCollector) (now : Time) (inBytes outBytes : Nat) :
    (deltaSample c now inBytes outBytes).InBytes = inBytes - c.lastTotalInBytes := by
  unfold deltaSample
  by_cases h : inBytes ≥ c.lastTotalInBytes
  · simp [h]
  · simp [h]; omega

theorem deltaSample_OutBytes (c : NetworkCollector) (now : Time) (inBytes outBytes : Nat) :
    (deltaSample c now inBytes outBytes).OutBytes = outBytes - c.lastTotalOutBytes := by
  unfold deltaSample
  by_cases h : outBytes ≥ c.lastTotalOutBytes
  · simp [h]
  · simp [h]; omega

/-- The buffer after `collectSample` extends the buffer before it. -/
theorem collectSample_samples_extend (c : NetworkCollector) (now : Time) (iface : String)
    (inBytes outBytes : Nat) :
    c.samples <+: (collectSample c now iface inBytes outBytes).samples ∧
      (collectSample c now iface inBytes outBytes).samples.length ≤ c.samples.length + 1 := by
  unfold collectSample
  split
  · simp
  · dsimp only
    split <;> simp

/-! ## The delta sample (C1) -/

/-- Claim C1, refuted as stated. A collector that holds a snapshot taken at a non-zero time
whose in-counter is `0` only re-seeds on the next call, although both directions increased:
no sample is appended. Where a sample is appended, `TotalBytes` is the sum of the two
deltas reduced modulo `2 ^ 64`, which differs from the sum for deltas that large; and
`TimeDeltaSeconds` is the saturated `Sub`, which differs from `t1 - t0` when the two times
are further apart than a duration can hold. -/
theorem collectSample_records_counterexample :
    (snapshotAt 1000000000 "eth0" 0 500).lastTimestamp ≠ 0 ∧
    (collectSample (snapshotAt 1000000000 "eth0" 0 500) 11000000000 "eth0" 1500 700).samples
      = [] ∧
    (collectSample (snapshotAt 1000000000 "eth0" 1 1) 11000000000 "eth0"
        18446744073709551615 18446744073709551615).samples
      = [{ Timestamp := 11000000000
           InBytes := 18446744073709551614
           OutBytes := 18446744073709551614
           TotalBytes := 18446744073709551612
           TimeDeltaSeconds := Seconds (10 * Second) }] ∧
    (18446744073709551612 : Nat) ≠ 18446744073709551614 + 18446744073709551614 ∧
    (collectSample (snapshotAt 1 "eth0" 1000 500) 10000000000000000001 "eth0" 1500 700).samples
      = [{ Timestamp := 10000000000000000001
           InBytes := 500
           OutBytes := 200
           TotalBytes := 700
           TimeDeltaSeconds := Seconds maxDuration }] ∧
    Seconds maxDuration ≠ Seconds (10000000000000000001 - 1) := by
  decide

/-- Claim C1, amended. For a collector whose snapshot `(a_in, a_out, t0)` has a non-zero
time and a non-zero in-counter, a call `collectSample(iface, b_in, b_out)` at `t1` in which
at least one direction increased appends exactly one sample: each direction is the
difference clamped at zero on its own, `TotalBytes` is their sum modulo `2 ^ 64` (the sum
itself when it fits), and `TimeDeltaSeconds` is `t1.Sub(t0)` in seconds (`t1 - t0` itself
when it is within the range of a duration). -/
theorem collectSample_records (c : NetworkCollector) (t1 : Time) (iface : String)
    (b_in b_out : Nat) (ht : c.lastTimestamp ≠ 0) (hi : c.lastTotalInBytes ≠ 0)
    (hinc : b_in > c.lastTotalInBytes ∨ b_out > c.lastTotalOutBytes) :
    ∃ s : TrafficSample,
      (collectSample c t1 iface b_in b_out).samples = c.samples ++ [s] ∧
      s.Timestamp = t1 ∧
      s.InBytes = (if b_in ≥ c.lastTotalInBytes then b_in - c.lastTotalInBytes else 0) ∧
      s.OutBytes = (if b_out ≥ c.lastTotalOutBytes then b_out - c.lastTotalOutBytes else 0) ∧
      s.TotalBytes = (s.InBytes + s.OutBytes) % U64 ∧
      (s.InBytes + s.OutBytes < U64 → s.TotalBytes = s.InBytes + s.OutBytes) ∧
      s.TimeDeltaSeconds = Seconds (Sub t1 c.lastTimestamp) ∧
      (minDuration ≤ t1 - c.lastTimestamp → t1 - c.lastTimestamp ≤ maxDuration →
        s.TimeDeltaSeconds = Seconds (t1 - c.lastTimestamp)) := by
  refine ⟨deltaSample c t1 b_in b_out, ?_, rfl, rfl, rfl, rfl, ?_, rfl, ?_⟩
  · rw [collectSample_of_live c t1 iface b_in b_out ht hi]
    have hpos : (deltaSample c t1 b_in b_out).InBytes > 0 ∨
        (deltaSample c t1 b_in b_out).OutBytes > 0 := by
      rw [deltaSample_InBytes, deltaSample_OutBytes]
      omega
    simp only [if_pos hpos]
  · intro h
    show ((deltaSample c t1 b_in b_out).InBytes + (deltaSample c t1 b_in b_out).OutBytes) % U64
      = _
    exact Nat.mod_eq_of_lt h
  · intro h1 h2
    show Seconds (Sub t1 c.lastTimestamp) = _
    have hmax : ¬ (t1 - c.lastTimestamp > maxDuration) := not_lt.mpr h2
    have hmin : ¬ (t1 - c.lastTimestamp < minDuration) := not_lt.mpr h1
    unfold Sub
    rw [if_neg hmax, if_neg hmin]

/-- Claim C1, amended, at the example of the specification: the seed `(1000, 500)` followed
ten seconds later by `(1500, 700)` yields the single sample of 500 in, 200 out, 700 total
over 10 seconds. -/
theorem collectSample_records_witness :
    (collectSample NewNetworkCollector 1000000000 "eth0" 1000 500).samples = [] ∧
    (collectSample (collectSample NewNetworkCollector 1000000000 "eth0" 1000 500)
        11000000000 "eth0" 1500 700).samples
      = [{ Timestamp := 11000000000
           InBytes := 500
           OutBytes := 200
           TotalBytes := 700
           TimeDeltaSeconds := Seconds (10 * Second) }] ∧
    ∃ s : TrafficSample,
      (collectSample (collectSample NewNetworkCollector 1000000000 "eth0" 1000 500)
        11000000000 "eth0" 1500 700).samples
        = (collectSample NewNetworkCollector 1000000000 "eth0" 1000 500).samples ++ [s] :=
  ⟨by decide, by decide,
    (collectSample_records (collectSample NewNetworkCollector 1000000000 "eth0" 1000 500)
      11000000000 "eth0" 1500 700 (by decide) (by decide) (by decide)).imp
      fun _ h => h.1⟩

/-! ## Sums of deltas over a sequence of calls (C2) -/

theorem sumInBytes_append (xs ys : List TrafficSample) :
    sumInBytes (xs ++ ys) = sumInBytes xs + sumInBytes ys := by
  simp [sumInBytes]

theorem sumOutBytes_append (xs ys : List TrafficSample) :
    sumOutBytes (xs ++ ys) = sumOutBytes xs + sumOutBytes ys := by
  simp [sumOutBytes]

/-- On a live snapshot one call adds the clamped difference of each direction to the sums of
the buffer, whether or not a sample is appended. -/
theorem collectSample_sums (c : NetworkCollector) (now : Time) (iface : String)
    (inBytes outBytes : Nat) (ht : c.lastTimestamp ≠ 0) (hi : c.lastTotalInBytes ≠ 0) :
    sumInBytes (collectSample c now iface inBytes outBytes).samples
        = sumInBytes c.samples + (inBytes - c.lastTotalInBytes) ∧
      sumOutBytes (collectSample c now iface inBytes outBytes).samples
        = sumOutBytes c.samples + (outBytes - c.lastTotalOutBytes) := by
  rw [collectSample_of_live c now iface inBytes outBytes ht hi]
  dsimp only
  have h1 := deltaSample_InBytes c now inBytes outBytes
  have h2 := deltaSample_OutBytes c now inBytes outBytes
  split
  · rw [sumInBytes_append, sumOutBytes_append]
    simp [sumInBytes, sumOutBytes, h1, h2]
  · rename_i hz
    rw [h1, h2] at hz
    have h3 : inBytes - c.lastTotalInBytes = 0 := by omega
    have h4 : outBytes - c.lastTotalOutBytes = 0 := by omega
    rw [h3, h4]
    simp

theorem chain_of_countersNonDecreasing (rest : List SampleCall) :
    ∀ first : SampleCall, countersNonDecreasing (first :: rest) = true →
      List.Chain nonDecreasing first rest := by
  induction rest with
  | nil => intro _ _; exact List.Chain.nil
  | cons b bs ih =>
    intro first h
    simp only [countersNonDecreasing, Bool.and_eq_true, decide_eq_true_eq] at h
    exact List.Chain.cons ⟨h.1.1, h.1.2⟩ (ih b h.2)

/-- The sums over the buffer after a non-decreasing sequence of calls on a live snapshot. -/
theorem runCalls_sums (calls : List SampleCall) :
    ∀ (c : NetworkCollector) (prev : SampleCall),
      c.lastTimestamp ≠ 0 → c.lastTotalInBytes ≠ 0 →
      prev.inBytes = c.lastTotalInBytes → prev.outBytes = c.lastTotalOutBytes →
      (∀ k ∈ calls, k.now ≠ 0) → List.Chain nonDecreasing prev calls →
      sumInBytes (runCalls c calls).samples
          = sumInBytes c.samples
            + (((prev :: calls).getLast (List.cons_ne_nil prev calls)).inBytes - prev.inBytes) ∧
        sumOutBytes (runCalls c calls).samples
          = sumOutBytes c.samples
            + (((prev :: calls).getLast (List.cons_ne_nil prev calls)).outBytes
                - prev.outBytes) := by
  induction calls with
  | nil =>
    intro c prev _ _ _ _ _ _
    simp [runCalls]
  | cons k ks ih =>
    intro c prev ht hi hpi hpo hnow hchain
    rw [List.chain_cons] at hchain
    obtain ⟨hk, hrest⟩ := hchain
    have hknow : k.now ≠ 0 := hnow k (List.mem_cons_self k ks)
    have hkin : k.inBytes ≠ 0 := by
      have := hk.1
      omega
    have hstep := collectSample_sums c k.now k.iface k.inBytes k.outBytes ht hi
    have hnext := ih (collectSample c k.now k.iface k.inBytes k.outBytes) k
      (by rw [collectSample_lastTimestamp]; exact hknow)
      (by rw [collectSample_lastTotalInBytes]; exact hkin)
      (by rw [collectSample_lastTotalInBytes])
      (by rw [collectSample_lastTotalOutBytes])
      (fun j hj => hnow j (List.mem_cons_of_mem k hj)) hrest
    have hlast : (prev :: k :: ks).getLast (List.cons_ne_nil prev (k :: ks))
        = (k :: ks).getLast (List.cons_ne_nil k ks) := by
      simp [List.getLast_cons]
    have hmono : ∀ (l : List SampleCall) (a : SampleCall), List.Chain nonDecreasing a l →
        nonDecreasing a ((a :: l).getLast (List.cons_ne_nil a l)) := by
      intro l
      induction l with
      | nil => intro a _; exact ⟨le_refl _, le_refl _⟩
      | cons b bs ihb =>
        intro a hc
        rw [List.chain_cons] at hc
        have h2 := ihb b hc.2
        have h3 : (a :: b :: bs).getLast (List.cons_ne_nil a (b :: bs))
            = (b :: bs).getLast (List.cons_ne_nil b bs) := by
          simp [List.getLast_cons]
        rw [h3]
        exact ⟨le_trans hc.1.1 h2.1, le_trans hc.1.2 h2.2⟩
    have hkl := hmono ks k hrest
    have hrun : runCalls c (k :: ks)
        = runCalls (collectSample c k.now k.iface k.inBytes k.outBytes) ks := by
      simp [runCalls]
    rw [hrun, hlast, hnext.1, hnext.2, hstep.1, hstep.2, ← hpi, ← hpo]
    have a1 := hk.1
    have a2 := hk.2
    have a3 := hkl.1
    have a4 := hkl.2
    constructor <;> omega

/-- Claim C2, refuted as stated. On a fresh collector the non-decreasing counter sequence
`(0,10), (0,20), (5,30), (9,40)` leaves one sample of 4 in and 10 out: every call that finds
the stored in-counter at `0` re-seeds, so the sums are not `9 - 0` and `40 - 10`. -/
theorem runCalls_sum_counterexample :
    countersNonDecreasing
      [{ now := 1000000000, iface := "eth0", inBytes := 0, outBytes := 10 },
       { now := 2000000000, iface := "eth0", inBytes := 0, outBytes := 20 },
       { now := 3000000000, iface := "eth0", inBytes := 5, outBytes := 30 },
       { now := 4000000000, iface := "eth0", inBytes := 9, outBytes := 40 }] = true ∧
    sumInBytes (runCalls NewNetworkCollector
      [{ now := 1000000000, iface := "eth0", inBytes := 0, outBytes := 10 },
       { now := 2000000000, iface := "eth0", inBytes := 0, outBytes := 20 },
       { now := 3000000000, iface := "eth0", inBytes := 5, outBytes := 30 },
       { now := 4000000000, iface := "eth0", inBytes := 9, outBytes := 40 }]).samples = 4 ∧
    sumOutBytes (runCalls NewNetworkCollector
      [{ now := 1000000000, iface := "eth0", inBytes := 0, outBytes := 10 },
       { now := 2000000000, iface := "eth0", inBytes := 0, outBytes := 20 },
       { now := 3000000000, iface := "eth0", inBytes := 5, outBytes := 30 },
       { now := 4000000000, iface := "eth0", inBytes := 9, outBytes := 40 }]).samples = 10 ∧
    (4 : Nat) ≠ 9 - 0 ∧ (10 : Nat) ≠ 40 - 10 := by
  decide

/-- Claim C2, amended. For every non-empty sequence of `collectSample` calls on a fresh
collector, made at non-zero times, whose seed in-counter is not `0` and whose in and out
counters are each non-decreasing, the sum of `InBytes` over the buffer is the last in-counter
minus the seed in-counter, and the sum of `OutBytes` is the last out-counter minus the seed
out-counter. -/
theorem runCalls_sum_of_deltas (first : SampleCall) (rest : List SampleCall)
    (hnow : ∀ k ∈ first :: rest, k.now ≠ 0) (hseed : first.inBytes ≠ 0)
    (hmono : countersNonDecreasing (first :: rest) = true) :
    sumInBytes (runCalls NewNetworkCollector (first :: rest)).samples
        = ((first :: rest).getLast (List.cons_ne_nil first rest)).inBytes - first.inBytes ∧
      sumOutBytes (runCalls NewNetworkCollector (first :: rest)).samples
        = ((first :: rest).getLast (List.cons_ne_nil first rest)).outBytes
            - first.outBytes := by
  have hrun : runCalls NewNetworkCollector (first :: rest)
      = runCalls (collectSample NewNetworkCollector first.now first.iface first.inBytes
          first.outBytes) rest := by
    simp [runCalls]
  have hfresh : (collectSample NewNetworkCollector first.now first.iface first.inBytes
      first.outBytes).samples = [] := by
    rw [collectSample_of_seed _ _ _ _ _ (Or.inl rfl)]
    rfl
  have h := runCalls_sums rest
    (collectSample NewNetworkCollector first.now first.iface first.inBytes first.outBytes)
    first
    (by rw [collectSample_lastTimestamp]; exact hnow first (List.mem_cons_self first rest))
    (by rw [collectSample_lastTotalInBytes]; exact hseed)
    (by rw [collectSample_lastTotalInBytes])
    (by rw [collectSample_lastTotalOutBytes])
    (fun j hj => hnow j (List.mem_cons_of_mem first hj))
    (chain_of_countersNonDecreasing rest first hmono)
  rw [hrun, h.1, h.2, hfresh]
  simp [sumInBytes, sumOutBytes]

/-- Claim C2, amended, on the counters `(1000,500), (1500,700), (1500,700), (4000,900)`:
the sums are `3000` and `400`. -/
theorem runCalls_sum_of_deltas_witness :
    sumInBytes (runCalls NewNetworkCollector
      [{ now := 1000000000, iface := "eth0", inBytes := 1000, outBytes := 500 },
       { now := 2000000000, iface := "eth0", inBytes := 1500, outBytes := 700 },
       { now := 3000000000, iface := "eth0", inBytes := 1500, outBytes := 700 },
       { now := 4000000000, iface := "eth0", inBytes := 4000, outBytes := 900 }]).samples
      = 4000 - 1000 ∧
    sumOutBytes (runCalls NewNetworkCollector
      [{ now := 1000000000, iface := "eth0", inBytes := 1000, outBytes := 500 },
       { now := 2000000000, iface := "eth0", inBytes := 1500, outBytes := 700 },
       { now := 3000000000, iface := "eth0", inBytes := 1500, outBytes := 700 },
       { now := 4000000000, iface := "eth0", inBytes := 4000, outBytes := 900 }]).samples
      = 900 - 500 :=
  runCalls_sum_of_deltas
    { now := 1000000000, iface := "eth0", inBytes := 1000, outBytes := 500 }
    [{ now := 2000000000, iface := "eth0", inBytes := 1500, outBytes := 700 },
     { now := 3000000000, iface := "eth0", inBytes := 1500, outBytes := 700 },
     { now := 4000000000, iface := "eth0", inBytes := 4000, outBytes := 900 }]
    (by decide) (by decide) (by decide)

/-! ## Seeding (C3, C4) and the interface name (C5) -/

/-- Claim C3. On a freshly constructed collector the first `collectSample(iface, in, out)`
appends nothing, so the buffer is empty, and stores `in`, `out` and the current time (with
the interface name) as the snapshot; a sample that the next call appends is computed against
exactly this snapshot. -/
theorem collectSample_first_call_seeds (now : Time) (iface : String) (inBytes outBytes : Nat) :
    (collectSample NewNetworkCollector now iface inBytes outBytes).samples = [] ∧
    (collectSample NewNetworkCollector now iface inBytes outBytes).lastTotalInBytes = inBytes ∧
    (collectSample NewNetworkCollector now iface inBytes outBytes).lastTotalOutBytes
      = outBytes ∧
    (collectSample NewNetworkCollector now iface inBytes outBytes).lastTimestamp = now ∧
    (collectSample NewNetworkCollector now iface inBytes outBytes).lastSampleTime = now ∧
    (collectSample NewNetworkCollector now iface inBytes outBytes).publicIface = iface ∧
    ∀ (now2 : Time) (iface2 : String) (in2 out2 : Nat),
      (collectSample (collectSample NewNetworkCollector now iface inBytes outBytes)
          now2 iface2 in2 out2).samples = [] ∨
      (collectSample (collectSample NewNetworkCollector now iface inBytes outBytes)
          now2 iface2 in2 out2).samples =
        [{ Timestamp := now2
           InBytes := if in2 ≥ inBytes then in2 - inBytes else 0
           OutBytes := if out2 ≥ outBytes then out2 - outBytes else 0
           TotalBytes :=
            ((if in2 ≥ inBytes then in2 - inBytes else 0)
              + (if out2 ≥ outBytes then out2 - outBytes else 0)) % U64
           TimeDeltaSeconds := Seconds (Sub now2 now) }] := by
  have hseed : collectSample NewNetworkCollector now iface inBytes outBytes
      = { NewNetworkCollector with
          lastTotalInBytes := inBytes
          lastTotalOutBytes := outBytes
          lastTimestamp := now
          lastSampleTime := now
          publicIface := iface } :=
    collectSample_of_seed NewNetworkCollector now iface inBytes outBytes (Or.inl rfl)
  refine ⟨by rw [hseed]; rfl, by rw [hseed], by rw [hseed], by rw [hseed], by rw [hseed],
    by rw [hseed], ?_⟩
  intro now2 iface2 in2 out2
  rw [hseed]
  by_cases hlive : now = 0 ∨ inBytes = 0
  · left
    rw [collectSample_of_seed _ now2 iface2 in2 out2 hlive]
    rfl
  · have ht : now ≠ 0 := fun h => hlive (Or.inl h)
    have hi : inBytes ≠ 0 := fun h => hlive (Or.inr h)
    rw [collectSample_of_live _ now2 iface2 in2 out2 ht hi]
    dsimp only
    split
    · right
      rfl
    · left
      rfl

/-- Claim C4, refuted as stated. After a first call that carried the in-counter `0`, a
further call whose counters are strictly greater in both directions appends no sample: it
seeds again. -/
theorem collectSample_reseeds_counterexample :
    (collectSample (collectSample NewNetworkCollector 5000000000 "eth0" 0 40)
        305000000000 "eth0" 7000 90).samples = [] ∧
    (collectSample (collectSample NewNetworkCollector 5000000000 "eth0" 0 40)
        305000000000 "eth0" 7000 90).lastTotalInBytes = 7000 := by
  decide

/-- Claim C4, amended. `collectSample` seeds without recording when no snapshot exists or
when the stored in-counter is `0`: after an earlier call at time `t0` with counters
`(a_in, a_out)`, a further call leaves the buffer as it is if `t0` is the zero time or
`a_in = 0`; and if `t0` is not the zero time and `a_in ≠ 0`, a further call whose counters
are strictly greater in at least one direction appends exactly one sample. -/
theorem collectSample_seeds_or_appends (c : NetworkCollector) (t0 t1 : Time)
    (ifaceA ifaceB : String) (a_in a_out b_in b_out : Nat) :
    ((t0 = 0 ∨ a_in = 0) →
      (collectSample (collectSample c t0 ifaceA a_in a_out) t1 ifaceB b_in b_out).samples
        = (collectSample c t0 ifaceA a_in a_out).samples) ∧
    (t0 ≠ 0 → a_in ≠ 0 → (b_in > a_in ∨ b_out > a_out) →
      ∃ s : TrafficSample,
        (collectSample (collectSample c t0 ifaceA a_in a_out) t1 ifaceB b_in b_out).samples
          = (collectSample c t0 ifaceA a_in a_out).samples ++ [s]) := by
  constructor
  · intro h
    rw [collectSample_of_seed (collectSample c t0 ifaceA a_in a_out) t1 ifaceB b_in b_out
      (by rw [collectSample_lastTimestamp, collectSample_lastTotalInBytes]; exact h)]
  · intro ht hi hinc
    have ht1 : (collectSample c t0 ifaceA a_in a_out).lastTimestamp ≠ 0 := by
      rw [collectSample_lastTimestamp]; exact ht
    have hi1 : (collectSample c t0 ifaceA a_in a_out).lastTotalInBytes ≠ 0 := by
      rw [collectSample_lastTotalInBytes]; exact hi
    refine ⟨deltaSample (collectSample c t0 ifaceA a_in a_out) t1 b_in b_out, ?_⟩
    rw [collectSample_of_live _ t1 ifaceB b_in b_out ht1 hi1]
    have hpos : (deltaSample (collectSample c t0 ifaceA a_in a_out) t1 b_in b_out).InBytes > 0 ∨
        (deltaSample (collectSample c t0 ifaceA a_in a_out) t1 b_in b_out).OutBytes > 0 := by
      rw [deltaSample_InBytes, deltaSample_OutBytes, collectSample_lastTotalInBytes,
        collectSample_lastTotalOutBytes]
      omega
    simp only [if_pos hpos]

/-- Claim C4, amended, on concrete calls: after `(0, 40)` the call `(7000, 90)` leaves the
buffer empty; after `(1000, 500)` the call `(1500, 700)` appends one sample. -/
theorem collectSample_seeds_or_appends_witness :
    (collectSample (collectSample NewNetworkCollector 5000000000 "eth0" 0 40)
        305000000000 "eth0" 7000 90).samples
      = (collectSample NewNetworkCollector 5000000000 "eth0" 0 40).samples ∧
    ∃ s : TrafficSample,
      (collectSample (collectSample NewNetworkCollector 5000000000 "eth0" 1000 500)
        305000000000 "eth0" 1500 700).samples
        = (collectSample NewNetworkCollector 5000000000 "eth0" 1000 500).samples ++ [s] :=
  ⟨(collectSample_seeds_or_appends NewNetworkCollector 5000000000 305000000000
      "eth0" "eth0" 0 40 7000 90).1 (Or.inr rfl),
   (collectSample_seeds_or_appends NewNetworkCollector 5000000000 305000000000
      "eth0" "eth0" 1000 500 1500 700).2 (by decide) (by decide) (by decide)⟩

/-- Claim C5, refuted as stated. With the snapshot `(1000, 500)` taken for `eth0`, the call
`collectSample("eth1", 1500, 700)` appends the sample of 500 in and 200 out: the difference
between the counters of `eth1` and those of `eth0`. -/
theorem collectSample_iface_change_counterexample :
    (snapshotAt 1000000000 "eth0" 1000 500).publicIface = "eth0" ∧
    "eth1" ≠ "eth0" ∧
    (collectSample (snapshotAt 1000000000 "eth0" 1000 500) 301000000000 "eth1" 1500 700).samples
      = [{ Timestamp := 301000000000
           InBytes := 1500 - 1000
           OutBytes := 700 - 500
           TotalBytes := 700
           TimeDeltaSeconds := Seconds (300 * Second) }] := by
  decide

/-- Claim C5, amended. `collectSample` never compares the interface name with the stored
one. A call for an interface `B` leaves the same buffer as the same call made for the stored
interface, and replaces the snapshot with the counters, the time and the name of `B`; when
the stored snapshot has a non-zero time and a non-zero in-counter and a counter of `B` is
above the stored one, the appended sample is the clamped difference between the counters of
`B` and the stored counters. -/
theorem collectSample_ignores_iface (c : NetworkCollector) (now : Time) (ifaceB : String)
    (inBytes outBytes : Nat) :
    (collectSample c now ifaceB inBytes outBytes).samples
      = (collectSample c now c.publicIface inBytes outBytes).samples ∧
    (collectSample c now ifaceB inBytes outBytes).lastTotalInBytes = inBytes ∧
    (collectSample c now ifaceB inBytes outBytes).lastTotalOutBytes = outBytes ∧
    (collectSample c now ifaceB inBytes outBytes).lastTimestamp = now ∧
    (collectSample c now ifaceB inBytes outBytes).publicIface = ifaceB ∧
    (ifaceB ≠ c.publicIface → c.lastTimestamp ≠ 0 → c.lastTotalInBytes ≠ 0 →
      (inBytes > c.lastTotalInBytes ∨ outBytes > c.lastTotalOutBytes) →
      (collectSample c now ifaceB inBytes outBytes).samples
        = c.samples ++ [deltaSample c now inBytes outBytes]) := by
  refine ⟨?_, collectSample_lastTotalInBytes c now ifaceB inBytes outBytes,
    collectSample_lastTotalOutBytes c now ifaceB inBytes outBytes,
    collectSample_lastTimestamp c now ifaceB inBytes outBytes,
    collectSample_publicIface c now ifaceB inBytes outBytes, ?_⟩
  · unfold collectSample
    split <;> rfl
  · intro _ ht hi hinc
    rw [collectSample_of_live c now ifaceB inBytes outBytes ht hi]
    have hpos : (deltaSample c now inBytes outBytes).InBytes > 0 ∨
        (deltaSample c now inBytes outBytes).OutBytes > 0 := by
      rw [deltaSample_InBytes, deltaSample_OutBytes]
      omega
    simp only [if_pos hpos]

/-- Claim C5, amended, on the snapshot `(1000, 500)` of `eth0` and the call
`collectSample("eth1", 1500, 700)`. -/
theorem collectSample_ignores_iface_witness :
    "eth1" ≠ (snapshotAt 1000000000 "eth0" 1000 500).publicIface ∧
    (collectSample (snapshotAt 1000000000 "eth0" 1000 500) 301000000000 "eth1" 1500 700).samples
      = (snapshotAt 1000000000 "eth0" 1000 500).samples
        ++ [deltaSample (snapshotAt 1000000000 "eth0" 1000 500) 301000000000 1500 700] :=
  ⟨by decide,
   (collectSample_ignores_iface (snapshotAt 1000000000 "eth0" 1000 500) 301000000000 "eth1"
      1500 700).2.2.2.2.2 (by decide) (by decide) (by decide) (by decide)⟩

/-! ## Collect: the emptiness check and the summary (C6) -/

/-- The summary is "no data" exactly when the buffer is empty. -/
theorem summarize_noData_iff (c : NetworkCollector) (publicIface : String) :
    summarize c publicIface = CollectResult.noData ↔ c.samples = [] := by
  unfold summarize
  constructor
  · intro h
    by_cases hlen : c.samples.length = 0
    · exact List.length_eq_zero.mp hlen
    · rw [if_neg hlen] at h
      dsimp only at h
      split at h
      · split at h <;> exact absurd h (by simp)
      · exact absurd h (by simp)
  · intro h
    rw [if_pos (by rw [h]; rfl)]

/-- A summary that is returned carries the whole buffer, in order, and its length, which is
at least one. -/
theorem summarize_traffic (c : NetworkCollector) (publicIface : String) (t : NetworkTraffic)
    (h : summarize c publicIface = CollectResult.traffic t) :
    t.Samples = c.samples ∧ t.SampleCount = c.samples.length ∧ 1 ≤ t.SampleCount ∧
      t.Interface = publicIface := by
  unfold summarize at h
  by_cases hlen : c.samples.length = 0
  · rw [if_pos hlen] at h
    exact absurd h (by simp)
  · rw [if_neg hlen] at h
    dsimp only at h
    have hpos : 1 ≤ c.samples.length := Nat.one_le_iff_ne_zero.mpr hlen
    split at h
    · split at h
      · exact absurd h (by simp)
      · injection h with h
        subst h
        exact ⟨rfl, rfl, hpos, rfl⟩
    · injection h with h
      subst h
      exact ⟨rfl, rfl, hpos, rfl⟩

/-- The summary never reports an error of its own. -/
theorem summarize_ne_error (c : NetworkCollector) (publicIface msg : String) :
    summarize c publicIface ≠ CollectResult.error msg := by
  unfold summarize
  split
  · simp
  · dsimp only
    split
    · split <;> simp
    · simp

/-- The summary panics exactly when the buffer is not empty and the total of the positive
time deltas is positive but truncates to zero whole seconds. -/
theorem summarize_divideByZero_iff (c : NetworkCollector) (publicIface : String) :
    summarize c publicIface = CollectResult.divideByZero ↔
      c.samples ≠ [] ∧ (rateTotals c.samples).totalTimeSeconds.isPositive = true ∧
        (rateTotals c.samples).totalTimeSeconds.toUint64 = 0 := by
  unfold summarize
  by_cases hlen : c.samples.length = 0
  · rw [if_pos hlen]
    have : c.samples = [] := List.length_eq_zero.mp hlen
    simp [this]
  · rw [if_neg hlen]
    have hne : c.samples ≠ [] := fun h => hlen (by rw [h]; rfl)
    dsimp only
    by_cases hp : (rateTotals c.samples).totalTimeSeconds.isPositive = true
    · rw [if_pos hp]
      by_cases hz : (rateTotals c.samples).totalTimeSeconds.toUint64 = 0
      · rw [if_pos hz]
        simp [hne, hp, hz]
      · rw [if_neg hz]
        simp [hz]
    · rw [if_neg hp]
      simp [hp]

/-- Claim C6, on the code. A fresh collector is seeded by a first `Collect` that reads
`(1000, 500)` and returns "no data"; a second `Collect` half a second later reads
`(1500, 700)` and buffers one sample of 0.5 s. The buffer is then not empty at the check, yet
`Collect` returns no `NetworkTraffic`: the total time `0.5` passes the guard `> 0`, truncates
to `uint64(0)`, and the division by it panics. -/
theorem Collect_halfSecond_divideByZero :
    (Collect NewNetworkCollector 1000000000 (eth0Stats 1000 500)).2 = CollectResult.noData ∧
    (Collect (Collect NewNetworkCollector 1000000000 (eth0Stats 1000 500)).1 1500000000
        (eth0Stats 1500 700)).1.samples
      = [{ Timestamp := 1500000000
           InBytes := 500
           OutBytes := 200
           TotalBytes := 700
           TimeDeltaSeconds := { nanos := 500000000 } }] ∧
    (Collect (Collect NewNetworkCollector 1000000000 (eth0Stats 1000 500)).1 1500000000
        (eth0Stats 1500 700)).2 = CollectResult.divideByZero := by
  decide

/-! ## The retry loop of report: one iteration -/

theorem Collect_samples_extend (c : NetworkCollector) (now : Time)
    (stats : Except String (String × NetworkInterface)) :
    c.samples <+: (Collect c now stats).1.samples ∧
      (Collect c now stats).1.samples.length ≤ c.samples.length + 1 := by
  unfold Collect
  cases stats with
  | error msg => simp
  | ok p =>
    obtain ⟨publicIface, currentStats⟩ := p
    exact collectSample_samples_extend c now publicIface currentStats.InBytes
      currentStats.OutBytes

/-- Collecting changes nothing of the reporter but the network collector, whose buffer it can
only extend, by at most one sample. -/
theorem collectData_frame (r : Reporter) (e : AttemptEnv) :
    (collectData r e).1.config = r.config ∧
    (collectData r e).1.intervalUpdate = r.intervalUpdate ∧
    r.network.samples <+: (collectData r e).1.network.samples ∧
    (collectData r e).1.network.samples.length ≤ r.network.samples.length + 1 := by
  have h := Collect_samples_extend r.network e.now e.netStats
  unfold collectData
  dsimp only
  split <;> exact ⟨rfl, rfl, h.1, h.2⟩

theorem applyInterval_network (r : Reporter) (response : Option ReportResponse) :
    (applyInterval r response).network = r.network := by
  unfold applyInterval
  cases response with
  | none => rfl
  | some resp =>
    dsimp only
    split
    · split
      · split <;> rfl
      · rfl
    · rfl

theorem reportLoop_zero (env : Nat → AttemptEnv) (attempt : Nat) (st : LoopState) :
    reportLoop env 0 attempt st =
      { reporter := st.reporter
        outcome := ReportOutcome.returned (some (maxRetriesMessage st.lastErr))
        sleeps := st.sleeps
        submitted := st.submitted
        delays := st.delays } := rfl

theorem reportLoop_panic (env : Nat → AttemptEnv) (n attempt : Nat) (st : LoopState)
    (r1 : Reporter) (h : collectData st.reporter (env attempt) = (r1, none)) :
    reportLoop env (n + 1) attempt st =
      { reporter := r1
        outcome := ReportOutcome.panicked
        sleeps := sleepsBefore attempt st
        submitted := st.submitted
        delays := st.delays ++ [st.delay] } := by
  simp only [reportLoop, h, sleepsBefore]

theorem reportLoop_exit (env : Nat → AttemptEnv) (n attempt : Nat) (st : LoopState)
    (r1 : Reporter) (data : ReportData)
    (h : collectData st.reporter (env attempt) = (r1, some data))
    (hs : (env attempt).submit data = SubmitResult.err unauthorizedMessage) :
    reportLoop env (n + 1) attempt st =
      { reporter := r1
        outcome := ReportOutcome.exited
        sleeps := sleepsBefore attempt st ++ [1 * Minute]
        submitted := st.submitted ++ [data]
        delays := st.delays ++ [st.delay] } := by
  simp only [reportLoop, h, hs, sleepsBefore, if_true]

theorem reportLoop_retry (env : Nat → AttemptEnv) (n attempt : Nat) (st : LoopState)
    (r1 : Reporter) (data : ReportData) (msg : String)
    (h : collectData st.reporter (env attempt) = (r1, some data))
    (hs : (env attempt).submit data = SubmitResult.err msg) (hm : msg ≠ unauthorizedMessage) :
    reportLoop env (n + 1) attempt st =
      reportLoop env n (attempt + 1) (retryState st attempt r1 data msg) := by
  simp only [reportLoop, h, hs, hm, if_false, retryState, sleepsBefore, nextDelay]

theorem reportLoop_success (env : Nat → AttemptEnv) (n attempt : Nat) (st : LoopState)
    (r1 : Reporter) (data : ReportData) (response : Option ReportResponse)
    (h : collectData st.reporter (env attempt) = (r1, some data))
    (hs : (env attempt).submit data = SubmitResult.ok response) :
    reportLoop env (n + 1) attempt st =
      { reporter :=
          { applyInterval r1 response with
            network := ClearSamples (applyInterval r1 response).network }
        outcome := ReportOutcome.returned none
        sleeps := sleepsBefore attempt st
        submitted := st.submitted ++ [data]
        delays := st.delays ++ [st.delay] } := by
  simp only [reportLoop, h, hs, sleepsBefore]

theorem report_eq_reportLoop (r : Reporter) (env : Nat → AttemptEnv) :
    report r env = reportLoop env MaxRetries 0 (initialLoopState r) := rfl

/-- The four ways in which one iteration of the loop can go. -/
theorem reportLoop_cases (env : Nat → AttemptEnv) (attempt : Nat) (st : LoopState) :
    (∃ r1, collectData st.reporter (env attempt) = (r1, none)) ∨
    (∃ r1 data, collectData st.reporter (env attempt) = (r1, some data) ∧
      (env attempt).submit data = SubmitResult.err unauthorizedMessage) ∨
    (∃ r1 data msg, collectData st.reporter (env attempt) = (r1, some data) ∧
      (env attempt).submit data = SubmitResult.err msg ∧ msg ≠ unauthorizedMessage) ∨
    (∃ r1 data response, collectData st.reporter (env attempt) = (r1, some data) ∧
      (env attempt).submit data = SubmitResult.ok response) := by
  rcases h : collectData st.reporter (env attempt) with ⟨r1, _ | data⟩
  · exact Or.inl ⟨r1, rfl⟩
  · rcases hs : (env attempt).submit data with response | msg
    · exact Or.inr (Or.inr (Or.inr ⟨r1, data, response, rfl, hs⟩))
    · by_cases hm : msg = unauthorizedMessage
      · subst hm
        exact Or.inr (Or.inl ⟨r1, data, rfl, hs⟩)
      · exact Or.inr (Or.inr (Or.inl ⟨r1, data, msg, rfl, hs, hm⟩))

/-! ## The retry loop of report: whole runs -/

/-- A run that returns nil leaves an empty buffer; every other run leaves a buffer that
extends the one it started from, by at most one sample for each iteration. -/
theorem reportLoop_samples (env : Nat → AttemptEnv) (n : Nat) :
    ∀ (attempt : Nat) (st : LoopState),
      ((reportLoop env n attempt st).outcome = ReportOutcome.returned none →
        (reportLoop env n attempt st).reporter.network.samples = []) ∧
      ((reportLoop env n attempt st).outcome ≠ ReportOutcome.returned none →
        st.reporter.network.samples <+: (reportLoop env n attempt st).reporter.network.samples ∧
        (reportLoop env n attempt st).reporter.network.samples.length
          ≤ st.reporter.network.samples.length + n) := by
  induction n with
  | zero =>
    intro attempt st
    rw [reportLoop_zero]
    exact ⟨fun h => absurd h (by simp), fun _ => ⟨List.prefix_refl _, le_refl _⟩⟩
  | succ n ih =>
    intro attempt st
    rcases reportLoop_cases env attempt st with ⟨r1, h⟩ | ⟨r1, data, h, hs⟩ |
      ⟨r1, data, msg, h, hs, hm⟩ | ⟨r1, data, response, h, hs⟩
    · have hf := collectData_frame st.reporter (env attempt)
      rw [h] at hf
      rw [reportLoop_panic env n attempt st r1 h]
      exact ⟨fun hc => absurd hc (by simp), fun _ => ⟨hf.2.2.1, le_trans hf.2.2.2 (by omega)⟩⟩
    · have hf := collectData_frame st.reporter (env attempt)
      rw [h] at hf
      rw [reportLoop_exit env n attempt st r1 data h hs]
      exact ⟨fun hc => absurd hc (by simp), fun _ => ⟨hf.2.2.1, le_trans hf.2.2.2 (by omega)⟩⟩
    · have hf := collectData_frame st.reporter (env attempt)
      rw [h] at hf
      rw [reportLoop_retry env n attempt st r1 data msg h hs hm]
      have hrec := ih (attempt + 1) (retryState st attempt r1 data msg)
      refine ⟨hrec.1, fun hne => ?_⟩
      have h2 := hrec.2 hne
      have a : r1.network.samples.length ≤ st.reporter.network.samples.length + 1 := hf.2.2.2
      have b : (reportLoop env n (attempt + 1)
          (retryState st attempt r1 data msg)).reporter.network.samples.length
          ≤ r1.network.samples.length + n := h2.2
      exact ⟨List.IsPrefix.trans hf.2.2.1 h2.1, by omega⟩
    · rw [reportLoop_success env n attempt st r1 data response h hs]
      exact ⟨fun _ => rfl, fun hc => absurd rfl hc⟩

/-- A run never hands more payloads to the client than it has iterations. -/
theorem reportLoop_submitted_le (env : Nat → AttemptEnv) (n : Nat) :
    ∀ (attempt : Nat) (st : LoopState),
      (reportLoop env n attempt st).submitted.length ≤ st.submitted.length + n := by
  induction n with
  | zero =>
    intro attempt st
    rw [reportLoop_zero]
    exact le_refl _
  | succ n ih =>
    intro attempt st
    rcases reportLoop_cases env attempt st with ⟨r1, h⟩ | ⟨r1, data, h, hs⟩ |
      ⟨r1, data, msg, h, hs, hm⟩ | ⟨r1, data, response, h, hs⟩
    · rw [reportLoop_panic env n attempt st r1 h]
      exact Nat.le_add_right _ _
    · rw [reportLoop_exit env n attempt st r1 data h hs]
      simp only [List.length_append, List.length_singleton]
      omega
    · rw [reportLoop_retry env n attempt st r1 data msg h hs hm]
      have hrec := ih (attempt + 1) (retryState st attempt r1 data msg)
      have c : (retryState st attempt r1 data msg).submitted.length
          = st.submitted.length + 1 := by
        simp [retryState]
      omega
    · rw [reportLoop_success env n attempt st r1 data response h hs]
      simp only [List.length_append, List.length_singleton]
      omega

/-- A run returns nil only from an iteration whose submission, the last one made, was
accepted. -/
theorem reportLoop_nil_has_success (env : Nat → AttemptEnv) (n : Nat) :
    ∀ (attempt : Nat) (st : LoopState), st.submitted.length = attempt →
      (reportLoop env n attempt st).outcome = ReportOutcome.returned none →
      ∃ (k : Nat) (data : ReportData) (response : Option ReportResponse),
        attempt ≤ k ∧ k < attempt + n ∧
        (reportLoop env n attempt st).submitted.length = k + 1 ∧
        (reportLoop env n attempt st).submitted.getLast? = some data ∧
        (env k).submit data = SubmitResult.ok response := by
  induction n with
  | zero =>
    intro attempt st _ hout
    rw [reportLoop_zero] at hout
    exact absurd hout (by simp)
  | succ n ih =>
    intro attempt st hlen hout
    rcases reportLoop_cases env attempt st with ⟨r1, h⟩ | ⟨r1, data, h, hs⟩ |
      ⟨r1, data, msg, h, hs, hm⟩ | ⟨r1, data, response, h, hs⟩
    · rw [reportLoop_panic env n attempt st r1 h] at hout
      exact absurd hout (by simp)
    · rw [reportLoop_exit env n attempt st r1 data h hs] at hout
      exact absurd hout (by simp)
    · rw [reportLoop_retry env n attempt st r1 data msg h hs hm] at hout ⊢
      have hlen1 : (retryState st attempt r1 data msg).submitted.length = attempt + 1 := by
        simp [retryState, hlen]
      obtain ⟨k, d, resp, h1, h2, h3, h4, h5⟩ :=
        ih (attempt + 1) (retryState st attempt r1 data msg) hlen1 hout
      exact ⟨k, d, resp, by omega, by omega, h3, h4, h5⟩
    · rw [reportLoop_success env n attempt st r1 data response h hs]
      refine ⟨attempt, data, response, le_refl _, by omega, ?_, ?_, hs⟩
      · simp [hlen]
      · simp

/-- When every submission fails with a retryable error and no collection panics, the loop
runs all its iterations, submits once in each, and returns the error that wraps the last
submission error. -/
theorem reportLoop_all_fail (env : Nat → AttemptEnv) (n : Nat) :
    ∀ (attempt : Nat) (st : LoopState),
      (∀ k, attempt ≤ k → k < attempt + n → failsTransiently (env k)) →
      (reportLoop env n attempt st).outcome ≠ ReportOutcome.panicked →
      (reportLoop env n attempt st).submitted.length = st.submitted.length + n ∧
      ∃ lastErr : Option String,
        (reportLoop env n attempt st).outcome
          = ReportOutcome.returned (some (maxRetriesMessage lastErr)) ∧
        (n = 0 → lastErr = st.lastErr) ∧
        (0 < n → ∃ (data : ReportData) (msg : String),
          (reportLoop env n attempt st).submitted.getLast? = some data ∧
          (env (attempt + n - 1)).submit data = SubmitResult.err msg ∧
          lastErr = some msg) := by
  induction n with
  | zero =>
    intro attempt st _ _
    rw [reportLoop_zero]
    exact ⟨rfl, st.lastErr, rfl, fun _ => rfl, fun h => absurd h (by omega)⟩
  | succ n ih =>
    intro attempt st hfail hnp
    rcases reportLoop_cases env attempt st with ⟨r1, h⟩ | ⟨r1, data, h, hs⟩ |
      ⟨r1, data, msg, h, hs, hm⟩ | ⟨r1, data, response, h, hs⟩
    · rw [reportLoop_panic env n attempt st r1 h] at hnp
      exact absurd rfl hnp
    · obtain ⟨m, hm1, hm2⟩ := hfail attempt (le_refl _) (by omega) data
      rw [hs] at hm1
      injection hm1 with hm1
      exact absurd hm1.symm hm2
    · rw [reportLoop_retry env n attempt st r1 data msg h hs hm] at hnp ⊢
      obtain ⟨hlen, lastErr, hout, h0, hpos⟩ :=
        ih (attempt + 1) (retryState st attempt r1 data msg)
          (fun k hk1 hk2 => hfail k (by omega) (by omega)) hnp
      have hlen1 : (retryState st attempt r1 data msg).submitted.length
          = st.submitted.length + 1 := by
        simp [retryState]
      refine ⟨by omega, lastErr, hout, fun hc => absurd hc (by omega), fun _ => ?_⟩
      rcases Nat.eq_zero_or_pos n with hn | hn
      · subst hn
        have hle := h0 rfl
        refine ⟨data, msg, ?_, ?_, ?_⟩
        · rw [reportLoop_zero]
          simp [retryState]
        · simpa using hs
        · rw [hle]
          rfl
      · obtain ⟨d, m, h1, h2, h3⟩ := hpos hn
        refine ⟨d, m, h1, ?_, h3⟩
        have e : attempt + (n + 1) - 1 = attempt + 1 + n - 1 := by omega
        rw [e]
        exact h2
    · obtain ⟨m, hm1, _⟩ := hfail attempt (le_refl _) (by omega) data
      rw [hs] at hm1
      exact absurd hm1 (by simp)

/-- When the submissions of the iterations before `j` fail with a retryable error, the one of
iteration `j` is accepted and no collection panics, the loop submits once in each iteration
up to `j` and returns nil. -/
theorem reportLoop_first_success (env : Nat → AttemptEnv) (n : Nat) :
    ∀ (attempt : Nat) (st : LoopState) (j : Nat), attempt ≤ j → j < attempt + n →
      (∀ k, attempt ≤ k → k < j → failsTransiently (env k)) → succeeds (env j) →
      (reportLoop env n attempt st).outcome ≠ ReportOutcome.panicked →
      (reportLoop env n attempt st).outcome = ReportOutcome.returned none ∧
      (reportLoop env n attempt st).submitted.length
        = st.submitted.length + (j - attempt) + 1 := by
  induction n with
  | zero =>
    intro attempt st j h1 h2
    exact absurd h2 (by omega)
  | succ n ih =>
    intro attempt st j h1 h2 hfail hsucc hnp
    rcases reportLoop_cases env attempt st with ⟨r1, h⟩ | ⟨r1, data, h, hs⟩ |
      ⟨r1, data, msg, h, hs, hm⟩ | ⟨r1, data, response, h, hs⟩
    · rw [reportLoop_panic env n attempt st r1 h] at hnp
      exact absurd rfl hnp
    · rcases Nat.eq_or_lt_of_le h1 with heq | hlt
      · subst heq
        obtain ⟨resp, hr⟩ := hsucc data
        rw [hs] at hr
        exact absurd hr (by simp)
      · obtain ⟨m, hm1, hm2⟩ := hfail attempt (le_refl _) hlt data
        rw [hs] at hm1
        injection hm1 with hm1
        exact absurd hm1.symm hm2
    · rcases Nat.eq_or_lt_of_le h1 with heq | hlt
      · subst heq
        obtain ⟨resp, hr⟩ := hsucc data
        rw [hs] at hr
        exact absurd hr (by simp)
      · rw [reportLoop_retry env n attempt st r1 data msg h hs hm] at hnp ⊢
        obtain ⟨ho, hl⟩ := ih (attempt + 1) (retryState st attempt r1 data msg) j
          (by omega) (by omega) (fun k hk1 hk2 => hfail k (by omega) hk2) hsucc hnp
        have hlen1 : (retryState st attempt r1 data msg).submitted.length
            = st.submitted.length + 1 := by
          simp [retryState]
        exact ⟨ho, by omega⟩
    · rcases Nat.eq_or_lt_of_le h1 with heq | hlt
      · subst heq
        rw [reportLoop_success env n attempt st r1 data response h hs]
        refine ⟨rfl, ?_⟩
        simp
      · obtain ⟨m, hm1, _⟩ := hfail attempt (le_refl _) hlt data
        rw [hs] at hm1
        exact absurd hm1 (by simp)

/-! ## The example worlds -/

theorem serverErrorEnv_fails (k : Nat) : failsTransiently (serverErrorEnv k) :=
  fun _ => ⟨"server returned error: 500 - ", rfl, by decide⟩

theorem acceptedFromEnv_fails (j k : Nat) (h : k < j) : failsTransiently (acceptedFromEnv j k) := by
  unfold acceptedFromEnv
  rw [if_pos h]
  exact serverErrorEnv_fails k

theorem acceptedFromEnv_succeeds (j k : Nat) (h : ¬ k < j) : succeeds (acceptedFromEnv j k) := by
  unfold acceptedFromEnv
  rw [if_neg h]
  exact fun _ => ⟨some { Success := true, ReportInterval := 300 }, rfl⟩

/-- An iteration whose submission fails with a retryable error, and which does not panic,
hands over to the next iteration. -/
theorem reportLoop_fail_step (env : Nat → AttemptEnv) (n attempt : Nat) (st : LoopState)
    (hfail : failsTransiently (env attempt))
    (hnp : (reportLoop env (n + 1) attempt st).outcome ≠ ReportOutcome.panicked) :
    ∃ (r1 : Reporter) (data : ReportData) (msg : String),
      reportLoop env (n + 1) attempt st
        = reportLoop env n (attempt + 1) (retryState st attempt r1 data msg) := by
  rcases reportLoop_cases env attempt st with ⟨r1, h⟩ | ⟨r1, data, h, hs⟩ |
    ⟨r1, data, msg, h, hs, hm⟩ | ⟨r1, data, response, h, hs⟩
  · rw [reportLoop_panic env n attempt st r1 h] at hnp
    exact absurd rfl hnp
  · obtain ⟨m, hm1, hm2⟩ := hfail data
    rw [hs] at hm1
    injection hm1 with hm1
    exact absurd hm1.symm hm2
  · exact ⟨r1, data, msg, reportLoop_retry env n attempt st r1 data msg h hs hm⟩
  · obtain ⟨m, hm1, _⟩ := hfail data
    rw [hs] at hm1
    exact absurd hm1 (by simp)

/-! ## The buffer across a report cycle (C7, C8) -/

/-- Claim C7. When `report` returns nil the buffer of the network collector has length 0,
and the last submission it made was accepted; and `report` never clears the buffer before a
submission has succeeded: however many iterations of the cycle have run, as long as none
has returned nil the buffer the cycle started with is still there, as the front part of the
current buffer. -/
theorem report_clears_only_on_success (r : Reporter) (env : Nat → AttemptEnv) :
    ((report r env).outcome = ReportOutcome.returned none →
      (report r env).reporter.network.samples.length = 0 ∧
      ∃ (k : Nat) (data : ReportData) (response : Option ReportResponse),
        k < MaxRetries ∧ (report r env).submitted.getLast? = some data ∧
        (env k).submit data = SubmitResult.ok response) ∧
    (∀ n : Nat,
      (reportLoop env n 0 (initialLoopState r)).outcome ≠ ReportOutcome.returned none →
      r.network.samples
        <+: (reportLoop env n 0 (initialLoopState r)).reporter.network.samples) := by
  constructor
  · intro h
    rw [report_eq_reportLoop] at h ⊢
    refine ⟨?_, ?_⟩
    · rw [(reportLoop_samples env MaxRetries 0 (initialLoopState r)).1 h]
      rfl
    · obtain ⟨k, data, response, _, hk, _, hlast, hok⟩ :=
        reportLoop_nil_has_success env MaxRetries 0 (initialLoopState r) rfl h
      exact ⟨k, data, response, by omega, hlast, hok⟩
  · intro n h
    exact ((reportLoop_samples env n 0 (initialLoopState r)).2 h).1

/-- Claim C7 on a cycle whose third submission is accepted: `report` returns nil with an
empty buffer, and after its first two iterations the buffer still extends the initial
one. -/
theorem report_clears_only_on_success_witness :
    (report seededReporter (acceptedFromEnv 2)).outcome = ReportOutcome.returned none ∧
    (report seededReporter (acceptedFromEnv 2)).reporter.network.samples.length = 0 ∧
    (reportLoop (acceptedFromEnv 2) 2 0 (initialLoopState seededReporter)).outcome
      ≠ ReportOutcome.returned none ∧
    seededReporter.network.samples
      <+: (reportLoop (acceptedFromEnv 2) 2 0
            (initialLoopState seededReporter)).reporter.network.samples :=
  ⟨by decide,
   ((report_clears_only_on_success seededReporter (acceptedFromEnv 2)).1 (by decide)).1,
   by decide,
   (report_clears_only_on_success seededReporter (acceptedFromEnv 2)).2 2 (by decide)⟩

/-- Claim C8, refuted as stated. A cycle in which all five submissions are answered with
status 500 ends abandoned, and the buffer, empty before the cycle, holds five samples after
it: every attempt collects again, and the network collector samples on every collection. -/
theorem report_abandoned_counterexample :
    (report seededReporter serverErrorEnv).outcome
      = ReportOutcome.returned (some "max retries exceeded: server returned error: 500 - ") ∧
    seededReporter.network.samples = [] ∧
    (report seededReporter serverErrorEnv).reporter.network.samples.length = 5 ∧
    (report seededReporter serverErrorEnv).reporter.network.samples
      ≠ seededReporter.network.samples := by
  decide

/-- Claim C8, amended. After a report cycle that ends abandoned, the buffer of the network
collector begins with the whole buffer as it was before the cycle, in the same order:
nothing is cleared or removed, and at most one sample for each of the `MaxRetries` attempts
has been appended. -/
theorem report_abandoned_keeps_samples (r : Reporter) (env : Nat → AttemptEnv) (e : String)
    (h : (report r env).outcome = ReportOutcome.returned (some e)) :
    r.network.samples <+: (report r env).reporter.network.samples ∧
      (report r env).reporter.network.samples.length
        ≤ r.network.samples.length + MaxRetries := by
  rw [report_eq_reportLoop] at h ⊢
  exact (reportLoop_samples env MaxRetries 0 (initialLoopState r)).2 (by rw [h]; simp)

/-- Claim C8, amended, on a cycle that starts with one buffered sample and has all five
submissions answered with status 500. -/
theorem report_abandoned_keeps_samples_witness :
    (report
      { seededReporter with
        network := collectSample seededReporter.network 101000000000 "eth0" 1050 500 }
      serverErrorEnv).outcome
      = ReportOutcome.returned (some "max retries exceeded: server returned error: 500 - ") ∧
    (collectSample seededReporter.network 101000000000 "eth0" 1050 500).samples.length = 1 ∧
    (collectSample seededReporter.network 101000000000 "eth0" 1050 500).samples
      <+: (report
        { seededReporter with
          network := collectSample seededReporter.network 101000000000 "eth0" 1050 500 }
        serverErrorEnv).reporter.network.samples :=
  ⟨by decide, by decide,
   (report_abandoned_keeps_samples
      { seededReporter with
        network := collectSample seededReporter.network 101000000000 "eth0" 1050 500 }
      serverErrorEnv "max retries exceeded: server returned error: 500 - " (by decide)).1⟩

/-! ## Backoff and the number of attempts (C9, C10) -/

/-- In every report cycle in which every submission fails with a retryable error and no
collection panics, the variable `delay` is 5, 10, 20, 40 and 60 seconds at the start of the
five attempts, and `report` sleeps four times, for 10, 20, 40 and 60 seconds. -/
theorem report_all_fail_waits (r : Reporter) (env : Nat → AttemptEnv)
    (hfail : ∀ k, k < MaxRetries → failsTransiently (env k))
    (hnp : (report r env).outcome ≠ ReportOutcome.panicked) :
    (report r env).delays
        = [5 * Second, 10 * Second, 20 * Second, 40 * Second, 60 * Second] ∧
      (report r env).delays
        = [InitialRetryDelay, nextDelay InitialRetryDelay,
            nextDelay (nextDelay InitialRetryDelay),
            nextDelay (nextDelay (nextDelay InitialRetryDelay)),
            nextDelay (nextDelay (nextDelay (nextDelay InitialRetryDelay)))] ∧
      (report r env).sleeps = [10 * Second, 20 * Second, 40 * Second, 60 * Second] := by
  have h0 : report r env = reportLoop env 5 0 (initialLoopState r) := rfl
  rw [h0] at hnp ⊢
  obtain ⟨r1, d1, m1, e1⟩ :=
    reportLoop_fail_step env 4 0 (initialLoopState r) (hfail 0 (by decide)) hnp
  rw [e1] at hnp ⊢
  obtain ⟨r2, d2, m2, e2⟩ := reportLoop_fail_step env 3 1 _ (hfail 1 (by decide)) hnp
  rw [e2] at hnp ⊢
  obtain ⟨r3, d3, m3, e3⟩ := reportLoop_fail_step env 2 2 _ (hfail 2 (by decide)) hnp
  rw [e3] at hnp ⊢
  obtain ⟨r4, d4, m4, e4⟩ := reportLoop_fail_step env 1 3 _ (hfail 3 (by decide)) hnp
  rw [e4] at hnp ⊢
  obtain ⟨r5, d5, m5, e5⟩ := reportLoop_fail_step env 0 4 _ (hfail 4 (by decide)) hnp
  rw [e5, reportLoop_zero]
  exact ⟨rfl, rfl, rfl⟩

/-- Claim C9, on the code. In a cycle whose five submissions are all answered with status
500, `report` ends with the error of the exhausted retries after five submissions. The
delay starts at `InitialRetryDelay`, 5 s, which its comment calls the delay before the first
retry, but it is doubled at the first failure, before it is slept for the first time: the
waits between the attempts are 10, 20, 40 and 60 seconds, and 5 seconds are never waited. -/
theorem report_backoff_waits :
    InitialRetryDelay = 5 * Second ∧
    (∀ (k : Nat) (data : ReportData),
      (serverErrorEnv k).submit data = SubmitResult.err "server returned error: 500 - ") ∧
    (report seededReporter serverErrorEnv).outcome
      = ReportOutcome.returned (some "max retries exceeded: server returned error: 500 - ") ∧
    (report seededReporter serverErrorEnv).submitted.length = 5 ∧
    (report seededReporter serverErrorEnv).delays
      = [5 * Second, 10 * Second, 20 * Second, 40 * Second, 60 * Second] ∧
    (report seededReporter serverErrorEnv).sleeps
      = [10 * Second, 20 * Second, 40 * Second, 60 * Second] ∧
    (report seededReporter serverErrorEnv).sleeps.head? ≠ some InitialRetryDelay := by
  refine ⟨rfl, fun _ _ => rfl, ?_, ?_, ?_, ?_, ?_⟩ <;> decide

/-- The attempts of `report`. It submits at most `MaxRetries = 5` times in a cycle. If every
submission fails with a retryable error it submits exactly 5 times and returns the error
"max retries exceeded: " followed by the error of the last submission. If attempt `j + 1`
(with `j < 5`) is the first whose submission is accepted it submits exactly `j + 1` times
and returns nil. And it returns nil only when the last submission it made was accepted.
The second and the third part are for cycles in which no collection panics. -/
theorem report_attempts_unless_panic (r : Reporter) (env : Nat → AttemptEnv) :
    (report r env).submitted.length ≤ MaxRetries ∧
    ((∀ k, k < MaxRetries → failsTransiently (env k)) →
      (report r env).outcome ≠ ReportOutcome.panicked →
      (report r env).submitted.length = MaxRetries ∧
      ∃ (data : ReportData) (msg : String),
        (report r env).submitted.getLast? = some data ∧
        (env (MaxRetries - 1)).submit data = SubmitResult.err msg ∧
        (report r env).outcome
          = ReportOutcome.returned (some ("max retries exceeded: " ++ msg))) ∧
    (∀ j, j < MaxRetries → (∀ k, k < j → failsTransiently (env k)) → succeeds (env j) →
      (report r env).outcome ≠ ReportOutcome.panicked →
      (report r env).outcome = ReportOutcome.returned none ∧
      (report r env).submitted.length = j + 1) ∧
    ((report r env).outcome = ReportOutcome.returned none →
      ∃ (k : Nat) (data : ReportData) (response : Option ReportResponse),
        k < MaxRetries ∧ (report r env).submitted.length = k + 1 ∧
        (report r env).submitted.getLast? = some data ∧
        (env k).submit data = SubmitResult.ok response) := by
  rw [report_eq_reportLoop]
  refine ⟨?_, ?_, ?_, ?_⟩
  · have h := reportLoop_submitted_le env MaxRetries 0 (initialLoopState r)
    have h0 : (initialLoopState r).submitted.length = 0 := rfl
    omega
  · intro hfail hnp
    obtain ⟨hlen, lastErr, hout, _, hpos⟩ :=
      reportLoop_all_fail env MaxRetries 0 (initialLoopState r)
        (fun k _ hk => hfail k (by omega)) hnp
    have h0 : (initialLoopState r).submitted.length = 0 := rfl
    obtain ⟨data, msg, h1, h2, h3⟩ := hpos (by decide)
    refine ⟨by omega, data, msg, h1, ?_, ?_⟩
    · simpa using h2
    · rw [hout, h3]
      rfl
  · intro j hj hfail hsucc hnp
    obtain ⟨ho, hl⟩ := reportLoop_first_success env MaxRetries 0 (initialLoopState r) j
      (Nat.zero_le j) (by omega) (fun k _ hk => hfail k hk) hsucc hnp
    have h0 : (initialLoopState r).submitted.length = 0 := rfl
    exact ⟨ho, by omega⟩
  · intro h
    obtain ⟨k, data, response, _, hk, hlen, hlast, hok⟩ :=
      reportLoop_nil_has_success env MaxRetries 0 (initialLoopState r) rfl h
    exact ⟨k, data, response, by omega, hlen, hlast, hok⟩

/-- Claim C10, on the code. The network collector of the reporter holds a snapshot taken
at 1.0 s, and every submission of the cycle would be answered with status 500. The first
collection of the cycle, at 1.5 s, buffers a sample of half a second, and the division by
`uint64(0.5) = 0` in `Collect` panics: `report` makes no submission at all and returns no
error, where five submissions and the error of the exhausted retries are due. -/
theorem report_panics_before_submitting :
    (∀ (k : Nat) (data : ReportData),
      (halfSecondEnv k).submit data = SubmitResult.err "server returned error: 500 - ") ∧
    seededReporter.network = snapshotAt 1000000000 "eth0" 1000 500 ∧
    (Collect seededReporter.network (halfSecondEnv 0).now (halfSecondEnv 0).netStats).2
      = CollectResult.divideByZero ∧
    (report seededReporter halfSecondEnv).outcome = ReportOutcome.panicked ∧
    (report seededReporter halfSecondEnv).submitted.length = 0 ∧
    (report seededReporter halfSecondEnv).submitted.length ≠ MaxRetries := by
  refine ⟨?_, rfl, by decide, by decide, by decide, by decide⟩
  intro k data
  unfold halfSecondEnv
  split <;> rfl

/-! ## Client.Report and the fatal error (C11, C12) -/

/-- A text that begins with another character than the compared text is different from it,
whatever follows. -/
theorem append_ne_of_head (a b s : String) (h : a.data.head? ≠ none)
    (hne : a.data.head? ≠ b.data.head?) : a ++ s ≠ b := by
  intro e
  have h1 : (a ++ s).data.head? = b.data.head? := by rw [e]
  rw [String.data_append] at h1
  cases ha : a.data with
  | nil => rw [ha] at h; exact h rfl
  | cons c cs =>
    rw [ha] at h1 hne
    exact hne h1

/-- Among all exchanges, `Client.Report` returns the error that `report` compares against
only for a response of status 401 whose body could be read. -/
theorem Client_Report_unauthorized_iff (unmarshal : String → Except String ReportResponse)
    (x : Exchange) :
    Client.Report unmarshal x = SubmitResult.err unauthorizedMessage ↔
      ∃ body, x = Exchange.response StatusUnauthorized body := by
  constructor
  · intro h
    cases x with
    | marshalFailed err =>
      simp only [Client.Report, SubmitResult.err.injEq] at h
      exact absurd h (append_ne_of_head _ _ _ (by decide) (by decide))
    | requestFailed err =>
      simp only [Client.Report, SubmitResult.err.injEq] at h
      exact absurd h (append_ne_of_head _ _ _ (by decide) (by decide))
    | sendFailed err =>
      simp only [Client.Report, SubmitResult.err.injEq] at h
      exact absurd h (append_ne_of_head _ _ _ (by decide) (by decide))
    | bodyUnreadable status err =>
      simp only [Client.Report, SubmitResult.err.injEq] at h
      exact absurd h (append_ne_of_head _ _ _ (by decide) (by decide))
    | response status body =>
      by_cases h1 : status = StatusUnauthorized
      · exact ⟨body, by rw [h1]⟩
      · exfalso
        simp only [Client.Report] at h
        rw [if_neg h1] at h
        by_cases h2 : status ≠ StatusOK
        · rw [if_pos h2] at h
          injection h with h
          rw [String.append_assoc, String.append_assoc] at h
          exact absurd h (append_ne_of_head _ _ _ (by decide) (by decide))
        · rw [if_neg h2] at h
          cases hu : unmarshal body with
          | error err =>
            rw [hu] at h
            injection h with h
            exact absurd h (append_ne_of_head _ _ _ (by decide) (by decide))
          | ok response =>
            rw [hu] at h
            exact absurd h (by simp)
  · rintro ⟨body, rfl⟩
    simp [Client.Report, unauthorizedMessage]

/-- The payloads recorded before a run are the front part of those recorded after it. -/
theorem reportLoop_submitted_extend (env : Nat → AttemptEnv) (n : Nat) :
    ∀ (attempt : Nat) (st : LoopState),
      st.submitted <+: (reportLoop env n attempt st).submitted := by
  induction n with
  | zero =>
    intro attempt st
    rw [reportLoop_zero]
  | succ n ih =>
    intro attempt st
    rcases reportLoop_cases env attempt st with ⟨r1, h⟩ | ⟨r1, data, h, hs⟩ |
      ⟨r1, data, msg, h, hs, hm⟩ | ⟨r1, data, response, h, hs⟩
    · rw [reportLoop_panic env n attempt st r1 h]
    · rw [reportLoop_exit env n attempt st r1 data h hs]
      exact List.prefix_append _ _
    · rw [reportLoop_retry env n attempt st r1 data msg h hs hm]
      exact List.IsPrefix.trans (List.prefix_append st.submitted [data])
        (ih (attempt + 1) (retryState st attempt r1 data msg))
    · rw [reportLoop_success env n attempt st r1 data response h hs]
      exact List.prefix_append _ _

/-- An entry of the front part of a list is an entry of the list, at the same index. -/
theorem getElem?_of_isPrefix {α : Type} (l m : List α) (h : l <+: m) (k : Nat) (x : α)
    (hk : l[k]? = some x) : m[k]? = some x := by
  obtain ⟨t, rfl⟩ := h
  have hlt : k < l.length := by
    by_contra hc
    rw [List.getElem?_eq_none (by omega)] at hk
    exact absurd hk (by simp)
  rw [List.getElem?_append_left hlt]
  exact hk

/-- A run ends in the exit through `logger.Fatal` exactly when one of the submissions it
made was answered with the unauthorized error. -/
theorem reportLoop_exited_iff (env : Nat → AttemptEnv) (n : Nat) :
    ∀ (attempt : Nat) (st : LoopState), st.submitted.length = attempt →
      ((reportLoop env n attempt st).outcome = ReportOutcome.exited ↔
        ∃ (k : Nat) (data : ReportData), attempt ≤ k ∧
          (reportLoop env n attempt st).submitted[k]? = some data ∧
          (env k).submit data = SubmitResult.err unauthorizedMessage) := by
  induction n with
  | zero =>
    intro attempt st hlen
    rw [reportLoop_zero]
    constructor
    · intro h
      exact absurd h (by simp)
    · rintro ⟨k, data, hk, hget, _⟩
      have hle : st.submitted.length ≤ k := by omega
      have hnone : st.submitted[k]? = none := List.getElem?_eq_none hle
      exact absurd (hnone.symm.trans hget) (by simp)
  | succ n ih =>
    intro attempt st hlen
    rcases reportLoop_cases env attempt st with ⟨r1, h⟩ | ⟨r1, data, h, hs⟩ |
      ⟨r1, data, msg, h, hs, hm⟩ | ⟨r1, data, response, h, hs⟩
    · rw [reportLoop_panic env n attempt st r1 h]
      constructor
      · intro hc
        exact absurd hc (by simp)
      · rintro ⟨k, d, hk, hget, _⟩
        have hle : st.submitted.length ≤ k := by omega
        have hnone : st.submitted[k]? = none := List.getElem?_eq_none hle
        exact absurd (hnone.symm.trans hget) (by simp)
    · rw [reportLoop_exit env n attempt st r1 data h hs]
      refine ⟨fun _ => ⟨attempt, data, le_refl _, ?_, hs⟩, fun _ => rfl⟩
      rw [List.getElem?_append_right (by omega)]
      simp [hlen]
    · rw [reportLoop_retry env n attempt st r1 data msg h hs hm]
      have hlen1 : (retryState st attempt r1 data msg).submitted.length = attempt + 1 := by
        simp [retryState, hlen]
      rw [ih (attempt + 1) (retryState st attempt r1 data msg) hlen1]
      constructor
      · rintro ⟨k, d, hk, hget, hsub⟩
        exact ⟨k, d, by omega, hget, hsub⟩
      · rintro ⟨k, d, hk, hget, hsub⟩
        rcases Nat.eq_or_lt_of_le hk with heq | hlt
        · exfalso
          have h0 : (retryState st attempt r1 data msg).submitted[attempt]? = some data := by
            show (st.submitted ++ [data])[attempt]? = some data
            rw [List.getElem?_append_right (by omega)]
            simp [hlen]
          have h1 := getElem?_of_isPrefix _ _
            (reportLoop_submitted_extend env n (attempt + 1)
              (retryState st attempt r1 data msg)) _ _ h0
          rw [← heq, h1] at hget
          injection hget with hget
          rw [← heq, ← hget, hs] at hsub
          injection hsub with hsub
          exact hm hsub
        · exact ⟨k, d, by omega, hget, hsub⟩
    · rw [reportLoop_success env n attempt st r1 data response h hs]
      constructor
      · intro hc
        exact absurd hc (by simp)
      · rintro ⟨k, d, hk, hget, hsub⟩
        exfalso
        have hget1 : (st.submitted ++ [data])[k]? = some d := hget
        rcases Nat.eq_or_lt_of_le hk with heq | hlt
        · rw [List.getElem?_append_right (by omega)] at hget1
          have hz : k - st.submitted.length = 0 := by omega
          rw [hz] at hget1
          simp at hget1
          rw [← heq, ← hget1, hs] at hsub
          exact absurd hsub (by simp)
        · have hle : (st.submitted ++ [data]).length ≤ k := by
            simp only [List.length_append, List.length_singleton]
            omega
          rw [List.getElem?_eq_none hle] at hget1
          exact absurd hget1 (by simp)

/-- A run that ends in the exit has slept the minute of grace last, after the submission that
was answered with the unauthorized error, which is the last submission it made. -/
theorem reportLoop_exited_last (env : Nat → AttemptEnv) (n : Nat) :
    ∀ (attempt : Nat) (st : LoopState), st.submitted.length = attempt →
      (reportLoop env n attempt st).outcome = ReportOutcome.exited →
      (reportLoop env n attempt st).sleeps.getLast? = some (1 * Minute) ∧
      ∃ data : ReportData,
        (reportLoop env n attempt st).submitted.getLast? = some data ∧
        (env ((reportLoop env n attempt st).submitted.length - 1)).submit data
          = SubmitResult.err unauthorizedMessage := by
  induction n with
  | zero =>
    intro attempt st _ h
    rw [reportLoop_zero] at h
    exact absurd h (by simp)
  | succ n ih =>
    intro attempt st hlen hout
    rcases reportLoop_cases env attempt st with ⟨r1, h⟩ | ⟨r1, data, h, hs⟩ |
      ⟨r1, data, msg, h, hs, hm⟩ | ⟨r1, data, response, h, hs⟩
    · rw [reportLoop_panic env n attempt st r1 h] at hout
      exact absurd hout (by simp)
    · rw [reportLoop_exit env n attempt st r1 data h hs]
      refine ⟨by simp, data, by simp, ?_⟩
      simp only [List.length_append, List.length_singleton, Nat.add_sub_cancel, hlen]
      exact hs
    · rw [reportLoop_retry env n attempt st r1 data msg h hs hm] at hout ⊢
      exact ih (attempt + 1) (retryState st attempt r1 data msg)
        (by simp [retryState, hlen]) hout
    · rw [reportLoop_success env n attempt st r1 data response h hs] at hout
      exact absurd hout (by simp)

/-- Claim C11, refuted as stated. A submission answered with status 401 whose body cannot be
read makes `Client.Report` return the read error, not the unauthorized one: `report` does
not exit, it retries, and after five such answers it returns the error of an abandoned
cycle. -/
theorem report_exit_counterexample :
    Client.Report directiveUnmarshal (Exchange.bodyUnreadable 401 "unexpected EOF")
      = SubmitResult.err "failed to read response body: unexpected EOF" ∧
    (report seededReporter
        (exchangeEnv (Exchange.bodyUnreadable 401 "unexpected EOF"))).outcome
      = ReportOutcome.returned
          (some "max retries exceeded: failed to read response body: unexpected EOF") ∧
    (report seededReporter
        (exchangeEnv (Exchange.bodyUnreadable 401 "unexpected EOF"))).submitted.length = 5 := by
  decide

/-- Claim C11, amended. With every submission going through `Client.Report`, `report` ends
in the exit of the process exactly when one of the submissions it made was answered with
status 401 and a body that could be read; it then sleeps the minute of grace last, and that
submission is the last one it made. `Client.Report` returns the error that `report` takes
for the fatal one for such a response only: not for another status, nor for a failure to
build or send the request, to read the body or to parse it. -/
theorem report_exits_iff_unauthorized (unmarshal : String → Except String ReportResponse)
    (exch : Nat → ReportData → Exchange) (r : Reporter) (env : Nat → AttemptEnv)
    (henv : ∀ k data, (env k).submit data = Client.Report unmarshal (exch k data)) :
    ((report r env).outcome = ReportOutcome.exited ↔
      ∃ (k : Nat) (data : ReportData) (body : String),
        (report r env).submitted[k]? = some data ∧
        exch k data = Exchange.response StatusUnauthorized body) ∧
    ((report r env).outcome = ReportOutcome.exited →
      (report r env).sleeps.getLast? = some (1 * Minute) ∧
      ∃ (data : ReportData) (body : String),
        (report r env).submitted.getLast? = some data ∧
        exch ((report r env).submitted.length - 1) data
          = Exchange.response StatusUnauthorized body) ∧
    (∀ x : Exchange,
      Client.Report unmarshal x = SubmitResult.err unauthorizedMessage ↔
        ∃ body, x = Exchange.response StatusUnauthorized body) := by
  rw [report_eq_reportLoop]
  refine ⟨?_, ?_, fun x => Client_Report_unauthorized_iff unmarshal x⟩
  · rw [reportLoop_exited_iff env MaxRetries 0 (initialLoopState r) rfl]
    constructor
    · rintro ⟨k, data, _, hget, hsub⟩
      rw [henv k data] at hsub
      obtain ⟨body, hb⟩ := (Client_Report_unauthorized_iff unmarshal _).mp hsub
      exact ⟨k, data, body, hget, hb⟩
    · rintro ⟨k, data, body, hget, hb⟩
      refine ⟨k, data, Nat.zero_le k, hget, ?_⟩
      rw [henv k data]
      exact (Client_Report_unauthorized_iff unmarshal _).mpr ⟨body, hb⟩
  · intro hout
    obtain ⟨hsleep, data, hlast, hsub⟩ :=
      reportLoop_exited_last env MaxRetries 0 (initialLoopState r) rfl hout
    rw [henv _ data] at hsub
    obtain ⟨body, hb⟩ := (Client_Report_unauthorized_iff unmarshal _).mp hsub
    exact ⟨hsleep, data, body, hlast, hb⟩

/-- Claim C11, amended, on a cycle whose first submission is answered with status 401 and an
empty body: one submission, the minute of grace, and the exit. -/
theorem report_exits_iff_unauthorized_witness :
    (report seededReporter (exchangeEnv (Exchange.response 401 ""))).outcome
      = ReportOutcome.exited ∧
    (report seededReporter (exchangeEnv (Exchange.response 401 ""))).submitted.length = 1 ∧
    (report seededReporter (exchangeEnv (Exchange.response 401 ""))).sleeps.getLast?
      = some (1 * Minute) :=
  ⟨by decide, by decide,
   ((report_exits_iff_unauthorized directiveUnmarshal (fun _ _ => Exchange.response 401 "")
      seededReporter (exchangeEnv (Exchange.response 401 "")) (fun _ _ => rfl)).2.1
      (by decide)).1⟩

/-- Claim C12. Once the response has arrived and its body has been read, `Client.Report` is
decided by status and body: status 401 gives the error "unauthorized: invalid token"
whatever the body; any other status than 200 gives the error
"server returned error: <status> - <body>", which `report` retries; status 200 with a body
that decodes gives the decoded directive, non-nil, and no error; status 200 with a body that
does not decode gives the error "failed to parse response: ...", which `report` retries, and
no response. -/
theorem Client_Report_classifies (unmarshal : String → Except String ReportResponse) :
    (∀ body : String,
      Client.Report unmarshal (Exchange.response StatusUnauthorized body)
        = SubmitResult.err "unauthorized: invalid token") ∧
    (∀ (status : Int) (body : String), status ≠ StatusUnauthorized → status ≠ StatusOK →
      Client.Report unmarshal (Exchange.response status body)
        = SubmitResult.err ("server returned error: " ++ toString status ++ " - " ++ body) ∧
      "server returned error: " ++ toString status ++ " - " ++ body ≠ unauthorizedMessage) ∧
    (∀ (body : String) (response : ReportResponse), unmarshal body = Except.ok response →
      Client.Report unmarshal (Exchange.response StatusOK body)
        = SubmitResult.ok (some response)) ∧
    (∀ (body err : String), unmarshal body = Except.error err →
      Client.Report unmarshal (Exchange.response StatusOK body)
        = SubmitResult.err ("failed to parse response: " ++ err) ∧
      "failed to parse response: " ++ err ≠ unauthorizedMessage) := by
  refine ⟨?_, ?_, ?_, ?_⟩
  · intro body
    simp [Client.Report]
  · intro status body h1 h2
    refine ⟨?_, ?_⟩
    · simp only [Client.Report]
      rw [if_neg h1, if_pos h2]
    · rw [String.append_assoc, String.append_assoc]
      exact append_ne_of_head _ _ _ (by decide) (by decide)
  · intro body response hu
    have h1 : ¬ StatusOK = StatusUnauthorized := by decide
    have h2 : ¬ StatusOK ≠ StatusOK := by simp
    simp only [Client.Report]
    rw [if_neg h1, if_neg h2, hu]
  · intro body err hu
    have h1 : ¬ StatusOK = StatusUnauthorized := by decide
    have h2 : ¬ StatusOK ≠ StatusOK := by simp
    refine ⟨?_, append_ne_of_head _ _ _ (by decide) (by decide)⟩
    simp only [Client.Report]
    rw [if_neg h1, if_neg h2, hu]

/-- Claim C12 on four responses: status 401 with a body, status 503, status 200 with the
directive of interval 120, and status 200 with a body that is no directive. -/
theorem Client_Report_classifies_witness :
    Client.Report directiveUnmarshal (Exchange.response 401 "denied")
      = SubmitResult.err "unauthorized: invalid token" ∧
    Client.Report directiveUnmarshal (Exchange.response 503 "busy")
      = SubmitResult.err ("server returned error: " ++ toString (503 : Int) ++ " - " ++ "busy") ∧
    Client.Report directiveUnmarshal
        (Exchange.response 200 "\x7b\"success\":true,\"report_interval\":120\x7d")
      = SubmitResult.ok (some { Success := true, ReportInterval := 120 }) ∧
    Client.Report directiveUnmarshal (Exchange.response 200 "<html>")
      = SubmitResult.err ("failed to parse response: " ++ "invalid character") :=
  ⟨(Client_Report_classifies directiveUnmarshal).1 "denied",
   ((Client_Report_classifies directiveUnmarshal).2.1 503 "busy" (by decide) (by decide)).1,
   (Client_Report_classifies directiveUnmarshal).2.2.1
      "\x7b\"success\":true,\"report_interval\":120\x7d"
      { Success := true, ReportInterval := 120 } rfl,
   ((Client_Report_classifies directiveUnmarshal).2.2.2 "<html>" "invalid character"
      rfl).1⟩

/-! ## The interval directive (C13, C14) -/

/-- A product that fits `int64` is not changed by the wrap-around. -/
theorem wrapInt64_of_fits (x : Int) (h1 : -9223372036854775808 ≤ x)
    (h2 : x ≤ 9223372036854775807) : wrapInt64 x = x := by
  unfold wrapInt64
  omega

/-- A directive that differs from the stored interval, with the channel empty: the interval
is stored and one value is put into the channel. -/
theorem applyInterval_sends (r : Reporter) (resp : ReportResponse)
    (hpos : resp.ReportInterval > 0) (hne : resp.ReportInterval ≠ r.config.ReportInterval)
    (hnone : r.intervalUpdate = none) :
    (applyInterval r (some resp)).config.ReportInterval = resp.ReportInterval ∧
      (applyInterval r (some resp)).intervalUpdate
        = some (wrapInt64 (resp.ReportInterval * Second)) := by
  unfold applyInterval
  simp only [if_pos hpos, hne, ne_eq, not_false_eq_true, if_true, hnone]
  simp

/-- A directive equal to the stored interval changes nothing. -/
theorem applyInterval_same (r : Reporter) (resp : ReportResponse)
    (heq : resp.ReportInterval = r.config.ReportInterval) :
    applyInterval r (some resp) = r := by
  unfold applyInterval
  by_cases hpos : resp.ReportInterval > 0
  · have hnn : ¬ (resp.ReportInterval ≠ r.config.ReportInterval) := fun hc => hc heq
    simp only [if_pos hpos, if_neg hnn]
  · simp only [if_neg hpos]

/-- A directive that is not positive changes nothing. -/
theorem applyInterval_nonpositive (r : Reporter) (resp : ReportResponse)
    (h : ¬ resp.ReportInterval > 0) : applyInterval r (some resp) = r := by
  unfold applyInterval
  simp only [if_neg h]

/-- A value waiting in the channel is never replaced. -/
theorem applyInterval_pending (r : Reporter) (response : Option ReportResponse) (v : Duration)
    (hv : r.intervalUpdate = some v) :
    (applyInterval r response).intervalUpdate = some v := by
  unfold applyInterval
  cases response with
  | none => exact hv
  | some resp =>
    dsimp only
    split
    · split
      · simp only [hv]
      · exact hv
    · exact hv

/-- A differing positive directive is stored whether or not the channel is empty. -/
theorem applyInterval_stores (r : Reporter) (resp : ReportResponse)
    (hpos : resp.ReportInterval > 0) (hne : resp.ReportInterval ≠ r.config.ReportInterval) :
    (applyInterval r (some resp)).config.ReportInterval = resp.ReportInterval := by
  unfold applyInterval
  simp only [if_pos hpos, hne, ne_eq, not_false_eq_true, if_true]
  split <;> rfl

/-- The state in which a run that returns nil leaves the reporter: the directive of the
accepted response, the last one submitted, applied to a reporter that still has the interval
and the channel the run started with, and the buffer cleared. -/
theorem reportLoop_success_state (env : Nat → AttemptEnv) (n : Nat) :
    ∀ (attempt : Nat) (st : LoopState), st.submitted.length = attempt →
      (reportLoop env n attempt st).outcome = ReportOutcome.returned none →
      ∃ (r1 : Reporter) (data : ReportData) (response : Option ReportResponse),
        r1.config = st.reporter.config ∧ r1.intervalUpdate = st.reporter.intervalUpdate ∧
        (reportLoop env n attempt st).submitted.getLast? = some data ∧
        (env ((reportLoop env n attempt st).submitted.length - 1)).submit data
          = SubmitResult.ok response ∧
        (reportLoop env n attempt st).reporter.config = (applyInterval r1 response).config ∧
        (reportLoop env n attempt st).reporter.intervalUpdate
          = (applyInterval r1 response).intervalUpdate := by
  induction n with
  | zero =>
    intro attempt st _ h
    rw [reportLoop_zero] at h
    exact absurd h (by simp)
  | succ n ih =>
    intro attempt st hlen hout
    have hf := collectData_frame st.reporter (env attempt)
    rcases reportLoop_cases env attempt st with ⟨r1, h⟩ | ⟨r1, data, h, hs⟩ |
      ⟨r1, data, msg, h, hs, hm⟩ | ⟨r1, data, response, h, hs⟩
    · rw [reportLoop_panic env n attempt st r1 h] at hout
      exact absurd hout (by simp)
    · rw [reportLoop_exit env n attempt st r1 data h hs] at hout
      exact absurd hout (by simp)
    · rw [h] at hf
      rw [reportLoop_retry env n attempt st r1 data msg h hs hm] at hout ⊢
      obtain ⟨r2, d, resp, h1, h2, h3, h4, h5, h6⟩ :=
        ih (attempt + 1) (retryState st attempt r1 data msg) (by simp [retryState, hlen]) hout
      exact ⟨r2, d, resp, h1.trans hf.1, h2.trans hf.2.1, h3, h4, h5, h6⟩
    · rw [h] at hf
      rw [reportLoop_success env n attempt st r1 data response h hs]
      refine ⟨r1, data, response, hf.1, hf.2.1, by simp, ?_, rfl, rfl⟩
      simp only [List.length_append, List.length_singleton, Nat.add_sub_cancel, hlen]
      exact hs

/-- Claim C13, refuted as stated. With no update pending and the interval 300 stored, a
submission accepted with the directive `report_interval = 9223372037` puts one value into
the channel, but not that many seconds: the product with `time.Second` does not fit a
`time.Duration` and wraps around to a negative value. -/
theorem report_interval_counterexample :
    seededReporter.intervalUpdate = none ∧ seededReporter.config.ReportInterval = 300 ∧
    (report seededReporter (directiveEnv 9223372037)).outcome = ReportOutcome.returned none ∧
    (report seededReporter (directiveEnv 9223372037)).reporter.config.ReportInterval
      = 9223372037 ∧
    (report seededReporter (directiveEnv 9223372037)).reporter.intervalUpdate
      = some (-9223372036709551616) ∧
    (report seededReporter (directiveEnv 9223372037)).reporter.intervalUpdate
      ≠ some (9223372037 * Second) := by
  decide

/-- Claim C13, amended. Let a call of `report` return nil, its last submission having been
accepted with a response that carries `report_interval = n`. If no update was pending,
`n > 0` and `n` differs from the stored interval, the stored interval becomes `n` and the
channel holds exactly one value, `time.Duration(n) * time.Second` as computed in `int64`,
which is `n` seconds whenever `n ≤ 9223372036`. If `n` equals the stored interval, the
channel and the stored interval are left as they were. -/
theorem report_interval_directive (r : Reporter) (env : Nat → AttemptEnv) (data : ReportData)
    (resp : ReportResponse)
    (hout : (report r env).outcome = ReportOutcome.returned none)
    (hlast : (report r env).submitted.getLast? = some data)
    (hok : (env ((report r env).submitted.length - 1)).submit data
      = SubmitResult.ok (some resp)) :
    (r.intervalUpdate = none → resp.ReportInterval > 0 →
      resp.ReportInterval ≠ r.config.ReportInterval →
      (report r env).reporter.config.ReportInterval = resp.ReportInterval ∧
      (report r env).reporter.intervalUpdate
        = some (wrapInt64 (resp.ReportInterval * Second)) ∧
      (resp.ReportInterval ≤ 9223372036 →
        (report r env).reporter.intervalUpdate = some (resp.ReportInterval * Second))) ∧
    (resp.ReportInterval = r.config.ReportInterval →
      (report r env).reporter.intervalUpdate = r.intervalUpdate ∧
      (report r env).reporter.config.ReportInterval = r.config.ReportInterval) := by
  rw [report_eq_reportLoop] at hout hlast hok ⊢
  obtain ⟨r1, d, response, hc, hi, hl, hs, hfc, hfi⟩ :=
    reportLoop_success_state env MaxRetries 0 (initialLoopState r) rfl hout
  have hc1 : r1.config = r.config := hc
  have hi1 : r1.intervalUpdate = r.intervalUpdate := hi
  rw [hlast] at hl
  injection hl with hl
  subst hl
  rw [hok] at hs
  injection hs with hs
  subst hs
  rw [hfc, hfi]
  constructor
  · intro hnone hpos hne
    have h := applyInterval_sends r1 resp hpos (by rw [hc1]; exact hne) (by rw [hi1]; exact hnone)
    refine ⟨h.1, h.2, fun hle => ?_⟩
    rw [h.2, wrapInt64_of_fits]
    · have : resp.ReportInterval * Second = resp.ReportInterval * 1000000000 := rfl
      omega
    · have : resp.ReportInterval * Second = resp.ReportInterval * 1000000000 := rfl
      omega
  · intro heq
    rw [applyInterval_same r1 resp (by rw [hc1]; exact heq), hi1, hc1]
    exact ⟨rfl, rfl⟩

/-- Claim C13, amended, at the example of the specification: the directive 120 while the
interval is 300 and nothing is pending leaves the interval 120 stored and one signal of
120 seconds in the channel. -/
theorem report_interval_directive_witness :
    (report seededReporter (directiveEnv 120)).reporter.config.ReportInterval = 120 ∧
    (report seededReporter (directiveEnv 120)).reporter.intervalUpdate
      = some (120 * Second) :=
  ⟨((report_interval_directive seededReporter (directiveEnv 120)
      ((report seededReporter (directiveEnv 120)).submitted.getLast?.getD emptyReportData)
      { Success := true, ReportInterval := 120 } (by decide) rfl rfl).1
      rfl (by decide) (by decide)).1,
   ((report_interval_directive seededReporter (directiveEnv 120)
      ((report seededReporter (directiveEnv 120)).submitted.getLast?.getD emptyReportData)
      { Success := true, ReportInterval := 120 } (by decide) rfl rfl).1
      rfl (by decide) (by decide)).2.2 (by decide)⟩

/-- Claim C14. The channel of interval updates holds at most one value, and `NewReporter`
creates it empty. If a value is still waiting in it when a submission is accepted, `report`
goes on without blocking: whatever the directive, the waiting value stays in the channel
untouched and no other value enters it, the buffer is cleared and nil is returned. This is
for the cycle whose attempt `j + 1` is the first accepted one, with no collection
panicking. -/
theorem report_pending_update_kept (r : Reporter) (env : Nat → AttemptEnv) (v : Duration)
    (j : Nat) (hpending : r.intervalUpdate = some v) (hj : j < MaxRetries)
    (hfail : ∀ k, k < j → failsTransiently (env k)) (hsucc : succeeds (env j))
    (hnp : (report r env).outcome ≠ ReportOutcome.panicked) :
    (report r env).outcome = ReportOutcome.returned none ∧
    (report r env).reporter.intervalUpdate = some v ∧
    (report r env).reporter.network.samples = [] ∧
    ∀ config : Config, (NewReporter config).intervalUpdate = none := by
  rw [report_eq_reportLoop] at hnp ⊢
  have hout := (reportLoop_first_success env MaxRetries 0 (initialLoopState r) j
    (Nat.zero_le j) (by omega) (fun k _ hk => hfail k hk) hsucc hnp).1
  obtain ⟨r1, d, response, _, hi, _, _, _, hfi⟩ :=
    reportLoop_success_state env MaxRetries 0 (initialLoopState r) rfl hout
  have hi1 : r1.intervalUpdate = some v := hi.trans hpending
  refine ⟨hout, ?_, (reportLoop_samples env MaxRetries 0 (initialLoopState r)).1 hout,
    fun _ => rfl⟩
  rw [hfi]
  exact applyInterval_pending r1 response v hi1

/-- Claim C14 on a reporter with an update of 60 s still waiting, whose first submission is
accepted with the directive 120 while the interval 300 is stored. -/
theorem report_pending_update_kept_witness :
    (report { seededReporter with intervalUpdate := some (60 * Second) }
      (directiveEnv 120)).outcome = ReportOutcome.returned none ∧
    (report { seededReporter with intervalUpdate := some (60 * Second) }
      (directiveEnv 120)).reporter.intervalUpdate = some (60 * Second) ∧
    (report { seededReporter with intervalUpdate := some (60 * Second) }
      (directiveEnv 120)).reporter.network.samples = [] :=
  ⟨(report_pending_update_kept { seededReporter with intervalUpdate := some (60 * Second) }
      (directiveEnv 120) (60 * Second) 0 rfl (by decide)
      (fun k hk => absurd hk (Nat.not_lt_zero k))
      (fun _ => ⟨some { Success := true, ReportInterval := 120 }, rfl⟩) (by decide)).1,
   (report_pending_update_kept { seededReporter with intervalUpdate := some (60 * Second) }
      (directiveEnv 120) (60 * Second) 0 rfl (by decide)
      (fun k hk => absurd hk (Nat.not_lt_zero k))
      (fun _ => ⟨some { Success := true, ReportInterval := 120 }, rfl⟩) (by decide)).2.1,
   (report_pending_update_kept { seededReporter with intervalUpdate := some (60 * Second) }
      (directiveEnv 120) (60 * Second) 0 rfl (by decide)
      (fun k hk => absurd hk (Nat.not_lt_zero k))
      (fun _ => ⟨some { Success := true, ReportInterval := 120 }, rfl⟩) (by decide)).2.2.1⟩

/-! ## The average rates of Collect (C15, C16) -/

/-- The averaging loop started from any totals below `2 ^ 64`. -/
theorem foldl_rateStep (samples : List TrafficSample) :
    ∀ acc : RateTotals, acc.totalInRate < U64 → acc.totalOutRate < U64 →
      samples.foldl rateStep acc =
        { totalInRate := (acc.totalInRate + weightedInBytes samples) % U64
          totalOutRate := (acc.totalOutRate + weightedOutBytes samples) % U64
          totalTimeSeconds := { nanos := acc.totalTimeSeconds.nanos + positiveNanos samples } } := by
  induction samples with
  | nil =>
    intro acc h1 h2
    simp [weightedInBytes, weightedOutBytes, positiveNanos, Nat.mod_eq_of_lt h1,
      Nat.mod_eq_of_lt h2]
  | cons s rest ih =>
    intro acc h1 h2
    have hU : 0 < U64 := by decide
    rw [List.foldl_cons]
    by_cases hp : s.TimeDeltaSeconds.isPositive = true
    · have hstep : rateStep acc s =
          { totalInRate := (acc.totalInRate + weightedIn s) % U64
            totalOutRate := (acc.totalOutRate + weightedOut s) % U64
            totalTimeSeconds := acc.totalTimeSeconds.add s.TimeDeltaSeconds } := by
        simp [rateStep, weightedIn, weightedOut, hp]
      rw [hstep, ih _ (Nat.mod_lt _ hU) (Nat.mod_lt _ hU)]
      simp only [weightedInBytes, weightedOutBytes, positiveNanos, List.map_cons, List.sum_cons,
        hp, if_true, FloatSeconds.add, Nat.mod_add_mod, Nat.add_assoc, Int.add_assoc]
    · have hstep : rateStep acc s = acc := by
        simp [rateStep, hp]
      have hw1 : weightedIn s = 0 := by simp [weightedIn, hp]
      have hw2 : weightedOut s = 0 := by simp [weightedOut, hp]
      rw [hstep, ih acc h1 h2]
      simp only [weightedInBytes, weightedOutBytes, positiveNanos, List.map_cons, List.sum_cons,
        hw1, hw2, hp, Nat.zero_add, Int.zero_add]
      simp

/-- The totals of the averaging loop of `Collect`, in closed form. -/
theorem rateTotals_eq (samples : List TrafficSample) :
    rateTotals samples =
      { totalInRate := weightedInBytes samples % U64
        totalOutRate := weightedOutBytes samples % U64
        totalTimeSeconds := { nanos := positiveNanos samples } } := by
  unfold rateTotals
  rw [foldl_rateStep samples _ (by decide) (by decide)]
  simp

/-- What `Collect` computes as average rates. For a buffer that is not empty and whose
positive time deltas sum up to one second or more, the summary is returned with
`TotalInBytes` the sum over the samples of (truncated rate of the sample) times (whole
seconds of the sample), modulo `2 ^ 64`, divided by the whole seconds of the summed time;
likewise for `TotalOutBytes`. -/
theorem summarize_rates (c : NetworkCollector) (publicIface : String)
    (hne : c.samples ≠ []) (hsec : 0 < wholeSeconds c.samples) :
    summarize c publicIface = CollectResult.traffic
      { Interface := publicIface
        Samples := c.samples
        TotalInBytes := weightedInBytes c.samples % U64 / wholeSeconds c.samples
        TotalOutBytes := weightedOutBytes c.samples % U64 / wholeSeconds c.samples
        SampleCount := c.samples.length } := by
  have hlen : ¬ c.samples.length = 0 := fun h => hne (List.length_eq_zero.mp h)
  have hpos : (rateTotals c.samples).totalTimeSeconds.isPositive = true := by
    rw [rateTotals_eq]
    unfold wholeSeconds FloatSeconds.toUint64 at hsec
    simp only [FloatSeconds.isPositive, decide_eq_true_eq]
    by_contra hc
    have h0 : positiveNanos c.samples / 1000000000 ≤ 0 :=
      Int.ediv_le_of_le_mul (by decide) (by omega)
    have h1 : (positiveNanos c.samples / 1000000000).toNat = 0 := by omega
    rw [h1] at hsec
    exact absurd hsec (by decide)
  have hnz : ¬ (rateTotals c.samples).totalTimeSeconds.toUint64 = 0 := by
    rw [rateTotals_eq]
    exact Nat.pos_iff_ne_zero.mp hsec
  unfold summarize
  rw [if_neg hlen]
  dsimp only
  rw [if_pos hpos, if_neg hnz, rateTotals_eq]
  rfl

/-- Claim C15, on the code. Three calls of `Collect` at 1.0 s, 2.5 s and 4.0 s, with the
in-counter at 1000, 1300 and 1600, leave two samples of 300 in-bytes over 1.5 s each. The
sum of the bytes divided by the sum of the times is `600 / 3.0 = 200` bytes per second;
the third call returns `TotalInBytes = 133`: each sample's rate of 200 is weighted with its
time truncated to 1 whole second, and the sum 400 is divided by the 3 whole seconds of the
summed time. At the cadence of the sampler the same happens on a smaller scale: two samples
of 3009 in-bytes over 300.9 s each average 10 bytes per second and are reported as 9. -/
theorem Collect_average_rate_truncates :
    (Collect (Collect (Collect NewNetworkCollector 1000000000 (eth0Stats 1000 500)).1
        2500000000 (eth0Stats 1300 500)).1 4000000000 (eth0Stats 1600 500)).2
      = CollectResult.traffic
          { Interface := "eth0"
            Samples :=
              [{ Timestamp := 2500000000
                 InBytes := 300
                 OutBytes := 0
                 TotalBytes := 300
                 TimeDeltaSeconds := Seconds 1500000000 },
               { Timestamp := 4000000000
                 InBytes := 300
                 OutBytes := 0
                 TotalBytes := 300
                 TimeDeltaSeconds := Seconds 1500000000 }]
            TotalInBytes := 133
            TotalOutBytes := 0
            SampleCount := 2 } ∧
    ((300 + 300) * 1000000000 / (1500000000 + 1500000000) : Int) = 200 ∧
    (Collect (Collect (Collect NewNetworkCollector 1000000000 (eth0Stats 1000 500)).1
        301900000000 (eth0Stats 4009 500)).1 602800000000 (eth0Stats 7018 500)).2
      = CollectResult.traffic
          { Interface := "eth0"
            Samples :=
              [{ Timestamp := 301900000000
                 InBytes := 3009
                 OutBytes := 0
                 TotalBytes := 3009
                 TimeDeltaSeconds := Seconds 300900000000 },
               { Timestamp := 602800000000
                 InBytes := 3009
                 OutBytes := 0
                 TotalBytes := 3009
                 TimeDeltaSeconds := Seconds 300900000000 }]
            TotalInBytes := 9
            TotalOutBytes := 0
            SampleCount := 2 } ∧
    ((3009 + 3009) * 1000000000 / (300900000000 + 300900000000) : Int) = 10 := by
  decide

/-- Claim C16, on the code. A buffer whose only sample has the time delta zero is summarized
normally, with both rates 0: that division is guarded. A buffer whose summed time is a
quarter of a second is not: seeded at 2.0 s, `Collect` at 2.25 s finds the total time
`0.25 > 0`, divides by `uint64(0.25) = 0` and panics. -/
theorem Collect_quarterSecond_divideByZero :
    (Collect (Collect NewNetworkCollector 2000000000 (eth0Stats 5000 800)).1 2000000000
        (eth0Stats 5600 900)).2
      = CollectResult.traffic
          { Interface := "eth0"
            Samples :=
              [{ Timestamp := 2000000000
                 InBytes := 600
                 OutBytes := 100
                 TotalBytes := 700
                 TimeDeltaSeconds := Seconds 0 }]
            TotalInBytes := 0
            TotalOutBytes := 0
            SampleCount := 1 } ∧
    (rateTotals (Collect (Collect NewNetworkCollector 2000000000 (eth0Stats 5000 800)).1
        2250000000 (eth0Stats 5600 900)).1.samples).totalTimeSeconds = Seconds 250000000 ∧
    (Seconds 250000000).isPositive = true ∧ (Seconds 250000000).toUint64 = 0 ∧
    (Collect (Collect NewNetworkCollector 2000000000 (eth0Stats 5000 800)).1 2250000000
        (eth0Stats 5600 900)).2 = CollectResult.divideByZero := by
  decide

/-! ## The payload of every attempt (C17) -/

/-- The payload that a run records at index `k` is the one that `collectData` builds in
attempt `k`, from the reporter as the attempts before it have left it. -/
theorem reportLoop_submitted_at (env : Nat → AttemptEnv) (n : Nat) :
    ∀ (attempt : Nat) (st : LoopState), st.submitted.length = attempt →
      ∀ (k : Nat) (data : ReportData), attempt ≤ k →
        (reportLoop env n attempt st).submitted[k]? = some data →
        (collectData (reporterFrom env attempt st.reporter (k - attempt)) (env k)).2
          = some data := by
  induction n with
  | zero =>
    intro attempt st hlen k data hk hget
    have hget1 : st.submitted[k]? = some data := hget
    rw [List.getElem?_eq_none (by omega)] at hget1
    exact absurd hget1 (by simp)
  | succ n ih =>
    intro attempt st hlen k data hk hget
    have hlast : ∀ d0 : ReportData, (st.submitted ++ [d0])[k]? = some data →
        k = attempt ∧ d0 = data := by
      intro d0 hg
      rcases Nat.eq_or_lt_of_le hk with heq | hlt
      · rw [List.getElem?_append_right (by omega)] at hg
        have hz : k - st.submitted.length = 0 := by omega
        rw [hz] at hg
        simp at hg
        exact ⟨heq.symm, hg⟩
      · have hle : (st.submitted ++ [d0]).length ≤ k := by
          simp only [List.length_append, List.length_singleton]
          omega
        rw [List.getElem?_eq_none hle] at hg
        exact absurd hg (by simp)
    have hhere : ∀ (r1 : Reporter) (d0 : ReportData),
        collectData st.reporter (env attempt) = (r1, some d0) → k = attempt → d0 = data →
        (collectData (reporterFrom env attempt st.reporter (k - attempt)) (env k)).2
          = some data := by
      intro r1 d0 h hka hd
      have hz : k - attempt = 0 := by omega
      rw [hz, hka]
      show (collectData st.reporter (env attempt)).2 = some data
      rw [h, ← hd]
    rcases reportLoop_cases env attempt st with ⟨r1, h⟩ | ⟨r1, d0, h, hs⟩ |
      ⟨r1, d0, msg, h, hs, hm⟩ | ⟨r1, d0, response, h, hs⟩
    · rw [reportLoop_panic env n attempt st r1 h] at hget
      have hget1 : st.submitted[k]? = some data := hget
      rw [List.getElem?_eq_none (by omega)] at hget1
      exact absurd hget1 (by simp)
    · rw [reportLoop_exit env n attempt st r1 d0 h hs] at hget
      obtain ⟨hka, hd⟩ := hlast d0 hget
      exact hhere r1 d0 h hka hd
    · rw [reportLoop_retry env n attempt st r1 d0 msg h hs hm] at hget
      rcases Nat.eq_or_lt_of_le hk with heq | hlt
      · have h0 : (retryState st attempt r1 d0 msg).submitted[attempt]? = some d0 := by
          show (st.submitted ++ [d0])[attempt]? = some d0
          rw [List.getElem?_append_right (by omega)]
          simp [hlen]
        have h1 := getElem?_of_isPrefix _ _
          (reportLoop_submitted_extend env n (attempt + 1)
            (retryState st attempt r1 d0 msg)) _ _ h0
        rw [← heq, h1] at hget
        injection hget with hget
        exact hhere r1 d0 h heq.symm hget
      · have hrec := ih (attempt + 1) (retryState st attempt r1 d0 msg)
          (by simp [retryState, hlen]) k data (by omega) hget
        have hj : k - attempt = (k - (attempt + 1)) + 1 := by omega
        have hr1 : (collectData st.reporter (env attempt)).1 = r1 := by rw [h]
        rw [hj]
        show (collectData (reporterFrom env (attempt + 1)
          (collectData st.reporter (env attempt)).1 (k - (attempt + 1))) (env k)).2 = some data
        rw [hr1]
        exact hrec
    · rw [reportLoop_success env n attempt st r1 d0 response h hs] at hget
      obtain ⟨hka, hd⟩ := hlast d0 hget
      exact hhere r1 d0 h hka hd

/-- Claim C17, refuted as stated. In a cycle whose five submissions are all answered with
status 500 while traffic goes on, the five payloads carry 1, 2, 3, 4 and 5 traffic samples:
the payload of the second attempt is not the payload of the first. -/
theorem report_payload_counterexample :
    (report seededReporter serverErrorEnv).submitted.map
        (fun data => data.NetworkTraffic.SampleCount) = [1, 2, 3, 4, 5] ∧
    (report seededReporter serverErrorEnv).submitted[1]?
      ≠ (report seededReporter serverErrorEnv).submitted[0]? := by
  decide

/-- Claim C17, amended. Within one report cycle the payload is built anew by `collectData`
on every attempt: the payload submitted on attempt `k + 1` is what `collectData` returns in
that attempt, on the reporter as the collections of the `k` attempts before have left it and
with the answers the collectors give at that time. -/
theorem report_payload_rebuilt (r : Reporter) (env : Nat → AttemptEnv) (k : Nat)
    (data : ReportData) (h : (report r env).submitted[k]? = some data) :
    (collectData (reporterFrom env 0 r k) (env k)).2 = some data := by
  rw [report_eq_reportLoop] at h
  exact reportLoop_submitted_at env MaxRetries 0 (initialLoopState r) rfl k data
    (Nat.zero_le k) h

/-- Claim C17, amended, on the second attempt of a cycle whose submissions are all answered
with status 500: its payload is the one collected in that attempt, with two samples. -/
theorem report_payload_rebuilt_witness :
    (collectData (reporterFrom serverErrorEnv 0 seededReporter 1) (serverErrorEnv 1)).2
      = some (((report seededReporter serverErrorEnv).submitted[1]?).getD emptyReportData) ∧
    ((collectData (reporterFrom serverErrorEnv 0 seededReporter 1)
      (serverErrorEnv 1)).2.map fun data => data.NetworkTraffic.SampleCount) = some 2 :=
  ⟨report_payload_rebuilt seededReporter serverErrorEnv 1
      (((report seededReporter serverErrorEnv).submitted[1]?).getD emptyReportData)
      (by decide), by decide⟩

/-! ## Merging the collector outcomes (C18) -/

/-- An outcome without a known shape leaves the payload as it is. -/
theorem mergeResult_of_skipped (data : ReportData) (o : CollectOutcome)
    (h : shapeOf o = none) : mergeResult data o = data := by
  cases o with
  | error e => rfl
  | ok v =>
    cases v with
    | none => rfl
    | some w => cases w <;> first | rfl | exact absurd h (by simp [shapeOf])

/-- An outcome leaves every part of the payload that is not the part of its shape. -/
theorem mergeResult_other (σ : Shape) (data : ReportData) (o : CollectOutcome)
    (h : shapeOf o ≠ some σ) : sameField σ (mergeResult data o) data := by
  cases o with
  | error e => cases σ <;> simp [sameField, mergeResult]
  | ok v =>
    cases v with
    | none => cases σ <;> simp [sameField, mergeResult]
    | some w =>
      cases w <;> cases σ <;>
        first
        | exact absurd rfl h
        | simp [sameField, mergeResult]

/-- An outcome of shape `σ` sets the part of that shape from its own value alone. -/
theorem mergeResult_own (σ : Shape) (data : ReportData) (o : CollectOutcome)
    (h : shapeOf o = some σ) :
    sameField σ (mergeResult data o) (mergeResult emptyReportData o) := by
  cases o with
  | error e => exact absurd h (by simp [shapeOf])
  | ok v =>
    cases v with
    | none => exact absurd h (by simp [shapeOf])
    | some w =>
      cases w <;> cases σ <;>
        first
        | (simp [shapeOf] at h; done)
        | simp [sameField, mergeResult]

theorem sameField_trans (σ : Shape) (a b c : ReportData) (h1 : sameField σ a b)
    (h2 : sameField σ b c) : sameField σ a c := by
  cases σ <;> simp only [sameField] at h1 h2 ⊢
  · exact h1.trans h2
  · exact h1.trans h2
  · exact h1.trans h2
  · exact ⟨h1.1.trans h2.1, h1.2.trans h2.2⟩

/-- Outcomes of other shapes, merged in any number, leave the part of shape `σ`. -/
theorem foldl_mergeResult_other (σ : Shape) (outcomes : List CollectOutcome) :
    ∀ data : ReportData, (∀ o ∈ outcomes, shapeOf o ≠ some σ) →
      sameField σ (outcomes.foldl mergeResult data) data := by
  induction outcomes with
  | nil =>
    intro data _
    cases σ <;> simp [sameField]
  | cons o rest ih =>
    intro data h
    rw [List.foldl_cons]
    exact sameField_trans σ _ _ _
      (ih (mergeResult data o) (fun o1 h1 => h o1 (List.mem_cons_of_mem o h1)))
      (mergeResult_other σ data o (h o (List.mem_cons_self o rest)))

/-- What `collectData` returns: nothing when the network collector panics, and otherwise the
payload into which the four outcomes have been merged, each once, in the order of
registration. -/
theorem collectData_eq_mergeAll (r : Reporter) (e : AttemptEnv) :
    ((Collect r.network e.now e.netStats).2 = CollectResult.divideByZero →
      (collectData r e).2 = none) ∧
    ((Collect r.network e.now e.netStats).2 ≠ CollectResult.divideByZero →
      ∃ o : CollectOutcome, networkOutcome (Collect r.network e.now e.netStats).2 = some o ∧
        (collectData r e).2 = some (mergeAll [e.ssh, e.system, o, e.hostinfo])) := by
  unfold collectData
  dsimp only
  cases hres : (Collect r.network e.now e.netStats).2 with
  | noData => exact ⟨fun h => absurd h (by simp), fun _ => ⟨_, rfl, rfl⟩⟩
  | traffic t => exact ⟨fun h => absurd h (by simp), fun _ => ⟨_, rfl, rfl⟩⟩
  | error msg => exact ⟨fun h => absurd h (by simp), fun _ => ⟨_, rfl, rfl⟩⟩
  | divideByZero => exact ⟨fun _ => rfl, fun h => absurd rfl h⟩

/-- The merge of `collectData`: whenever the network collector returns, the payload is the
result of merging the outcome of every registered collector, once each and in order. For
every list of outcomes: an outcome that is an error, "no data" or a value of unknown shape
leaves the payload as it is; when no outcome has the shape `σ`, the part of the payload for
`σ` keeps its zero value; and when an outcome has the shape `σ` and none after it has, that
part holds the value of this outcome. -/
theorem collectData_merges_unless_panic :
    (∀ (r : Reporter) (e : AttemptEnv),
      (Collect r.network e.now e.netStats).2 ≠ CollectResult.divideByZero →
      ∃ o : CollectOutcome, networkOutcome (Collect r.network e.now e.netStats).2 = some o ∧
        (collectData r e).2 = some (mergeAll [e.ssh, e.system, o, e.hostinfo])) ∧
    (∀ (data : ReportData) (o : CollectOutcome), shapeOf o = none →
      mergeResult data o = data) ∧
    (∀ (σ : Shape) (outcomes : List CollectOutcome),
      (∀ o ∈ outcomes, shapeOf o ≠ some σ) →
      sameField σ (mergeAll outcomes) emptyReportData) ∧
    (∀ (σ : Shape) (before after : List CollectOutcome) (o : CollectOutcome),
      shapeOf o = some σ → (∀ o1 ∈ after, shapeOf o1 ≠ some σ) →
      sameField σ (mergeAll (before ++ o :: after)) (mergeResult emptyReportData o)) := by
  refine ⟨fun r e h => (collectData_eq_mergeAll r e).2 h, mergeResult_of_skipped, ?_, ?_⟩
  · intro σ outcomes h
    exact foldl_mergeResult_other σ outcomes emptyReportData h
  · intro σ before after o ho hafter
    unfold mergeAll
    rw [List.foldl_append, List.foldl_cons]
    exact sameField_trans σ _ _ _
      (foldl_mergeResult_other σ after _ hafter)
      (mergeResult_own σ _ o ho)

/-- Claim C18, on the code. The network collector holds a snapshot taken at 1.0 s; at 1.5 s
the ssh collector returns a login, the system collector the loads and the hostinfo collector
the host, all of known shape. `Collect` of the network collector, the third in the list,
panics on its division by `uint64(0.5) = 0`: `collectData` stops there, the hostinfo
collector is never asked, and no payload is returned. When the network collector returns,
each result of a known shape is put into its own part of the payload and an error, "no
data" or an unknown shape leaves the payload as it is. -/
theorem collectData_stops_at_network_panic :
    shapeOf knownShapesEnv.ssh = some Shape.sshLogins ∧
    shapeOf knownShapesEnv.system = some Shape.systemLoad ∧
    shapeOf knownShapesEnv.hostinfo = some Shape.hostInfo ∧
    (Collect seededReporter.network knownShapesEnv.now knownShapesEnv.netStats).2
      = CollectResult.divideByZero ∧
    (collectData seededReporter knownShapesEnv).2 = none ∧
    (∀ (r : Reporter) (e : AttemptEnv),
      (collectData r e).2
        = (networkOutcome (Collect r.network e.now e.netStats).2).map
            (fun o => mergeAll [e.ssh, e.system, o, e.hostinfo])) ∧
    (∀ (data : ReportData) (v : List SSHLogin),
      mergeResult data (Except.ok (some (CollectValue.sshLogins v)))
        = { data with
            SSHLogins := v.map fun login =>
              { User := login.User
                IP := login.IP
                Time := login.Time
                Method := login.Method
                Success := login.Success
                Port := login.Port
                Protocol := login.Protocol
                SessionDuration := login.SessionDuration
                IsActive := login.IsActive } }) ∧
    (∀ (data : ReportData) (v : SystemLoad),
      mergeResult data (Except.ok (some (CollectValue.systemLoad v)))
        = { data with
            SystemLoad := { Load1 := v.Load1, Load5 := v.Load5, Load15 := v.Load15 } }) ∧
    (∀ (data : ReportData) (v : NetworkTraffic),
      mergeResult data (Except.ok (some (CollectValue.networkTraffic v)))
        = { data with
            NetworkTraffic :=
              { Interface := v.Interface
                Samples := v.Samples.map fun s =>
                  { Timestamp := s.Timestamp
                    InBytes := s.InBytes
                    OutBytes := s.OutBytes
                    TotalBytes := s.TotalBytes
                    TimeDeltaSeconds := s.TimeDeltaSeconds }
                TotalInBytes := v.TotalInBytes
                TotalOutBytes := v.TotalOutBytes
                SampleCount := v.SampleCount } }) ∧
    (∀ (data : ReportData) (v : HostInfo),
      mergeResult data (Except.ok (some (CollectValue.hostInfo v)))
        = { data with Hostname := v.Hostname, PublicIP := v.PublicIP }) ∧
    (∀ (data : ReportData) (msg : String), mergeResult data (Except.error msg) = data) ∧
    (∀ data : ReportData, mergeResult data (Except.ok none) = data) ∧
    (∀ data : ReportData, mergeResult data (Except.ok (some CollectValue.unknown)) = data) := by
  refine ⟨rfl, rfl, rfl, by decide, by decide, ?_, fun _ _ => rfl, fun _ _ => rfl,
    fun _ _ => rfl, fun _ _ => rfl, fun _ _ => rfl, fun _ => rfl, fun _ => rfl⟩
  intro r e
  unfold collectData
  dsimp only
  cases (Collect r.network e.now e.netStats).2 <;> rfl

/-! ## The buffer is append-only (C19) and idle calls (C20) -/

/-- The buffer after `collectSample` is the buffer before it, with at most one sample
appended, stamped with the time of the call. -/
theorem collectSample_samples_cases (c : NetworkCollector) (now : Time) (iface : String)
    (inBytes outBytes : Nat) :
    (collectSample c now iface inBytes outBytes).samples = c.samples ∨
    ∃ s : TrafficSample, s.Timestamp = now ∧
      (collectSample c now iface inBytes outBytes).samples = c.samples ++ [s] := by
  unfold collectSample
  split
  · exact Or.inl rfl
  · dsimp only
    split
    · exact Or.inr ⟨deltaSample c now inBytes outBytes, rfl, rfl⟩
    · exact Or.inl rfl

/-- The buffer after an operation called at `op.time`: cleared, unchanged, or extended by
one sample stamped with that time. -/
theorem applyOp_samples_cases (c : NetworkCollector) (op : SamplerOp) :
    (applyOp c op).samples = [] ∨ (applyOp c op).samples = c.samples ∨
    ∃ s : TrafficSample, s.Timestamp = op.time ∧ (applyOp c op).samples = c.samples ++ [s] := by
  cases op with
  | collectSample now iface inBytes outBytes =>
    exact Or.inr (collectSample_samples_cases c now iface inBytes outBytes)
  | collect now stats =>
    cases stats with
    | error msg => exact Or.inr (Or.inl rfl)
    | ok p =>
      obtain ⟨publicIface, currentStats⟩ := p
      exact Or.inr (collectSample_samples_cases c now publicIface currentStats.InBytes
        currentStats.OutBytes)
  | shouldSample now => exact Or.inr (Or.inl rfl)
  | clearSamples now => exact Or.inl rfl

/-- Every operation other than `ClearSamples` keeps the buffer as the front part of the new
buffer. -/
theorem applyOp_samples_extend (c : NetworkCollector) (op : SamplerOp)
    (h : op.isClear = false) : c.samples <+: (applyOp c op).samples := by
  cases op with
  | collectSample now iface inBytes outBytes =>
    exact (collectSample_samples_extend c now iface inBytes outBytes).1
  | collect now stats => exact (Collect_samples_extend c now stats).1
  | shouldSample now => exact List.prefix_refl _
  | clearSamples now => exact absurd h (by simp [SamplerOp.isClear])

/-- A buffer in time order whose stamps are at most `t` stays so under operations called at
non-decreasing times from `t` on. -/
theorem applyOps_sorted (ops : List SamplerOp) :
    ∀ (c : NetworkCollector) (t : Time),
      List.Pairwise (fun a b : TrafficSample => a.Timestamp ≤ b.Timestamp) c.samples →
      (∀ s ∈ c.samples, s.Timestamp ≤ t) → (∀ op ∈ ops.head?, t ≤ op.time) →
      timesNonDecreasing ops = true →
      List.Pairwise (fun a b : TrafficSample => a.Timestamp ≤ b.Timestamp)
        (applyOps c ops).samples := by
  induction ops with
  | nil =>
    intro c t hs _ _ _
    exact hs
  | cons op rest ih =>
    intro c t hs hb hstart hmono
    have hop : t ≤ op.time := hstart op (by simp)
    have hrest : timesNonDecreasing rest = true := by
      cases rest with
      | nil => rfl
      | cons b bs =>
        simp only [timesNonDecreasing, Bool.and_eq_true, decide_eq_true_eq] at hmono
        exact hmono.2
    have hnext : ∀ op1 ∈ rest.head?, op.time ≤ op1.time := by
      intro op1 h1
      cases rest with
      | nil => simp at h1
      | cons b bs =>
        simp only [timesNonDecreasing, Bool.and_eq_true, decide_eq_true_eq] at hmono
        simp only [List.head?_cons, Option.mem_def, Option.some.injEq] at h1
        rw [← h1]
        exact hmono.1
    have hgoal : applyOps c (op :: rest) = applyOps (applyOp c op) rest := by
      simp [applyOps]
    rw [hgoal]
    rcases applyOp_samples_cases c op with h0 | h1 | ⟨s, hst, h2⟩
    · exact ih (applyOp c op) op.time (by rw [h0]; exact List.Pairwise.nil)
        (by rw [h0]; intro s hs0; simp at hs0) hnext hrest
    · exact ih (applyOp c op) op.time (by rw [h1]; exact hs)
        (by rw [h1]; intro s hs0; exact le_trans (hb s hs0) hop) hnext hrest
    · refine ih (applyOp c op) op.time ?_ ?_ hnext hrest
      · rw [h2, List.pairwise_append]
        refine ⟨hs, List.pairwise_singleton _ _, ?_⟩
        intro a ha b hb1
        simp only [List.mem_singleton] at hb1
        rw [hb1, hst]
        exact le_trans (hb a ha) hop
      · rw [h2]
        intro a ha
        simp only [List.mem_append, List.mem_singleton] at ha
        rcases ha with ha | ha
        · exact le_trans (hb a ha) hop
        · rw [ha, hst]

/-- Claim C19. The buffer is append-only until it is cleared: each of `collectSample`,
`Collect` and `ShouldSample` leaves the samples buffered before the call, unchanged and in
the same order, as the front part of the buffer after it; and on a collector that starts
fresh, whatever operations are called at non-decreasing times, the time stamps of the
buffered samples are non-decreasing. -/
theorem buffer_append_only :
    (∀ (c : NetworkCollector) (op : SamplerOp), op.isClear = false →
      c.samples <+: (applyOp c op).samples) ∧
    (∀ ops : List SamplerOp, timesNonDecreasing ops = true →
      List.Pairwise (fun a b : TrafficSample => a.Timestamp ≤ b.Timestamp)
        (applyOps NewNetworkCollector ops).samples) := by
  refine ⟨applyOp_samples_extend, fun ops hmono => ?_⟩
  cases ops with
  | nil => exact List.Pairwise.nil
  | cons op rest =>
    exact applyOps_sorted (op :: rest) NewNetworkCollector op.time List.Pairwise.nil
      (fun s hs => absurd hs (by simp [NewNetworkCollector]))
      (fun op1 h1 => by
        simp only [List.head?_cons, Option.mem_def, Option.some.injEq] at h1
        rw [h1])
      hmono

/-- Claim C19 on a seed, a sample, a `ShouldSample`, a `Collect` and a further sample: the
`Collect` keeps the one buffered sample in front, and the three samples buffered in the end
are in time order. -/
theorem buffer_append_only_witness :
    (applyOps NewNetworkCollector
      [SamplerOp.collectSample 1000000000 "eth0" 1000 500,
       SamplerOp.collectSample 301000000000 "eth0" 1500 700]).samples
      <+: (applyOp
        (applyOps NewNetworkCollector
          [SamplerOp.collectSample 1000000000 "eth0" 1000 500,
           SamplerOp.collectSample 301000000000 "eth0" 1500 700])
        (SamplerOp.collect 601000000000 (eth0Stats 1800 900))).samples ∧
    List.Pairwise (fun a b : TrafficSample => a.Timestamp ≤ b.Timestamp)
      (applyOps NewNetworkCollector
        [SamplerOp.collectSample 1000000000 "eth0" 1000 500,
         SamplerOp.collectSample 301000000000 "eth0" 1500 700,
         SamplerOp.shouldSample 301000000000,
         SamplerOp.collect 601000000000 (eth0Stats 1800 900),
         SamplerOp.collectSample 901000000000 "eth0" 2500 900]).samples ∧
    (applyOps NewNetworkCollector
      [SamplerOp.collectSample 1000000000 "eth0" 1000 500,
       SamplerOp.collectSample 301000000000 "eth0" 1500 700,
       SamplerOp.shouldSample 301000000000,
       SamplerOp.collect 601000000000 (eth0Stats 1800 900),
       SamplerOp.collectSample 901000000000 "eth0" 2500 900]).samples.length = 3 :=
  ⟨buffer_append_only.1 _ (SamplerOp.collect 601000000000 (eth0Stats 1800 900)) rfl,
   buffer_append_only.2
      [SamplerOp.collectSample 1000000000 "eth0" 1000 500,
       SamplerOp.collectSample 301000000000 "eth0" 1500 700,
       SamplerOp.shouldSample 301000000000,
       SamplerOp.collect 601000000000 (eth0Stats 1800 900),
       SamplerOp.collectSample 901000000000 "eth0" 2500 900] (by decide),
   by decide⟩

/-- Claim C20. A call of `collectSample` whose clamped in-delta and clamped out-delta are
both zero, that is, whose counters are each at most the stored one, appends no sample: the
buffer after the call is the buffer before it. This holds whether or not the collector holds
a snapshot. -/
theorem collectSample_idle (c : NetworkCollector) (now : Time) (iface : String)
    (inBytes outBytes : Nat)
    (hin : (deltaSample c now inBytes outBytes).InBytes = 0)
    (hout : (deltaSample c now inBytes outBytes).OutBytes = 0) :
    (collectSample c now iface inBytes outBytes).samples = c.samples ∧
    ((deltaSample c now inBytes outBytes).InBytes = 0 ↔ inBytes ≤ c.lastTotalInBytes) ∧
    ((deltaSample c now inBytes outBytes).OutBytes = 0 ↔ outBytes ≤ c.lastTotalOutBytes) := by
  refine ⟨?_, ?_, ?_⟩
  · unfold collectSample
    split
    · rfl
    · dsimp only
      rw [if_neg (by omega)]
  · rw [deltaSample_InBytes]
    omega
  · rw [deltaSample_OutBytes]
    omega

/-- Claim C20 on a collector that holds the snapshot `(1500, 700)` and one buffered sample:
a call with the counters `(1500, 600)`, the first unchanged and the second decreased, leaves
the buffer of one sample as it is. -/
theorem collectSample_idle_witness :
    (collectSample (snapshotAt 1000000000 "eth0" 1000 500) 301000000000 "eth0"
      1500 700).samples.length = 1 ∧
    (collectSample
      (collectSample (snapshotAt 1000000000 "eth0" 1000 500) 301000000000 "eth0" 1500 700)
      601000000000 "eth0" 1500 600).samples
      = (collectSample (snapshotAt 1000000000 "eth0" 1000 500) 301000000000 "eth0"
          1500 700).samples :=
  ⟨by decide,
   (collectSample_idle
      (collectSample (snapshotAt 1000000000 "eth0" 1000 500) 301000000000 "eth0" 1500 700)
      601000000000 "eth0" 1500 600 (by decide) (by decide)).1⟩

/-! ## ShouldSample (C23) -/

/-- No operation changes the sampling interval of a collector. -/
theorem applyOp_sampleInterval (c : NetworkCollector) (op : SamplerOp) :
    (applyOp c op).sampleInterval = c.sampleInterval := by
  have hcs : ∀ (now : Time) (iface : String) (i o : Nat),
      (collectSample c now iface i o).sampleInterval = c.sampleInterval := by
    intro now iface i o
    unfold collectSample
    split <;> rfl
  cases op with
  | collectSample now iface inBytes outBytes => exact hcs now iface inBytes outBytes
  | collect now stats =>
    cases stats with
    | error msg => rfl
    | ok p =>
      obtain ⟨publicIface, currentStats⟩ := p
      exact hcs now publicIface currentStats.InBytes currentStats.OutBytes
  | shouldSample now => rfl
  | clearSamples now => rfl

theorem applyOps_sampleInterval (ops : List SamplerOp) :
    ∀ c : NetworkCollector, (applyOps c ops).sampleInterval = c.sampleInterval := by
  induction ops with
  | nil => intro c; rfl
  | cons op rest ih =>
    intro c
    have h : applyOps c (op :: rest) = applyOps (applyOp c op) rest := by simp [applyOps]
    rw [h, ih, applyOp_sampleInterval]

/-- Claim C23. On a collector with the sampling interval of 5 minutes, which is the one that
`NewNetworkCollector` sets and that no operation changes, `ShouldSample` at time `now`
returns true if and only if `lastSampleTime` is the zero time or `now - lastSampleTime` is at
least 5 minutes. It returns a boolean only and assigns no field of the collector. -/
theorem ShouldSample_iff (c : NetworkCollector) (now : Time)
    (h : c.sampleInterval = 5 * Minute) :
    (ShouldSample c now = true ↔
      (c.lastSampleTime = 0 ∨ now - c.lastSampleTime ≥ 5 * Minute)) ∧
    (∀ ops : List SamplerOp,
      (applyOps NewNetworkCollector ops).sampleInterval = 5 * Minute) ∧
    applyOp c (SamplerOp.shouldSample now) = c := by
  refine ⟨?_, fun ops => ?_, rfl⟩
  · unfold ShouldSample IsZero
    by_cases hz : c.lastSampleTime = 0
    · simp [hz]
    · have hb : (c.lastSampleTime == 0) = false := by simpa using hz
      rw [hb]
      simp only [Bool.false_eq_true, if_false, decide_eq_true_eq, hz, false_or, h]
      have key : ∀ d : Int,
          (if d > 9223372036854775807 then (9223372036854775807 : Int)
            else if d < -9223372036854775808 then -9223372036854775808 else d)
              ≥ 5 * (60 * 1000000000) ↔ d ≥ 5 * (60 * 1000000000) := by
        intro d
        split
        · constructor <;> intro _ <;> omega
        · split
          · constructor <;> intro _ <;> omega
          · exact Iff.rfl
      exact key (now - c.lastSampleTime)
  · rw [applyOps_sampleInterval]
    rfl

/-- Claim C23 on a collector last sampled at 1 s: at 4 minutes it is not yet time to sample,
at 5 minutes and 1 second it is. -/
theorem ShouldSample_iff_witness :
    ShouldSample (snapshotAt 1000000000 "eth0" 1000 500) 240000000000 = false ∧
    (ShouldSample (snapshotAt 1000000000 "eth0" 1000 500) 301000000000 = true ↔
      ((snapshotAt 1000000000 "eth0" 1000 500).lastSampleTime = 0 ∨
        301000000000 - (snapshotAt 1000000000 "eth0" 1000 500).lastSampleTime
          ≥ 5 * Minute)) ∧
    ShouldSample NewNetworkCollector 240000000000 = true :=
  ⟨by decide,
   (ShouldSample_iff (snapshotAt 1000000000 "eth0" 1000 500) 301000000000 rfl).1,
   by decide⟩

/-! ## The sent duration (C28), the field success (C29), the stored interval (C30) -/

/-- For a directive between 1 and 9223372036 the duration computed for the channel is
positive. -/
theorem sent_duration_positive (n : Int) (h1 : 0 < n) (h2 : n ≤ 9223372036) :
    0 < wrapInt64 (n * Second) := by
  have hs : n * Second = n * 1000000000 := rfl
  rw [wrapInt64_of_fits _ (by omega) (by omega)]
  omega

/-- Claim C28, on the code. With the interval 300 stored and the channel empty, a response
accepted with `report_interval = 10000000000` passes the guard `ReportInterval > 0`; the
product `time.Duration(n) * time.Second` wraps around in `int64` to a negative duration,
which is sent on the channel, and with which `Start` would call `ticker.Reset`. -/
theorem report_sends_negative_duration :
    (report seededReporter (directiveEnv 10000000000)).outcome = ReportOutcome.returned none ∧
    (report seededReporter (directiveEnv 10000000000)).reporter.intervalUpdate
      = some (-8446744073709551616) ∧
    wrapInt64 (10000000000 * Second) = -8446744073709551616 ∧
    tickerReset (-8446744073709551616) = none := by
  decide

/-- The collections of an attempt do not look at the answers of the server. -/
theorem collectData_withSuccess (b : Bool) (r : Reporter) (e : AttemptEnv) :
    collectData r (withSuccess b e) = collectData r e := rfl

/-- The directive of a response is applied without looking at its field `success`. -/
theorem applyInterval_setSuccess (r : Reporter) (resp : ReportResponse) (b : Bool) :
    applyInterval r (some { resp with Success := b }) = applyInterval r (some resp) := rfl

/-- The retry loop runs alike in two worlds that differ in the field `success` of the
accepted responses only. -/
theorem reportLoop_withSuccess (b : Bool) (env : Nat → AttemptEnv) (n : Nat) :
    ∀ (attempt : Nat) (st : LoopState),
      reportLoop (fun k => withSuccess b (env k)) n attempt st = reportLoop env n attempt st := by
  induction n with
  | zero =>
    intro attempt st
    rfl
  | succ n ih =>
    intro attempt st
    have hc : ∀ x, collectData st.reporter (env attempt) = x →
        collectData st.reporter ((fun k => withSuccess b (env k)) attempt) = x :=
      fun x hx => hx
    rcases reportLoop_cases env attempt st with ⟨r1, h⟩ | ⟨r1, data, h, hs⟩ |
      ⟨r1, data, msg, h, hs, hm⟩ | ⟨r1, data, response, h, hs⟩
    · rw [reportLoop_panic env n attempt st r1 h,
        reportLoop_panic (fun k => withSuccess b (env k)) n attempt st r1 (hc _ h)]
    · have hs1 : ((fun k => withSuccess b (env k)) attempt).submit data
          = SubmitResult.err unauthorizedMessage := by
        show setSuccess b ((env attempt).submit data) = _
        rw [hs]
        rfl
      rw [reportLoop_exit env n attempt st r1 data h hs,
        reportLoop_exit (fun k => withSuccess b (env k)) n attempt st r1 data (hc _ h) hs1]
    · have hs1 : ((fun k => withSuccess b (env k)) attempt).submit data
          = SubmitResult.err msg := by
        show setSuccess b ((env attempt).submit data) = _
        rw [hs]
        rfl
      rw [reportLoop_retry env n attempt st r1 data msg h hs hm,
        reportLoop_retry (fun k => withSuccess b (env k)) n attempt st r1 data msg (hc _ h) hs1 hm]
      exact ih (attempt + 1) (retryState st attempt r1 data msg)
    · have hs1 : ((fun k => withSuccess b (env k)) attempt).submit data
          = setSuccess b (SubmitResult.ok response) := by
        show setSuccess b ((env attempt).submit data) = _
        rw [hs]
      rw [reportLoop_success env n attempt st r1 data response h hs]
      cases response with
      | none =>
        rw [reportLoop_success (fun k => withSuccess b (env k)) n attempt st r1 data none (hc _ h) hs1]
      | some resp =>
        rw [reportLoop_success (fun k => withSuccess b (env k)) n attempt st r1 data (some { resp with Success := b })
          (hc _ h) hs1]
        rfl

/-- Claim C29. A report cycle does not depend on the field `success` of an accepted
response. The directive of a response is applied in the same way whatever the value of
`success`; and in two worlds that differ in this field of the accepted responses only,
`report` ends in the same way, leaves the same reporter (buffer, stored interval and
channel), sleeps the same and submits the same payloads. -/
theorem report_ignores_success :
    (∀ (r : Reporter) (resp : ReportResponse) (b : Bool),
      applyInterval r (some { resp with Success := b }) = applyInterval r (some resp)) ∧
    (∀ (r : Reporter) (env : Nat → AttemptEnv) (b : Bool),
      report r (fun k => withSuccess b (env k)) = report r env) ∧
    (∀ (n : Int) (k : Nat) (data : ReportData),
      (withSuccess false (directiveEnv n k)).submit data
        = SubmitResult.ok (some { Success := false, ReportInterval := n })) := by
  refine ⟨applyInterval_setSuccess, fun r env b => ?_, fun n k data => rfl⟩
  exact reportLoop_withSuccess b env MaxRetries 0 (initialLoopState r)

/-- A run that returned nil after a response with a positive directive different from the
stored interval has stored the directive, whatever the channel held. -/
theorem report_stores_directive (r : Reporter) (env : Nat → AttemptEnv) (resp : ReportResponse)
    (hacc : acceptedWith (report r env) env resp) :
    (resp.ReportInterval > 0 → resp.ReportInterval ≠ r.config.ReportInterval →
      (report r env).reporter.config.ReportInterval = resp.ReportInterval) ∧
    (∀ v : Duration, r.intervalUpdate = some v →
      (report r env).reporter.intervalUpdate = some v) ∧
    (resp.ReportInterval = r.config.ReportInterval →
      (report r env).reporter.intervalUpdate = r.intervalUpdate) := by
  obtain ⟨hout, data, hlast, hok⟩ := hacc
  rw [report_eq_reportLoop] at hout hlast hok ⊢
  obtain ⟨r1, d, response, hc, hi, hl, hs, hfc, hfi⟩ :=
    reportLoop_success_state env MaxRetries 0 (initialLoopState r) rfl hout
  have hc1 : r1.config = r.config := hc
  have hi1 : r1.intervalUpdate = r.intervalUpdate := hi
  rw [hlast] at hl
  injection hl with hl
  subst hl
  rw [hok] at hs
  injection hs with hs
  subst hs
  rw [hfc, hfi]
  refine ⟨fun hpos hne => ?_, fun v hv => ?_, fun heq => ?_⟩
  · exact applyInterval_stores r1 resp hpos (by rw [hc1]; exact hne)
  · exact applyInterval_pending r1 (some resp) v (by rw [hi1]; exact hv)
  · rw [applyInterval_same r1 resp (by rw [hc1]; exact heq), hi1]

/-- Claim C30. When a response accepted with `report_interval = n`, `n > 0` and different
from the stored interval, ends a cycle, the stored interval is `n` afterwards, whether the
channel was empty or still held a value `v` (which then stays, the signal for `n` being
dropped). Consequently, once the channel has been read empty, a later cycle that ends with a
response carrying the same `n` leaves the channel empty: no signal is sent. -/
theorem report_stores_interval_even_if_dropped (r : Reporter) (env env2 : Nat → AttemptEnv)
    (resp resp2 : ReportResponse) (v : Duration)
    (hacc : acceptedWith (report r env) env resp)
    (hpos : resp.ReportInterval > 0) (hne : resp.ReportInterval ≠ r.config.ReportInterval)
    (hfull : r.intervalUpdate = some v)
    (hacc2 : acceptedWith
      (report { (report r env).reporter with intervalUpdate := none } env2) env2 resp2)
    (hsame : resp2.ReportInterval = resp.ReportInterval) :
    (report r env).reporter.config.ReportInterval = resp.ReportInterval ∧
    (report r env).reporter.intervalUpdate = some v ∧
    (report { (report r env).reporter with intervalUpdate := none } env2).reporter.intervalUpdate
      = none ∧
    (report { (report r env).reporter with intervalUpdate := none }
      env2).reporter.config.ReportInterval = resp.ReportInterval := by
  have h1 := report_stores_directive r env resp hacc
  have hstored := h1.1 hpos hne
  have h2 := report_stores_directive
    { (report r env).reporter with intervalUpdate := none } env2 resp2 hacc2
  have heq : resp2.ReportInterval
      = ({ (report r env).reporter with intervalUpdate := none } : Reporter).config.ReportInterval := by
    rw [hsame]
    exact hstored.symm
  refine ⟨hstored, h1.2.1 v hfull, h2.2.2 heq, ?_⟩
  obtain ⟨hout, data, hlast, hok⟩ := hacc2
  rw [report_eq_reportLoop] at hout hlast hok ⊢
  obtain ⟨r1, d, response, hc, _, hl, hs, hfc, _⟩ :=
    reportLoop_success_state env2 MaxRetries 0 (initialLoopState _) rfl hout
  rw [hlast] at hl
  injection hl with hl
  subst hl
  rw [hok] at hs
  injection hs with hs
  subst hs
  have hc1 : r1.config = (report r env).reporter.config := hc
  rw [hfc, applyInterval_same r1 resp2 (by rw [hc1, hsame]; exact hstored.symm), hc1]
  exact hstored

/-- Claim C30 on a reporter with the interval 300 stored and an update of 60 s still waiting:
a cycle ended by the directive 120 stores 120 and leaves the 60 s in the channel; after the
channel is read empty, a second cycle ended by the directive 120 leaves it empty. -/
theorem report_stores_interval_even_if_dropped_witness :
    (report { seededReporter with intervalUpdate := some (60 * Second) }
      (directiveEnv 120)).reporter.config.ReportInterval = 120 ∧
    (report { seededReporter with intervalUpdate := some (60 * Second) }
      (directiveEnv 120)).reporter.intervalUpdate = some (60 * Second) ∧
    (report
      { (report { seededReporter with intervalUpdate := some (60 * Second) }
          (directiveEnv 120)).reporter with intervalUpdate := none }
      (directiveEnv 120)).reporter.intervalUpdate = none ∧
    (report
      { (report { seededReporter with intervalUpdate := some (60 * Second) }
          (directiveEnv 120)).reporter with intervalUpdate := none }
      (directiveEnv 120)).reporter.config.ReportInterval = 120 :=
  report_stores_interval_even_if_dropped
    { seededReporter with intervalUpdate := some (60 * Second) }
    (directiveEnv 120) (directiveEnv 120)
    { Success := true, ReportInterval := 120 } { Success := true, ReportInterval := 120 }
    (60 * Second)
    ⟨by decide,
      ((report { seededReporter with intervalUpdate := some (60 * Second) }
        (directiveEnv 120)).submitted.getLast?).getD emptyReportData, rfl, rfl⟩
    (by decide) (by decide) rfl
    ⟨by decide,
      ((report
        { (report { seededReporter with intervalUpdate := some (60 * Second) }
            (directiveEnv 120)).reporter with intervalUpdate := none }
        (directiveEnv 120)).submitted.getLast?).getD emptyReportData, rfl, rfl⟩
    rfl

/-! ## Configuration and command line (C22, C24, C26) -/

/-- The flags do not touch the report interval. -/
theorem applyFlags_ReportInterval (serverURL token : String) (c : AgentConfig) :
    (applyFlags serverURL token c).ReportInterval = c.ReportInterval := by
  unfold applyFlags
  split_ifs <;> rfl

/-- The handling of a first run does not touch the report interval. -/
theorem firstRunConfig_ReportInterval (configExists : Bool) (saveConfig : AgentConfig → Bool)
    (cfg c : AgentConfig) (serverURL token : String)
    (h : firstRunConfig configExists saveConfig cfg serverURL token = some c) :
    c.ReportInterval = cfg.ReportInterval := by
  unfold firstRunConfig at h
  split_ifs at h <;> simp only [Option.some.injEq] at h <;> subst h <;>
    first | exact applyFlags_ReportInterval _ _ _ | rfl

/-- What the validation of `main` does establish: when the reporter is constructed, the
server URL and the token are not empty, and the report interval is the one that was loaded,
whatever it is. -/
theorem mainReporterConfig_validated (configExists : Bool) (saveConfig : AgentConfig → Bool)
    (cfg : AgentConfig) (serverURL token : String) (daemonFlag otherRunning : Bool)
    (config : Config)
    (h : mainReporterConfig configExists saveConfig cfg serverURL token daemonFlag otherRunning
      = some config) :
    config.ServerURL ≠ "" ∧ config.Token ≠ "" ∧
    config.ReportInterval = cfg.ReportInterval := by
  unfold mainReporterConfig at h
  split at h
  · exact absurd h (by simp)
  · rename_i c hc
    split_ifs at h with h1 h2 h3
    simp only [Option.some.injEq] at h
    subst h
    simp only [not_or] at h1
    refine ⟨h1.1, h1.2, ?_⟩
    show (applyFlags serverURL token c).ReportInterval = cfg.ReportInterval
    rw [applyFlags_ReportInterval]
    exact firstRunConfig_ReportInterval _ _ _ _ _ _ hc

/-- Claim C22, counterexample. Without a configuration file and with
`ZENOGUARD_REPORT_INTERVAL=0` in the environment, `DefaultConfig` takes the interval 0; with
the flags `-server https://monitor.example.com -token abcdefghij0123` the validation of
`main` passes and the reporter is constructed with the report interval 0, for which
`time.NewTicker` in `Start` panics. The same happens for a negative interval. -/
theorem main_constructs_reporter_with_zero_interval :
    DefaultConfig (intervalOnlyEnv "0")
      = { ServerURL := "", Token := "", ReportInterval := 0 } ∧
    mainReporterConfig false (fun _ => true) (DefaultConfig (intervalOnlyEnv "0"))
        "https://monitor.example.com" "abcdefghij0123" false false
      = some
          { ServerURL := "https://monitor.example.com"
            Token := "abcdefghij0123"
            ReportInterval := 0 } ∧
    newTicker
        (startInterval
          { ServerURL := "https://monitor.example.com"
            Token := "abcdefghij0123"
            ReportInterval := 0 }) = none ∧
    (mainReporterConfig false (fun _ => true) (DefaultConfig (intervalOnlyEnv "-5"))
        "https://monitor.example.com" "abcdefghij0123" false false).map
      (fun config => newTicker (startInterval config)) = some none := by
  decide

/-- Claim C22, amended. Whenever `main` gets past its validation and constructs the
reporter, the server URL and the token are not empty; the report interval is the one of the
loaded configuration, which `main` does not validate, and the report ticker is created with
that many seconds when the interval lies between 1 and 9223372036. -/
theorem main_validates_url_and_token (configExists : Bool) (saveConfig : AgentConfig → Bool)
    (cfg : AgentConfig) (serverURL token : String) (daemonFlag otherRunning : Bool)
    (config : Config)
    (h : mainReporterConfig configExists saveConfig cfg serverURL token daemonFlag otherRunning
      = some config) :
    config.ServerURL ≠ "" ∧ config.Token ≠ "" ∧
    config.ReportInterval = cfg.ReportInterval ∧
    (0 < cfg.ReportInterval → cfg.ReportInterval ≤ 9223372036 →
      newTicker (startInterval config) = some (cfg.ReportInterval * Second)) := by
  obtain ⟨h1, h2, h3⟩ := mainReporterConfig_validated configExists saveConfig cfg serverURL
    token daemonFlag otherRunning config h
  refine ⟨h1, h2, h3, fun hpos hle => ?_⟩
  have hs : cfg.ReportInterval * Second = cfg.ReportInterval * 1000000000 := rfl
  have hn : ¬ (cfg.ReportInterval * 1000000000 ≤ 0) := by omega
  unfold newTicker startInterval
  rw [h3, hs, wrapInt64_of_fits _ (by omega) (by omega), if_neg hn]

/-- Witness of `main_validates_url_and_token`: no configuration file,
`ZENOGUARD_REPORT_INTERVAL=60` and the flags `-server` and `-token`. -/
theorem main_validates_url_and_token_witness :
    mainReporterConfig false (fun _ => true) (DefaultConfig (intervalOnlyEnv "60"))
        "https://monitor.example.com" "abcdefghij0123" false false
      = some
          { ServerURL := "https://monitor.example.com"
            Token := "abcdefghij0123"
            ReportInterval := 60 } ∧
    newTicker
        (startInterval
          { ServerURL := "https://monitor.example.com"
            Token := "abcdefghij0123"
            ReportInterval := 60 }) = some (60 * Second) :=
  ⟨by decide,
   (main_validates_url_and_token false (fun _ => true) (DefaultConfig (intervalOnlyEnv "60"))
      "https://monitor.example.com" "abcdefghij0123" false false
      { ServerURL := "https://monitor.example.com"
        Token := "abcdefghij0123"
        ReportInterval := 60 } (by decide)).2.2.2 (by decide) (by decide)⟩

/-- The slices of `configureAgent` are never out of range. -/
theorem configureAgent_no_panic (serverURL token : Bytes) :
    configureAgent serverURL token ≠ ConfigureResult.sliceOutOfRange := by
  unfold configureAgent
  split_ifs with h1 h2
  · simp
  · simp [invalidURLMessage]
  · have h8 : sliceTo serverURL 8 = some (serverURL.take 8) := by
      unfold sliceTo
      rw [if_pos (by omega)]
    have h7 : sliceTo serverURL 7 = some (serverURL.take 7) := by
      unfold sliceTo
      rw [if_pos (by omega)]
    rw [h8]
    simp only [h7]
    unfold configureToken
    split_ifs <;> simp

/-- Claim C24, amended. For a server URL that is not empty and a token of at least 10
bytes, `configureAgent` rejects the input with the error about the form of the server URL
exactly when the URL is shorter than 10 bytes or starts with neither `http://` nor
`https://`; and for all inputs the slices of the prefix checks are in range. -/
theorem configureAgent_rejects_url (serverURL token : Bytes) (hurl : serverURL ≠ [])
    (htok : 10 ≤ token.length) :
    (configureAgent serverURL token = ConfigureResult.error invalidURLMessage ↔
      (serverURL.length < 10 ∨ ¬(httpPrefix <+: serverURL ∨ httpsPrefix <+: serverURL))) ∧
    (∀ s t : Bytes, configureAgent s t ≠ ConfigureResult.sliceOutOfRange) := by
  refine ⟨?_, configureAgent_no_panic⟩
  have htne : token ≠ [] := by
    intro h
    rw [h] at htok
    simp at htok
  have hsaved : configureToken serverURL token = ConfigureResult.saved serverURL token 60 := by
    unfold configureToken
    rw [if_neg (by omega)]
  unfold configureAgent
  rw [if_neg (by simp [hurl, htne])]
  by_cases hlen : serverURL.length < 10
  · rw [if_pos hlen]
    simp [hlen]
  · rw [if_neg hlen]
    have h8 : sliceTo serverURL 8 = some (serverURL.take 8) := by
      unfold sliceTo
      rw [if_pos (by omega)]
    have h7 : sliceTo serverURL 7 = some (serverURL.take 7) := by
      unfold sliceTo
      rw [if_pos (by omega)]
    have p8 : httpsPrefix <+: serverURL ↔ serverURL.take 8 = httpsPrefix := by
      rw [List.prefix_iff_eq_take]
      exact eq_comm
    have p7 : httpPrefix <+: serverURL ↔ serverURL.take 7 = httpPrefix := by
      rw [List.prefix_iff_eq_take]
      exact eq_comm
    rw [h8]
    simp only [h7, hsaved, p8, p7]
    by_cases c8 : List.take 8 serverURL = httpsPrefix
    · simp [c8, hlen]
    · by_cases c7 : List.take 7 serverURL = httpPrefix
      · simp [c8, c7, hlen]
      · simp [c8, c7, hlen]

/-- Witness of `configureAgent_rejects_url`: the URL `http://a.io` with the token
`1234567890`. -/
theorem configureAgent_rejects_url_witness :
    exampleURL ≠ [] ∧ 10 ≤ exampleToken.length ∧
    ((configureAgent exampleURL exampleToken = ConfigureResult.error invalidURLMessage ↔
      (exampleURL.length < 10 ∨ ¬(httpPrefix <+: exampleURL ∨ httpsPrefix <+: exampleURL))) ∧
    (∀ s t : Bytes, configureAgent s t ≠ ConfigureResult.sliceOutOfRange)) :=
  ⟨by decide, by decide, configureAgent_rejects_url exampleURL exampleToken (by decide)
    (by decide)⟩

/-- Claim C24, counterexample. The URL `http://ab` starts with `http://` and is not empty,
the token `1234567890` has 10 bytes, and `configureAgent` rejects the input with the error
about the form of the server URL. -/
theorem configureAgent_short_url_counterexample :
    shortURL ≠ [] ∧ 10 ≤ exampleToken.length ∧ httpPrefix <+: shortURL ∧
    configureAgent shortURL exampleToken = ConfigureResult.error invalidURLMessage := by
  decide

/-- The loop of `buildChildArgs` keeps no `-daemon` and no `--daemon`, and what it keeps is
kept once and in order. -/
theorem filterArgs_spec (skip : Bool) (args : List String) :
    "-daemon" ∉ filterArgs skip args ∧ "--daemon" ∉ filterArgs skip args ∧
    (filterArgs skip args).Sublist args := by
  induction args generalizing skip with
  | nil => cases skip <;> simp [filterArgs]
  | cons a rest ih =>
    cases skip
    · simp only [filterArgs]
      split_ifs with h1 h2
      · exact ⟨(ih false).1, (ih false).2.1, (ih false).2.2.cons a⟩
      · exact ⟨(ih true).1, (ih true).2.1, (ih true).2.2.cons a⟩
      · simp only [not_or] at h1
        refine ⟨?_, ?_, (ih false).2.2.cons₂ a⟩
        · simp only [List.mem_cons, not_or]
          exact ⟨fun h => h1.1 h.symm, (ih false).1⟩
        · simp only [List.mem_cons, not_or]
          exact ⟨fun h => h1.2 h.symm, (ih false).2.1⟩
    · simp only [filterArgs]
      exact ⟨(ih false).1, (ih false).2.1, (ih false).2.2.cons a⟩

/-- Without `-d` and `--daemon-flag` before the last argument the loop of `buildChildArgs`
removes the arguments `-daemon` and `--daemon` and nothing else. -/
theorem filterArgs_eq_filter (args : List String)
    (h : ∀ a ∈ args.dropLast, a ≠ "-d" ∧ a ≠ "--daemon-flag") :
    filterArgs false args = withoutDaemonFlags args := by
  induction args with
  | nil => simp [filterArgs, withoutDaemonFlags]
  | cons a rest ih =>
    have hrest : ∀ b ∈ rest.dropLast, b ≠ "-d" ∧ b ≠ "--daemon-flag" := by
      intro b hb
      apply h
      cases rest with
      | nil => simp at hb
      | cons c rest2 =>
        rw [List.dropLast_cons₂]
        exact List.mem_cons_of_mem _ hb
    have ih2 := ih hrest
    simp only [filterArgs]
    unfold withoutDaemonFlags at ih2 ⊢
    split_ifs with h1 h2
    · rw [ih2, List.filter_cons_of_neg]
      simp only [decide_eq_true_eq, not_and_or, not_not]
      tauto
    · exfalso
      obtain ⟨hd, hne⟩ := h2
      cases rest with
      | nil => exact hne rfl
      | cons c rest2 =>
        have := h a (by rw [List.dropLast_cons₂]; exact List.mem_cons_self _ _)
        tauto
    · rw [ih2, List.filter_cons_of_pos]
      simp only [decide_eq_true_eq]
      simp only [not_or] at h1
      exact h1

/-- What holds of every command line with a program name: `buildChildArgs` returns the
program name followed by arguments of the original command line, each kept at most once and
in the original order, among which there is no `-daemon` and no `--daemon`; when no `-d` and
no `--daemon-flag` stands before the last argument, these are exactly the original arguments
without `-daemon` and `--daemon`. -/
theorem buildChildArgs_keeps_order (program : String) (args : List String) :
    buildChildArgs (program :: args) = some (program :: filterArgs false args) ∧
    "-daemon" ∉ filterArgs false args ∧ "--daemon" ∉ filterArgs false args ∧
    (filterArgs false args).Sublist args ∧
    ((∀ a ∈ args.dropLast, a ≠ "-d" ∧ a ≠ "--daemon-flag") →
      buildChildArgs (program :: args) = some (program :: withoutDaemonFlags args)) := by
  refine ⟨rfl, (filterArgs_spec false args).1, (filterArgs_spec false args).2.1,
    (filterArgs_spec false args).2.2, ?_⟩
  intro h
  show some (program :: filterArgs false args) = _
  rw [filterArgs_eq_filter args h]

/-- Claim C26, on the code. For the command line `agent -daemon -d -server https://x` the
claim, like the comment of `buildChildArgs`, has `agent -d -server https://x` returned:
`-d` and `-server` are neither `-daemon` nor `--daemon`. The function returns
`agent https://x`. In every command line a `-d` or a `--daemon-flag` that is followed by
another argument is dropped together with that argument, whatever it is; as the last
argument it is kept. -/
theorem buildChildArgs_drops_flag_and_successor :
    buildChildArgs ["agent", "-daemon", "-d", "-server", "https://x"]
      = some ["agent", "https://x"] ∧
    withoutDaemonFlags ["-daemon", "-d", "-server", "https://x"]
      = ["-d", "-server", "https://x"] ∧
    (∀ (program next : String) (rest : List String),
      buildChildArgs (program :: "-d" :: next :: rest) = buildChildArgs (program :: rest)) ∧
    (∀ (program next : String) (rest : List String),
      buildChildArgs (program :: "--daemon-flag" :: next :: rest)
        = buildChildArgs (program :: rest)) ∧
    buildChildArgs ["agent", "-server", "https://x", "-d"]
      = some ["agent", "-server", "https://x", "-d"] := by
  refine ⟨by decide, by decide, ?_, ?_, by decide⟩
  · intro program next rest
    simp [buildChildArgs, filterArgs]
  · intro program next rest
    simp [buildChildArgs, filterArgs]

/-! ## parseNetworkStats (C21) -/

/-- The loop over the lines is the loop over the interfaces of the lines that are not
skipped. -/
theorem foldl_statsLine (st : StatsState) (lines : List (List Char)) :
    lines.foldl statsLine st = (lines.filterMap parseInterfaceLine).foldl recordInterface st := by
  induction lines generalizing st with
  | nil => rfl
  | cons a rest ih =>
    rw [List.foldl_cons, ih]
    cases h : parseInterfaceLine a with
    | none => simp [statsLine, h, List.filterMap_cons]
    | some i => simp [statsLine, h, List.filterMap_cons]

/-- An interface that the loop does not skip has no excluded name. -/
theorem parseInterfaceLine_eligible (line : List Char) (iface : NetworkInterface)
    (h : parseInterfaceLine line = some iface) : excludedName iface.Name = false := by
  unfold parseInterfaceLine at h
  split_ifs at h
  split at h
  · exact absurd h (by simp)
  · split_ifs at h with hx
    simp only [Option.some.injEq] at h
    rw [← h]
    simpa using hx

/-- The entry that the map holds for a name that occurs in it. -/
theorem lookup_name_of_mem (l : List NetworkInterface) (n : String)
    (h : ∃ i ∈ l, i.Name = n) :
    ∃ i ∈ l, i.Name = n ∧ (l.map (fun i => (i.Name, i))).lookup n = some i := by
  induction l with
  | nil => simp at h
  | cons a rest ih =>
    by_cases ha : a.Name = n
    · refine ⟨a, List.mem_cons_self _ _, ha, ?_⟩
      simp [List.lookup_cons, ha]
    · obtain ⟨i, hi, hn⟩ := h
      have hi2 : i ∈ rest := by
        rcases List.mem_cons.mp hi with h1 | h1
        · exact absurd (h1 ▸ hn) ha
        · exact h1
      obtain ⟨j, hj, hjn, hl⟩ := ih ⟨i, hi2, hn⟩
      refine ⟨j, List.mem_cons_of_mem _ hj, hjn, ?_⟩
      have : (n == a.Name) = false := by
        simp only [beq_eq_false_iff_ne, ne_eq]
        exact fun h => ha h.symm
      simp [List.lookup_cons, this, hl]

/-- The state of the loop of `parseNetworkStats` after the interfaces `l`. -/
theorem foldl_recordInterface (l : List NetworkInterface) :
    (l.foldl recordInterface { publicIface := "", maxBytes := 0, interfaces := [] }).interfaces
      = l.reverse.map (fun i => (i.Name, i)) ∧
    (∀ j ∈ l, totalBytes j ≤
      (l.foldl recordInterface { publicIface := "", maxBytes := 0, interfaces := [] }).maxBytes) ∧
    (((l.foldl recordInterface { publicIface := "", maxBytes := 0, interfaces := [] }).maxBytes = 0
        ∧
      (l.foldl recordInterface { publicIface := "", maxBytes := 0, interfaces := [] }).publicIface
        = "") ∨
     (0 < (l.foldl recordInterface
          { publicIface := "", maxBytes := 0, interfaces := [] }).maxBytes ∧
      ∃ i ∈ l, i.Name = (l.foldl recordInterface
          { publicIface := "", maxBytes := 0, interfaces := [] }).publicIface ∧
        totalBytes i = (l.foldl recordInterface
          { publicIface := "", maxBytes := 0, interfaces := [] }).maxBytes)) := by
  induction l using List.reverseRecOn with
  | nil => simp
  | append_singleton l a ih =>
    obtain ⟨h1, h2, h3⟩ := ih
    rw [List.foldl_append, List.foldl_cons, List.foldl_nil]
    generalize l.foldl recordInterface { publicIface := "", maxBytes := 0, interfaces := [] }
      = st at h1 h2 h3
    unfold recordInterface
    split_ifs with hgt
    · refine ⟨by simp [h1], ?_, ?_⟩
      · intro j hj
        rcases List.mem_append.mp hj with hj | hj
        · exact le_of_lt (lt_of_le_of_lt (h2 j hj) hgt)
        · simp only [List.mem_singleton] at hj
          rw [hj]
      · right
        exact ⟨Nat.lt_of_le_of_lt (Nat.zero_le _) hgt, a, by simp, rfl, rfl⟩
    · refine ⟨by simp [h1], ?_, ?_⟩
      · intro j hj
        rcases List.mem_append.mp hj with hj | hj
        · exact h2 j hj
        · simp only [List.mem_singleton] at hj
          rw [hj]
          exact not_lt.mp hgt
      · rcases h3 with h3 | ⟨hpos, i, hi, hn, ht⟩
        · left; exact h3
        · right
          exact ⟨hpos, i, List.mem_append_left _ hi, hn, ht⟩

/-- What `parseNetworkStats` computes, on the interfaces of the lines that are not
skipped. -/
theorem parseNetworkStats_eq (choice : Nat) (data : String) :
    parseNetworkStats choice data
      = selectInterface choice
          ((interfaceLines data).foldl recordInterface
            { publicIface := "", maxBytes := 0, interfaces := [] }) := by
  unfold parseNetworkStats interfaceLines
  rw [foldl_statsLine]

/-- The interfaces of `interfaceLines` have no excluded name. -/
theorem interfaceLines_eligible (data : String) (i : NetworkInterface)
    (h : i ∈ interfaceLines data) : excludedName i.Name = false := by
  unfold interfaceLines at h
  obtain ⟨line, _, hl⟩ := List.mem_filterMap.mp h
  exact parseInterfaceLine_eligible line i hl

/-- A successful result of the selection names an interface of the list, with the counters
of the last entry of that name. -/
theorem selectInterface_ok (choice : Nat) (l : List NetworkInterface) (name : String)
    (iface : Option NetworkInterface)
    (h : selectInterface choice
        (l.foldl recordInterface { publicIface := "", maxBytes := 0, interfaces := [] })
      = Except.ok (name, iface)) :
    ∃ i ∈ l, i.Name = name ∧ iface = some i ∧
      (l.reverse.map (fun i => (i.Name, i))).lookup name = some i := by
  obtain ⟨h1, _, h3⟩ := foldl_recordInterface l
  generalize l.foldl recordInterface { publicIface := "", maxBytes := 0, interfaces := [] }
    = st at h h1 h3
  unfold selectInterface at h
  simp only at h
  split_ifs at h with he hp
  · -- the fallback took a key of the map
    simp only [Except.ok.injEq, Prod.mk.injEq] at h
    obtain ⟨hn, hi⟩ := h
    have hkey : ∃ i ∈ l.reverse, i.Name = name := by
      rw [h1] at hn hp
      simp only [List.map_map] at hn hp
      by_cases hlen : choice % (List.map (Prod.fst ∘ fun i => (i.Name, i)) l.reverse).length
          < (List.map (Prod.fst ∘ fun i => (i.Name, i)) l.reverse).length
      · rw [List.getD_eq_getElem _ _ hlen] at hn
        have hm := List.getElem_mem hlen
        rw [hn] at hm
        obtain ⟨i, hi, hin⟩ := List.mem_map.mp hm
        exact ⟨i, hi, hin⟩
      · rw [List.getD_eq_default _ _ (not_lt.mp hlen)] at hp
        exact absurd rfl hp
    obtain ⟨i, him, hin, hl⟩ := lookup_name_of_mem l.reverse name hkey
    refine ⟨i, List.mem_reverse.mp him, hin, ?_, hl⟩
    rw [← hi, hn, h1, hl]
  · simp only [Except.ok.injEq, Prod.mk.injEq] at h
    obtain ⟨hn, hi⟩ := h
    rcases h3 with ⟨_, h3⟩ | ⟨_, i, hi3, hin, _⟩
    · exact absurd h3 he
    · have hkey : ∃ i ∈ l.reverse, i.Name = name :=
        ⟨i, List.mem_reverse.mpr hi3, hin.trans hn⟩
      obtain ⟨j, hj, hjn, hl⟩ := lookup_name_of_mem l.reverse name hkey
      refine ⟨j, List.mem_reverse.mp hj, hjn, ?_, hl⟩
      rw [← hi, hn, h1, hl]

/-- With names that are not empty the selection fails exactly on the empty list. -/
theorem selectInterface_error_iff (choice : Nat) (l : List NetworkInterface)
    (hne : ∀ i ∈ l, i.Name ≠ "") :
    selectInterface choice
        (l.foldl recordInterface { publicIface := "", maxBytes := 0, interfaces := [] })
      = Except.error noInterfaceMessage ↔ l = [] := by
  constructor
  · intro h
    by_contra hl
    obtain ⟨h1, _, h3⟩ := foldl_recordInterface l
    generalize l.foldl recordInterface { publicIface := "", maxBytes := 0, interfaces := [] }
      = st at h h1 h3
    unfold selectInterface at h
    simp only at h
    split_ifs at h with he hp
    · rw [h1] at hp
      simp only [List.map_map] at hp
      have hlen : choice % (List.map (Prod.fst ∘ fun i => (i.Name, i)) l.reverse).length
          < (List.map (Prod.fst ∘ fun i => (i.Name, i)) l.reverse).length := by
        apply Nat.mod_lt
        simp only [List.length_map, List.length_reverse]
        exact List.length_pos.mpr hl
      rw [List.getD_eq_getElem _ _ hlen] at hp
      have hm := List.getElem_mem hlen
      rw [hp] at hm
      obtain ⟨i, hi, hin⟩ := List.mem_map.mp hm
      exact hne i (List.mem_reverse.mp hi) hin
  · intro hl
    rw [hl]
    rfl

/-- With distinct names that are not empty, the selected interface has the largest sum of
the two byte counters in `uint64`. -/
theorem selectInterface_max (choice : Nat) (l : List NetworkInterface)
    (hne : ∀ i ∈ l, i.Name ≠ "") (hnd : (l.map (fun i => i.Name)).Nodup)
    (name : String) (i : NetworkInterface)
    (h : selectInterface choice
        (l.foldl recordInterface { publicIface := "", maxBytes := 0, interfaces := [] })
      = Except.ok (name, some i)) :
    ∀ j ∈ l, totalBytes j ≤ totalBytes i := by
  obtain ⟨i2, hi2, hin2, hsome, _⟩ := selectInterface_ok choice l name (some i) h
  simp only [Option.some.injEq] at hsome
  subst hsome
  obtain ⟨_, h2, h3⟩ := foldl_recordInterface l
  generalize l.foldl recordInterface { publicIface := "", maxBytes := 0, interfaces := [] }
    = st at h h2 h3
  rcases h3 with ⟨h0, _⟩ | ⟨_, i0, hi0, hin0, ht0⟩
  · intro j hj
    have := h2 j hj
    omega
  · have hp : st.publicIface ≠ "" := by
      rw [← hin0]
      exact hne i0 hi0
    unfold selectInterface at h
    simp only [if_neg hp, Except.ok.injEq, Prod.mk.injEq] at h
    have heq : i0 = i := by
      apply List.inj_on_of_nodup_map hnd hi0 hi2
      rw [hin0, hin2]
      exact h.1
    intro j hj
    rw [← heq, ht0]
    exact h2 j hj

/-- The selection ends with the error of `parseNetworkStats` or with a result. -/
theorem selectInterface_cases (choice : Nat) (st : StatsState) :
    selectInterface choice st = Except.error noInterfaceMessage ∨
    ∃ name iface, selectInterface choice st = Except.ok (name, iface) := by
  unfold selectInterface
  simp only
  split_ifs
  · left; rfl
  · right; exact ⟨_, _, rfl⟩
  · right; exact ⟨_, _, rfl⟩

/-- Claim C21, amended. For every text, `parseNetworkStats` never selects `lo` or a name
that starts with `veth`, `docker` or `br-`, and a result carries the counters of a line of
that name which the loop did not skip. When the names of the lines that the loop does not
skip are distinct and not empty and the two byte counters of each add up to less than
`2^64`, it returns the error `no valid network interface found` exactly when there is no
such line, and otherwise an interface of such a line, with the counters of that line, whose
`in_bytes + out_bytes` is maximal among them. -/
theorem parseNetworkStats_selects (choice : Nat) (data : String)
    (hne : ∀ i ∈ interfaceLines data, i.Name ≠ "")
    (hnd : ((interfaceLines data).map (fun i => i.Name)).Nodup)
    (hfit : ∀ i ∈ interfaceLines data, i.InBytes + i.OutBytes < U64) :
    (∀ (c : Nat) (text name : String) (iface : Option NetworkInterface),
      parseNetworkStats c text = Except.ok (name, iface) →
        name ≠ "lo" ∧ HasPrefix name "veth" = false ∧ HasPrefix name "docker" = false ∧
        HasPrefix name "br-" = false ∧
        ∃ i ∈ interfaceLines text, iface = some i ∧ i.Name = name) ∧
    (parseNetworkStats choice data = Except.error noInterfaceMessage ↔
      interfaceLines data = []) ∧
    (interfaceLines data ≠ [] →
      ∃ i ∈ interfaceLines data,
        parseNetworkStats choice data = Except.ok (i.Name, some i) ∧
        ∀ j ∈ interfaceLines data, j.InBytes + j.OutBytes ≤ i.InBytes + i.OutBytes) := by
  refine ⟨?_, ?_, ?_⟩
  · intro c text name iface h
    rw [parseNetworkStats_eq] at h
    obtain ⟨i, hi, hin, hsome, _⟩ := selectInterface_ok c _ name iface h
    have hx := interfaceLines_eligible text i hi
    rw [hin] at hx
    simp only [excludedName, Bool.or_eq_false_iff, decide_eq_false_iff_not] at hx
    exact ⟨hx.1.1.1, hx.1.1.2, hx.1.2, hx.2, i, hi, hsome, hin⟩
  · rw [parseNetworkStats_eq]
    exact selectInterface_error_iff choice _ hne
  · intro hl
    rw [parseNetworkStats_eq]
    rcases selectInterface_cases choice
      ((interfaceLines data).foldl recordInterface
        { publicIface := "", maxBytes := 0, interfaces := [] }) with h | ⟨name, iface, h⟩
    · exact absurd ((selectInterface_error_iff choice _ hne).mp h) hl
    · obtain ⟨i, hi, hin, hsome, _⟩ := selectInterface_ok choice _ name iface h
      rw [hsome, ← hin] at h
      refine ⟨i, hi, h, ?_⟩
      intro j hj
      have hmax := selectInterface_max choice _ hne hnd _ i h j hj
      have hj2 := hfit j hj
      have hi2 := hfit i hi
      unfold totalBytes at hmax
      rw [Nat.mod_eq_of_lt hj2, Nat.mod_eq_of_lt hi2] at hmax
      exact hmax

set_option maxRecDepth 100000 in
/-- Witness of `parseNetworkStats_selects`: a device file with `lo`, `eth0`, `eth1` and
`docker0`, of which `eth1` is selected. -/
theorem parseNetworkStats_selects_witness :
    (∀ i ∈ interfaceLines exampleDeviceFile, i.Name ≠ "") ∧
    ((interfaceLines exampleDeviceFile).map (fun i => i.Name)).Nodup ∧
    (∀ i ∈ interfaceLines exampleDeviceFile, i.InBytes + i.OutBytes < U64) ∧
    interfaceLines exampleDeviceFile ≠ [] ∧
    (parseNetworkStats 0 exampleDeviceFile = Except.error noInterfaceMessage ↔
      interfaceLines exampleDeviceFile = []) ∧
    parseNetworkStats 0 exampleDeviceFile
      = Except.ok ("eth1",
          some
            { Name := "eth1"
              InBytes := 50
              OutBytes := 70
              InPackets := 10
              OutPackets := 20
              InErrors := 0
              OutErrors := 0 }) :=
  ⟨by decide, by decide, by decide, by decide,
   (parseNetworkStats_selects 0 exampleDeviceFile (by decide) (by decide) (by decide)).2.1,
   rfl⟩

set_option maxRecDepth 100000 in
/-- Claim C21, counterexample. With the counters `18446744073709551615` and `1` for `eth0`
and `5` and `5` for `eth1`, `eth1` is returned although `in_bytes + out_bytes` of `eth0` is
larger; with two lines for `eth0` (`100`, `100` and then `1`, `1`) and one for `eth1`
(`50`, `50`), `eth0` is returned with the counters `1` and `1`, which are not the largest;
and the error is returned for a text whose only interface line has 17 fields, a colon and a
name, the empty one, that is not excluded. -/
theorem parseNetworkStats_counterexample :
    parseNetworkStats 0 overflowDeviceFile
      = Except.ok ("eth1",
          some
            { Name := "eth1"
              InBytes := 5
              OutBytes := 5
              InPackets := 10
              OutPackets := 20
              InErrors := 0
              OutErrors := 0 }) ∧
    (∃ j ∈ interfaceLines overflowDeviceFile, j.Name = "eth0" ∧ 5 + 5 < j.InBytes + j.OutBytes) ∧
    parseNetworkStats 0 repeatedDeviceFile
      = Except.ok ("eth0",
          some
            { Name := "eth0"
              InBytes := 1
              OutBytes := 1
              InPackets := 10
              OutPackets := 20
              InErrors := 0
              OutErrors := 0 }) ∧
    (∃ j ∈ interfaceLines repeatedDeviceFile, j.Name = "eth1" ∧ 1 + 1 < j.InBytes + j.OutBytes) ∧
    parseNetworkStats 0 namelessDeviceFile = Except.error noInterfaceMessage ∧
    interfaceLines namelessDeviceFile ≠ [] :=
  ⟨rfl, by decide, rfl, by decide, rfl, by decide⟩

/-! ## parseLogFile (C25, C27) -/

/-- The text itself is among what `x*` can leave. -/
theorem self_mem_manyRun (f : Char → Bool) (t : List Char) : t ∈ manyRun f t := by
  cases t with
  | nil => simp [manyRun]
  | cons c r =>
    unfold manyRun
    split_ifs <;> simp

/-- After a text of characters of the class, `x*` can leave what follows it. -/
theorem mem_manyRun_append (f : Char → Bool) (w s : List Char) (h : ∀ c ∈ w, f c = true) :
    s ∈ manyRun f (w ++ s) := by
  induction w with
  | nil => exact self_mem_manyRun f s
  | cons c w ih =>
    simp only [List.cons_append, manyRun]
    rw [if_pos (h c (List.mem_cons_self _ _))]
    exact List.mem_cons_of_mem _ (ih (fun d hd => h d (List.mem_cons_of_mem _ hd)))

/-- The run of a concatenation. -/
theorem run_cat_append (xs ys : List Pattern) (t : List Char) :
    (cat (xs ++ ys)).run t = ((cat xs).run t).flatMap (cat ys).run := by
  induction xs generalizing t with
  | nil => simp [cat, Pattern.run]
  | cons x xs ih =>
    simp only [List.cons_append, cat, Pattern.run]
    rw [List.flatMap_assoc]
    congr 1
    funext t1
    exact ih t1

/-- The two patterns are the same around the method. -/
theorem acceptedPattern_eq :
    acceptedPattern
      = cat (methodPrefix ++ Pattern.group (Pattern.many1 isWordChar) :: methodSuffix) := rfl

/-- The two patterns are the same around the method. -/
theorem publickeyPattern_eq :
    publickeyPattern = cat (methodPrefix ++ Pattern.lit "publickey" :: methodSuffix) := rfl

/-- Where the text `publickey` can be read, `\w+` can read the same. -/
theorem publickey_run_subset (t r : List Char) (h : r ∈ (Pattern.lit "publickey").run t) :
    r ∈ (Pattern.group (Pattern.many1 isWordChar)).run t := by
  simp only [Pattern.run] at h
  split_ifs at h with hp
  · simp only [List.mem_singleton] at h
    obtain ⟨s, hs⟩ := List.isPrefixOf_iff_prefix.mp hp
    subst hs
    subst h
    show r ∈ (Pattern.many1 isWordChar).run (['p', 'u', 'b', 'l', 'i', 'c', 'k', 'e', 'y'] ++ r)
    simp only [Pattern.run, List.cons_append, List.nil_append]
    rw [if_pos (by decide)]
    exact mem_manyRun_append isWordChar ['u', 'b', 'l', 'i', 'c', 'k', 'e', 'y'] r (by decide)
  · simp at h

/-- Every match of `publickeyPattern` is a match of `acceptedPattern`. -/
theorem publickeyPattern_run_subset (t r : List Char) (h : r ∈ publickeyPattern.run t) :
    r ∈ acceptedPattern.run t := by
  rw [publickeyPattern_eq, run_cat_append] at h
  rw [acceptedPattern_eq, run_cat_append]
  obtain ⟨t1, h1, h2⟩ := List.mem_flatMap.mp h
  refine List.mem_flatMap.mpr ⟨t1, h1, ?_⟩
  simp only [cat, Pattern.run] at h2 ⊢
  obtain ⟨t2, h3, h4⟩ := List.mem_flatMap.mp h2
  refine List.mem_flatMap.mpr ⟨t2, ?_, h4⟩
  have := publickey_run_subset t1 t2 (by simpa [Pattern.run] using h3)
  simpa [Pattern.run] using this

/-- A text in which `publickeyPattern` is found is a text in which `acceptedPattern` is
found. -/
theorem found_accepted_of_publickey (text : List Char)
    (h : publickeyPattern.found text = true) : acceptedPattern.found text = true := by
  unfold Pattern.found at h ⊢
  rw [List.any_eq_true] at h ⊢
  obtain ⟨t, ht, hr⟩ := h
  refine ⟨t, ht, ?_⟩
  cases hrun : publickeyPattern.run t with
  | nil => simp [hrun] at hr
  | cons r rest =>
    have hm : r ∈ acceptedPattern.run t :=
      publickeyPattern_run_subset t r (by rw [hrun]; exact List.mem_cons_self _ _)
    cases hacc : acceptedPattern.run t with
    | nil => rw [hacc] at hm; simp at hm
    | cons _ _ => simp

/-- With seven elements or more, the reads of `parseLoginFromMatches` are in range. -/
theorem parseLoginFromMatches_isSome (m : List String) (hasMethod : Bool)
    (h : 7 ≤ m.length) : (parseLoginFromMatches m hasMethod).isSome = true := by
  rcases m with _ | ⟨a0, _ | ⟨a1, _ | ⟨a2, _ | ⟨a3, _ | ⟨a4, _ | ⟨a5, _ | ⟨a6, rest⟩⟩⟩⟩⟩⟩⟩ <;>
    simp at h
  cases hasMethod <;> simp [parseLoginFromMatches]

/-- With six elements or more, the reads of the invalid-user branch are in range. -/
theorem invalidUserLogin_isSome (m : List String) (h : 6 ≤ m.length) :
    (invalidUserLogin m).isSome = true := by
  rcases m with _ | ⟨a0, _ | ⟨a1, _ | ⟨a2, _ | ⟨a3, _ | ⟨a4, _ | ⟨a5, rest⟩⟩⟩⟩⟩⟩ <;>
    simp at h
  simp [invalidUserLogin]

/-- With six elements, the publickey branch reads an index out of range. -/
theorem publickeyLogin_of_six (m : List String) (h : m.length = 6) :
    publickeyLogin m = none := by
  rcases m with _ | ⟨a0, _ | ⟨a1, _ | ⟨a2, _ | ⟨a3, _ | ⟨a4, _ | ⟨a5, _ | ⟨a6, rest⟩⟩⟩⟩⟩⟩⟩ <;>
    simp at h
  simp [publickeyLogin]

/-- A line that is not in the publickey branch is processed without a panic. -/
theorem parseLine_isSome (re : Regexps) (currentYear : Int) (line : String)
    (h : lineBranch re line ≠ Branch.publickey) :
    (parseLine re currentYear line).isSome = true := by
  unfold parseLine
  unfold lineBranch at h ⊢
  split_ifs at h ⊢ with h1 h2 h3
  · rw [Option.isSome_map']
    exact parseLoginFromMatches_isSome _ _ h1
  · exact absurd rfl h
  · rw [Option.isSome_map']
    exact invalidUserLogin_isSome _ h3
  · rfl

/-- A log whose lines are not in the publickey branch is processed without a panic. -/
theorem parseLines_isSome (re : Regexps) (currentYear : Int) (lines : List String)
    (logins : List SSHLogin) (h : ∀ line ∈ lines, lineBranch re line ≠ Branch.publickey) :
    (parseLines re currentYear lines logins).isSome = true := by
  induction lines generalizing logins with
  | nil => rfl
  | cons line rest ih =>
    have hl := parseLine_isSome re currentYear line (h line (List.mem_cons_self _ _))
    have hrest : ∀ l ∈ rest, lineBranch re l ≠ Branch.publickey :=
      fun l hl => h l (List.mem_cons_of_mem _ hl)
    unfold parseLines
    cases hp : parseLine re currentYear line with
    | none => rw [hp] at hl; simp at hl
    | some o =>
      cases o with
      | none => exact ih _ hrest
      | some login => exact ih _ hrest

/-- When the regexp library reports the matches of `acceptedPattern` with their six groups
and reports no match of `publickeyPattern` where there is none, no line is in the publickey
branch. -/
theorem lineBranch_ne_publickey (re : Regexps) (line : String)
    (hsound : re.publickey line ≠ [] → publickeyPattern.found line.data = true)
    (hcomplete : acceptedPattern.found line.data = true →
      (re.accepted line).length = acceptedPattern.groups + 1) :
    lineBranch re line ≠ Branch.publickey := by
  unfold lineBranch
  split_ifs with h1 h2 h3
  · simp
  · exfalso
    have hne : re.publickey line ≠ [] := by
      intro h
      rw [h] at h2
      simp at h2
    have hlen := hcomplete (found_accepted_of_publickey _ (hsound hne))
    have hg : acceptedPattern.groups = 6 := rfl
    omega
  · simp
  · simp

/-- Claim C27. When the regexp library reports every match of `acceptedPattern` with its
six groups and reports a match of `publickeyPattern` only where there is one,
`parseLogFile` never reads an index out of range: every text in which `publickeyPattern` is
found is a text in which `acceptedPattern` is found, so no line gets to the publickey
branch, whose read of `matches[6]` in a match of 6 elements would be out of range; and the
reads of the accepted branch and of the invalid-user branch are below the number of capture
groups plus one. -/
theorem parseLogFile_index_in_range (openErr : Option String) (re : Regexps)
    (clock : LogClock) (scanned : List String) (scanErr : Option String)
    (hsound : ∀ line ∈ lastLines scanned,
      re.publickey line ≠ [] → publickeyPattern.found line.data = true)
    (hcomplete : ∀ line ∈ lastLines scanned, acceptedPattern.found line.data = true →
      (re.accepted line).length = acceptedPattern.groups + 1) :
    parseLogFile openErr re clock scanned scanErr ≠ ParseLogResult.indexOutOfRange ∧
    (∀ line ∈ lastLines scanned, lineBranch re line ≠ Branch.publickey) ∧
    (∀ text : List Char, publickeyPattern.found text = true →
      acceptedPattern.found text = true) ∧
    (∀ m : List String, m.length = publickeyPattern.groups + 1 → publickeyLogin m = none) ∧
    (∀ (m : List String) (hasMethod : Bool), acceptedPattern.groups + 1 ≤ m.length →
      (parseLoginFromMatches m hasMethod).isSome = true) ∧
    (∀ m : List String, invalidUserPattern.groups + 1 ≤ m.length →
      (invalidUserLogin m).isSome = true) := by
  have hbranch : ∀ line ∈ lastLines scanned, lineBranch re line ≠ Branch.publickey :=
    fun line hl => lineBranch_ne_publickey re line (hsound line hl) (hcomplete line hl)
  refine ⟨?_, hbranch, found_accepted_of_publickey, ?_, ?_, ?_⟩
  · have hsome := parseLines_isSome re clock.currentYear (lastLines scanned) [] hbranch
    unfold parseLogFile
    cases openErr with
    | some err => simp
    | none =>
      cases hp : parseLines re clock.currentYear (lastLines scanned) [] with
      | none => rw [hp] at hsome; simp at hsome
      | some logins => cases scanErr <;> simp
  · intro m hm
    exact publickeyLogin_of_six m hm
  · intro m hasMethod hm
    exact parseLoginFromMatches_isSome m hasMethod hm
  · intro m hm
    exact invalidUserLogin_isSome m hm

set_option maxRecDepth 100000 in
/-- Witness of `parseLogFile_index_in_range`: a log with a login by public key, an invalid
user and a login by password. -/
theorem parseLogFile_index_in_range_witness :
    (∀ line ∈ lastLines [publickeyLine, invalidUserLine, passwordLine],
      exampleRegexps.publickey line ≠ [] → publickeyPattern.found line.data = true) ∧
    (∀ line ∈ lastLines [publickeyLine, invalidUserLine, passwordLine],
      acceptedPattern.found line.data = true →
        (exampleRegexps.accepted line).length = acceptedPattern.groups + 1) ∧
    exampleRegexps.publickey publickeyLine ≠ [] ∧
    parseLogFile none exampleRegexps exampleClock [publickeyLine, invalidUserLine, passwordLine]
        none ≠ ParseLogResult.indexOutOfRange ∧
    (∀ line ∈ lastLines [publickeyLine, invalidUserLine, passwordLine],
      lineBranch exampleRegexps line ≠ Branch.publickey) :=
  have hsound : ∀ line ∈ lastLines [publickeyLine, invalidUserLine, passwordLine],
      exampleRegexps.publickey line ≠ [] → publickeyPattern.found line.data = true := by
    decide
  have hcomplete : ∀ line ∈ lastLines [publickeyLine, invalidUserLine, passwordLine],
      acceptedPattern.found line.data = true →
        (exampleRegexps.accepted line).length = acceptedPattern.groups + 1 := by
    decide
  ⟨hsound, hcomplete, by decide,
   (parseLogFile_index_in_range none exampleRegexps exampleClock
      [publickeyLine, invalidUserLine, passwordLine] none hsound hcomplete).1,
   (parseLogFile_index_in_range none exampleRegexps exampleClock
      [publickeyLine, invalidUserLine, passwordLine] none hsound hcomplete).2.1⟩

/-- The characters of a text to which the year 2026 was added. -/
theorem withYear_2026_data (s : String) :
    (withYear 2026 s).data = '2' :: '0' :: '2' :: '6' :: ' ' :: s.data := by
  have h : toString (2026 : Int) = "2026" := by decide
  unfold withYear
  rw [h]
  simp [String.data_append]

/-- No name of a month starts like `202`. -/
theorem lookupFrom_2026 (rest : List Char) :
    lookupFrom 0 shortMonthNames ('2' :: '0' :: '2' :: rest) = none := by
  have hm : ∀ name ∈ shortMonthNames, matchFold ['2', '0', '2'] name.data = false := by decide
  simp only [shortMonthNames, List.forall_mem_cons] at hm
  simp [lookupFrom, shortMonthNames, hm]

/-- A time to which the year 2026 was added twice is not parsed. -/
theorem ParseLogTime_double_year (s : String) :
    ParseLogTime (withYear 2026 (withYear 2026 s)) = none := by
  have hd : (withYear 2026 (withYear 2026 s)).data
      = '2' :: '0' :: '2' :: '6' :: ' ' :: '2' :: '0' :: '2' :: '6' :: ' ' :: s.data := by
    rw [withYear_2026_data, withYear_2026_data]
  unfold ParseLogTime
  rw [hd]
  simp [skipSpaces, lookupFrom_2026]

/-- The login of a line carries a time to which the year was added. -/
theorem parseLine_time (re : Regexps) (year : Int) (line : String) (login : SSHLogin)
    (h : parseLine re year line = some (some login)) : ∃ t, login.Time = withYear year t := by
  unfold parseLine at h
  split at h
  all_goals first
    | (obtain ⟨l, _, hl⟩ := Option.map_eq_some'.mp h
       simp only [Option.some.injEq] at hl
       exact ⟨l.Time, by rw [← hl]⟩)
    | simp at h

/-- The logins of a log carry times to which the year was added. -/
theorem parseLines_time (re : Regexps) (year : Int) (lines : List String)
    (acc result : List SSHLogin) (hacc : ∀ l ∈ acc, ∃ t, l.Time = withYear year t)
    (h : parseLines re year lines acc = some result) :
    ∀ l ∈ result, ∃ t, l.Time = withYear year t := by
  induction lines generalizing acc with
  | nil =>
    simp only [parseLines, Option.some.injEq] at h
    rw [← h]
    exact hacc
  | cons line rest ih =>
    unfold parseLines at h
    cases hp : parseLine re year line with
    | none => rw [hp] at h; simp at h
    | some o =>
      rw [hp] at h
      cases o with
      | none => exact ih acc hacc h
      | some login =>
        refine ih (acc ++ [login]) ?_ h
        intro l hl
        rcases List.mem_append.mp hl with hl | hl
        · exact hacc l hl
        · simp only [List.mem_singleton] at hl
          rw [hl]
          exact parseLine_time re year line login hp

/-- In the year 2026 the filter of `parseLogFile` keeps no login of the log. -/
theorem filterRecentLogins_nil (now : Time) (logins : List SSHLogin) (duration : Duration)
    (h : ∀ l ∈ logins, ∃ t, l.Time = withYear 2026 t) :
    filterRecentLogins { currentYear := 2026, now := now, filterYear := 2026 } logins duration
      = [] := by
  unfold filterRecentLogins
  rw [List.filter_eq_nil_iff]
  intro l hl
  obtain ⟨t, ht⟩ := h l hl
  simp only [ht, ParseLogTime_double_year]
  simp

set_option maxRecDepth 100000 in
/-- Claim C25, on the code. A log with three lines of 14 November, 11:55:00, 11:56:00 and
11:57:00, is read at 12:00:00 of that day in 2026. The loop of `parseLogFile` builds the
three logins, each with the year added to its time; the filter adds the year a second
time, `time.Parse` fails on `2026 2026 Nov 14 11:57:00`, and no login is returned, although
`2026 Nov 14 11:57:00` is parsed and lies within the last 15 minutes. In 2026 this is so for
every log: `parseLogFile` returns no login at all. -/
theorem parseLogFile_drops_recent_logins :
    (parseLines exampleRegexps 2026 (lastLines [publickeyLine, invalidUserLine, passwordLine])
        []).map (fun logins => logins.map (fun login => login.Time))
      = some ["2026 Nov 14 11:55:00", "2026 Nov 14 11:56:00", "2026 Nov 14 11:57:00"] ∧
    parseLogFile none exampleRegexps exampleClock [publickeyLine, invalidUserLine, passwordLine]
        none = ParseLogResult.logins [] ∧
    ParseLogTime (withYear 2026 "2026 Nov 14 11:57:00") = none ∧
    ParseLogTime (withYear 2026 "Nov 14 11:57:00") = some (Date 2026 11 14 11 57 0 0) ∧
    exampleClock.now - 15 * Minute < Date 2026 11 14 11 57 0 0 ∧
    (∀ (re : Regexps) (now : Time) (scanned : List String),
      parseLogFile none re { currentYear := 2026, now := now, filterYear := 2026 } scanned none
          = ParseLogResult.logins [] ∨
      parseLogFile none re { currentYear := 2026, now := now, filterYear := 2026 } scanned none
          = ParseLogResult.indexOutOfRange) := by
  refine ⟨by decide, by decide, by decide, by decide, by decide, ?_⟩
  intro re now scanned
  unfold parseLogFile
  cases hp : parseLines re 2026 (lastLines scanned) [] with
  | none => right; rfl
  | some logins =>
    left
    simp only
    rw [filterRecentLogins_nil now logins _
      (parseLines_time re 2026 _ [] logins (by simp) hp)]

end Zenoguard
